import Mathlib

/-!
# Detection post-processing of the YOLO desktop application

A shallow embedding of `src/core/types.h` and of the decode / non-maximum-suppression
path of `src/core/detector.cpp` (`YoloDetector::postProcessDetections`,
`YoloDetector::setConfig`, `YoloDetector::getConfig`).

Conventions of the embedding.

* `float` values (tensor entries, thresholds, scale factors, overlaps) are exact
  rationals `ℚ`: comparisons and products are the mathematical ones, rounding, NaN and
  infinities are not represented.
* `int` values are mathematical integers `Int`; `static_cast<int>` of a float is
  truncation toward zero when the result fits the 32-bit `int`, and `INT_MIN` otherwise
  (the conversion is undefined there; `INT_MIN` is what the x86-64 instruction yields).
* A `cv::Mat` output tensor is its `rows`, its `cols` and its row-major `data`;
  the entry `row[j]` of row `i` is `data[i * cols + j]`.
* The three parallel vectors `classIds`, `confidences`, `boxes` filled by the decode loop
  are one list of `Candidate` records, projected field by field where the source reads
  one of the vectors.
-/

namespace YoloApp
namespace Core

/-! ## Data model (`types.h`, and the OpenCV value types it uses) -/

/-- Integer rectangle `cv::Rect`: top-left corner and extent. -/
structure Rect where
  x : Int
  y : Int
  width : Int
  height : Int
  deriving DecidableEq, Repr, Inhabited

/-- Integer size `cv::Size` of an image. -/
structure Size where
  width : Int
  height : Int
  deriving DecidableEq, Repr

/-- Output tensor `cv::Mat` read as a row-major `rows × cols` float matrix. -/
structure Mat where
  rows : Nat
  cols : Nat
  data : List ℚ
  deriving DecidableEq, Repr

/-- Struct `Detection` of `types.h`. -/
structure Detection where
  boundingBox : Rect
  confidence : ℚ
  classId : Int
  className : String
  deriving DecidableEq, Repr

/-- Struct `DetectionConfig` of `types.h`, with its default member initialisers. -/
structure DetectionConfig where
  confidenceThreshold : ℚ := 1 / 2
  nmsThreshold : ℚ := 2 / 5
  inputWidth : Int := 640
  inputHeight : Int := 640
  targetClasses : List String := []
  deriving DecidableEq, Repr

/-- Method `DetectionConfig::isValid` of `types.h`. -/
def DetectionConfig.isValid (c : DetectionConfig) : Bool :=
  decide (c.confidenceThreshold > 0) && decide (c.confidenceThreshold ≤ 1) &&
  decide (c.nmsThreshold > 0) && decide (c.nmsThreshold ≤ 1) &&
  decide (c.inputWidth > 0) && decide (c.inputHeight > 0)

/-- One entry of the parallel vectors `classIds`, `confidences`, `boxes` that the decode
loop of `postProcessDetections` appends to together. -/
structure Candidate where
  classId : Int
  confidence : ℚ
  box : Rect
  deriving DecidableEq, Repr

/-- Data members of `YoloDetector` (`detector.h`) that the modelled operations read or
write; the inference network itself is not represented. -/
structure YoloDetector where
  classNames_ : List String
  outputNames_ : List String
  config_ : DetectionConfig
  modelPath_ : String
  loaded_ : Bool
  deriving DecidableEq, Repr

/-! ## `setConfig` / `getConfig` (`detector.cpp`) -/

/-- Method `YoloDetector::setConfig`: the new configuration is stored only when valid. -/
def YoloDetector.setConfig (self : YoloDetector) (config : DetectionConfig) : YoloDetector :=
  if config.isValid then { self with config_ := config } else self

/-- Method `YoloDetector::getConfig`. -/
def YoloDetector.getConfig (self : YoloDetector) : DetectionConfig :=
  self.config_

/-! ## Decode loop of `postProcessDetections` -/

/-- Conversion `static_cast<int>` of a float to the 32-bit `int`: truncation toward zero
when the truncated value is representable. For a value out of range the conversion is
undefined in C++; the value taken here is the one the x86-64 conversion instruction
yields, `INT_MIN`. -/
def truncToInt (q : ℚ) : Int :=
  let truncated := Int.tdiv q.num (q.den : Int)
  if -2147483648 ≤ truncated ∧ truncated ≤ 2147483647 then truncated else -2147483648

/-- Pointer expression `row[j]` with `row = data + i * output.cols`. -/
def Mat.rowAt (output : Mat) (i j : Nat) : ℚ :=
  output.data.getD (i * output.cols + j) 0

/-- Body of the class scan `for (int j = 5; j < output.cols; ++j)`: the accumulator is
`(maxClassScore, bestClassId)`. -/
def bestClassStep (row : Nat → ℚ) (acc : ℚ × Int) (j : Nat) : ℚ × Int :=
  if row j > acc.1 then (row j, (j : Int) - 5) else acc

/-- Class scan of the decode loop, started from `maxClassScore = 0.0f` and
`bestClassId = -1`; returns `(maxClassScore, bestClassId)`. -/
def findBestClass (row : Nat → ℚ) (cols : Nat) : ℚ × Int :=
  (List.range' 5 (cols - 5)).foldl (bestClassStep row) (0, -1)

/-- Class-name lookup
`(static_cast<size_t>(id) < classNames_.size()) ? classNames_[id] : "unknown"`.
A negative `int` converts to a `size_t` of at least `2^64 - 2^31`, above the size of any
vector, so the test fails for every negative id. -/
def resolveClassName (classNames : List String) (id : Int) : String :=
  if 0 ≤ id ∧ id.toNat < classNames.length then classNames.getD id.toNat "unknown"
  else "unknown"

/-- Test `isTargetClass` of the class filter: `std::find` over `targetClasses`. -/
def isTargetClass (targetClasses : List String) (className : String) : Bool :=
  targetClasses.contains className

/-- Clamp `std::max(0, std::min(v, dim - 1))`. -/
def clampToImage (v dim : Int) : Int :=
  max 0 (min v (dim - 1))

/-- Bounding-box extraction of the decode loop (lines 271-288): rescale centre and size,
convert to left/top/right/bottom, clamp, and build `cv::Rect(left, top, right - left,
bottom - top)`. -/
def extractBox (config : DetectionConfig) (imageSize : Size) (row : Nat → ℚ) : Rect :=
  let xFactor : ℚ := (imageSize.width : ℚ) / (config.inputWidth : ℚ)
  let yFactor : ℚ := (imageSize.height : ℚ) / (config.inputHeight : ℚ)
  let centerX := row 0 * xFactor
  let centerY := row 1 * yFactor
  let width := row 2 * xFactor
  let height := row 3 * yFactor
  let left := clampToImage (truncToInt (centerX - width / 2)) imageSize.width
  let top := clampToImage (truncToInt (centerY - height / 2)) imageSize.height
  let right := clampToImage (truncToInt (centerX + width / 2)) imageSize.width
  let bottom := clampToImage (truncToInt (centerY + height / 2)) imageSize.height
  { x := left, y := top, width := right - left, height := bottom - top }

/-- One iteration of the row loop of `postProcessDetections`: `none` when the row is
skipped by a `continue`, otherwise the entry pushed onto the three vectors. -/
def decodeRow (config : DetectionConfig) (classNames : List String) (imageSize : Size)
    (output : Mat) (i : Nat) : Option Candidate :=
  let row := output.rowAt i
  if output.cols < 5 then none
  else
    let objectness := row 4
    if objectness < config.confidenceThreshold then none
    else
      let best := findBestClass row output.cols
      let maxClassScore := best.1
      let bestClassId := best.2
      let confidence := objectness * maxClassScore
      if confidence < config.confidenceThreshold then none
      else if !config.targetClasses.isEmpty &&
          !isTargetClass config.targetClasses (resolveClassName classNames bestClassId) then none
      else
        some { classId := bestClassId, confidence := confidence,
               box := extractBox config imageSize row }

/-- Row loop `for (int i = 0; i < output.rows; ++i)` over one output tensor. -/
def decodeOutput (config : DetectionConfig) (classNames : List String) (imageSize : Size)
    (output : Mat) : List Candidate :=
  (List.range output.rows).filterMap (decodeRow config classNames imageSize output)

/-- Outer loop `for (const auto& output : outputs)`: all entries pushed, in push order. -/
def decodeCandidates (config : DetectionConfig) (classNames : List String) (imageSize : Size)
    (outputs : List Mat) : List Candidate :=
  (outputs.map (decodeOutput config classNames imageSize)).flatten

/-! ## Non-maximum suppression (`cv::dnn::NMSBoxes`, called at line 294)

`NMSBoxes` and the rectangle operations it uses belong to the OpenCV library; their
bodies are not among the repository sources. They are modelled here after the algorithm
the specification describes for this step (score floor, stable descending sort, greedy
keep by Intersection-over-Union), with the library defaults `eta = 1`, `top_k = 0`. -/

/-- Modelled from the spec: area `cv::Rect::area` (OpenCV), `width * height`. -/
def Rect.area (r : Rect) : Int :=
  r.width * r.height

/-- Modelled from the spec: intersection `a & b` of two `cv::Rect` (OpenCV), the empty
rectangle `Rect()` when the two do not overlap in a region of positive width and height. -/
def Rect.inter (a b : Rect) : Rect :=
  let x1 := max a.x b.x
  let y1 := max a.y b.y
  let w := min (a.x + a.width) (b.x + b.width) - x1
  let h := min (a.y + a.height) (b.y + b.height) - y1
  if w ≤ 0 ∨ h ≤ 0 then { x := 0, y := 0, width := 0, height := 0 }
  else { x := x1, y := y1, width := w, height := h }

/-- Modelled from the spec: distance `cv::jaccardDistance` (OpenCV), one minus area of
intersection over area of union, and `0` when the two areas sum to nothing. -/
def jaccardDistance (a b : Rect) : ℚ :=
  let Aa := a.area
  let Ab := b.area
  if Aa + Ab ≤ 0 then 0
  else
    let Aab := (a.inter b).area
    1 - (Aab : ℚ) / ((Aa + Ab - Aab : Int) : ℚ)

/-- Modelled from the spec: overlap measure that `NMSBoxes` uses for `cv::Rect` (OpenCV),
the Intersection-over-Union `1 - jaccardDistance(a, b)`. -/
def rectOverlap (a b : Rect) : ℚ :=
  1 - jaccardDistance a b

/-- Modelled from the spec: comparator `SortScorePairDescend` of the score sort (OpenCV),
strictly greater score first. -/
def SortScorePairDescend (p q : ℚ × Nat) : Bool :=
  decide (p.1 > q.1)

/-- Order in which a stable sort under `SortScorePairDescend` leaves `p` before `q`:
`q` does not compare before `p`. -/
def scoreOrder (p q : ℚ × Nat) : Prop :=
  SortScorePairDescend q p = false

instance : DecidableRel scoreOrder :=
  fun p q => inferInstanceAs (Decidable (SortScorePairDescend q p = false))

/-- Modelled from the spec: the score selection of `cv::dnn::NMSBoxes`, an OpenCV library
routine whose body is not among the repository sources. It pairs every score above the
score floor with its index (`scores[i] > threshold`) and sorts the pairs by descending
score with a stable sort, equal scores staying in index order. The default `top_k = 0`
keeps all of them. -/
def GetMaxScoreIndex (scores : List ℚ) (threshold : ℚ) : List (ℚ × Nat) :=
  List.insertionSort scoreOrder
    ((scores.zip (List.range scores.length)).filter (fun p => decide (p.1 > threshold)))

/-- Modelled from the spec: one round of the greedy loop of `cv::dnn::NMSBoxes` (OpenCV).
The candidate `idx` is kept when its overlap with every index kept so far is at most
`nms_threshold`, and is then appended to `indices`. -/
def nmsStep {β : Type} [Inhabited β] (computeOverlap : β → β → ℚ) (bboxes : List β)
    (nms_threshold : ℚ) (indices : List Nat) (p : ℚ × Nat) : List Nat :=
  let idx := p.2
  let keep := indices.all (fun kept_idx =>
    decide (computeOverlap (bboxes.getD idx default) (bboxes.getD kept_idx default)
      ≤ nms_threshold))
  if keep then indices ++ [idx] else indices

/-- Modelled from the spec: the greedy suppression of `cv::dnn::NMSBoxes` (OpenCV library
routine, body not among the repository sources): walk the candidates by descending score,
keep the highest remaining one and discard any later one whose overlap with a kept one
exceeds `nms_threshold`. The defaults `eta = 1` and `top_k = 0` of the call leave the
threshold fixed and the result unbounded. -/
def NMSFast {β : Type} [Inhabited β] (computeOverlap : β → β → ℚ) (bboxes : List β)
    (scores : List ℚ) (score_threshold nms_threshold : ℚ) : List Nat :=
  (GetMaxScoreIndex scores score_threshold).foldl
    (nmsStep computeOverlap bboxes nms_threshold) []

/-- Modelled from the spec: `cv::dnn::NMSBoxes` on `cv::Rect` boxes, the class-agnostic
greedy non-maximum suppression with Intersection-over-Union as overlap; returns the kept
indices in keeping order. -/
def NMSBoxes (bboxes : List Rect) (scores : List ℚ) (score_threshold nms_threshold : ℚ) :
    List Nat :=
  NMSFast rectOverlap bboxes scores score_threshold nms_threshold

/-! ## `postProcessDetections` -/

/-- Loop body of "Create final detections": the `Detection` built for a kept index. -/
def makeDetection (classNames : List String) (cands : List Candidate) (idx : Nat) : Detection :=
  { boundingBox := (cands.map (fun c => c.box)).getD idx default,
    confidence := (cands.map (fun c => c.confidence)).getD idx 0,
    classId := (cands.map (fun c => c.classId)).getD idx 0,
    className := resolveClassName classNames ((cands.map (fun c => c.classId)).getD idx 0) }

/-- Vector `indices` that `postProcessDetections` obtains from `cv::dnn::NMSBoxes` for the
decoded candidates. -/
def YoloDetector.nmsIndices (self : YoloDetector) (outputs : List Mat) (imageSize : Size) :
    List Nat :=
  let cands := decodeCandidates self.config_ self.classNames_ imageSize outputs
  NMSBoxes (cands.map (fun c => c.box)) (cands.map (fun c => c.confidence))
    self.config_.confidenceThreshold self.config_.nmsThreshold

/-- Method `YoloDetector::postProcessDetections`. -/
def YoloDetector.postProcessDetections (self : YoloDetector) (outputs : List Mat)
    (imageSize : Size) : List Detection :=
  if outputs.isEmpty then []
  else
    let cands := decodeCandidates self.config_ self.classNames_ imageSize outputs
    (self.nmsIndices outputs imageSize).map (makeDetection self.classNames_ cands)

/-! ## Auxiliary definitions used to state and prove the properties -/

/-- The class scan indexed by class id: `n` class columns scanned from column 5 on. -/
def scanClasses (row : Nat → ℚ) (n : Nat) : ℚ × Int :=
  (List.range n).foldl (fun acc k => bestClassStep row acc (5 + k)) (0, -1)

/-- Relation between an earlier kept index `a` and a later kept index `b`. -/
def withinOverlap {β : Type} [Inhabited β] (computeOverlap : β → β → ℚ) (bboxes : List β)
    (nms_threshold : ℚ) (a b : Nat) : Prop :=
  computeOverlap (bboxes.getD b default) (bboxes.getD a default) ≤ nms_threshold

instance : IsTotal (ℚ × Nat) scoreOrder :=
  ⟨fun p q => by
    simp only [scoreOrder, SortScorePairDescend, decide_eq_false_iff_not, not_lt]
    exact le_total q.1 p.1⟩

instance : IsTrans (ℚ × Nat) scoreOrder :=
  ⟨fun p q r hpq hqr => by
    simp only [scoreOrder, SortScorePairDescend, decide_eq_false_iff_not, not_lt] at *
    exact le_trans hqr hpq⟩

/-! ## Scenario inputs -/

/-- Detector of the scenarios: default configuration (confidence threshold 0.5, NMS
threshold 0.4, 640 x 640 input) and a three-name label list. -/
def scenarioDetector : YoloDetector :=
  { classNames_ := ["person", "bicycle", "car"], outputNames_ := ["output0"], config_ := {},
    modelPath_ := "model.onnx", loaded_ := true }

/-- Image size of the scenarios, equal to the model input size. -/
def scenarioSize : Size :=
  { width := 640, height := 640 }

/-- One-row output tensor: objectness 0.9 and class scores 0.2, 0.81, 0.1. -/
def scenarioOutput : Mat :=
  { rows := 1, cols := 8, data := [10, 10, 4, 4, 0.9, 0.2, 0.81, 0.1] }

/-- Detection decoded from `scenarioOutput`. -/
def scenarioDetection : Detection :=
  { boundingBox := { x := 8, y := 8, width := 4, height := 4 }, confidence := 0.729,
    classId := 1, className := "bicycle" }

/-- One-row output tensor whose two class scores are both zero. -/
def zeroScoreOutput : Mat :=
  { rows := 1, cols := 7, data := [10, 10, 4, 4, 0.9, 0, 0] }

/-- One-row output tensor whose product `objectness * maxClassScore` is exactly the
default confidence threshold 0.5. -/
def thresholdOutput : Mat :=
  { rows := 1, cols := 6, data := [10, 10, 4, 4, 1, 0.5] }

/-- Two-row output tensor with two objects far apart. -/
def twoObjectOutput : Mat :=
  { rows := 2, cols := 6, data := [10, 10, 4, 4, 1, 0.9, 50, 50, 10, 10, 1, 0.6] }

/-- Detector of the suppression scenario: NMS threshold 0.5. -/
def overlapDetector : YoloDetector :=
  { classNames_ := ["person"], outputNames_ := ["output0"],
    config_ := { nmsThreshold := 1 / 2 }, modelPath_ := "model.onnx", loaded_ := true }

/-- Two-row output tensor for one object: confidences 0.6 and 0.9, boxes
`(6, 0, 34, 20)` and `(0, 0, 34, 20)` of Intersection-over-Union 0.7. -/
def overlapOutput : Mat :=
  { rows := 2, cols := 6, data := [23, 10, 34, 20, 1, 0.6, 17, 10, 34, 20, 1, 0.9] }

/-- Detector with a target-class filter on the label "car". -/
def filterDetector : YoloDetector :=
  { classNames_ := ["person", "bicycle", "car"], outputNames_ := ["output0"],
    config_ := { targetClasses := ["car"] }, modelPath_ := "model.onnx", loaded_ := true }

/-- Configuration rejected by `isValid`: confidence threshold zero. -/
def invalidConfig : DetectionConfig :=
  { confidenceThreshold := 0 }

/-- Valid configuration different from the default one. -/
def tunedConfig : DetectionConfig :=
  { confidenceThreshold := 1 / 4, nmsThreshold := 1 / 2, inputWidth := 416, inputHeight := 416 }

/-! ## String helpers (`std::string` members used by the sources)

A `std::string` is a Lean `String`; positions count characters. On ASCII text, and on
valid UTF-8 for the characters searched here (`.`, `/`, `\`), this agrees with the byte
positions of the sources. -/

/-- Position of the last element of `s` that satisfies `p`, `none` when there is none. -/
def findLastIdx (p : Char → Bool) : List Char → Option Nat
  | [] => none
  | c :: cs =>
    match findLastIdx p cs with
    | some i => some (i + 1)
    | none => if p c then some 0 else none

/-- Member `std::string::find_last_of(chars)`: `none` stands for `npos`. -/
def find_last_of (s : String) (chars : String) : Option Nat :=
  findLastIdx (fun c => chars.toList.contains c) s.toList

/-- Member `std::string::substr(pos)`: `none` stands for the `std::out_of_range` thrown
when `pos` is `npos` or otherwise beyond the size. -/
def substr (s : String) (pos : Option Nat) : Option String :=
  match pos with
  | none => none
  | some n => if n ≤ s.toList.length then some (String.mk (s.toList.drop n)) else none

/-- In-place `std::transform(..., ::tolower)` over a string. -/
def tolower (s : String) : String :=
  String.mk (s.toList.map Char.toLower)

/-- Comparison `a <= b` of two character sequences in lexicographic order, characters
compared by code (for valid UTF-8 the order of the bytes that `std::string` compares). -/
def charsLE : List Char → List Char → Bool
  | [], _ => true
  | _ :: _, [] => false
  | a :: as, b :: bs =>
    if a.toNat < b.toNat then true
    else if b.toNat < a.toNat then false
    else charsLE as bs

/-- Order in which `std::sort` leaves two `std::string` values: `a` not after `b`. -/
def stringLE (a b : String) : Prop :=
  charsLE a.toList b.toList = true

instance : DecidableRel stringLE :=
  fun a b => inferInstanceAs (Decidable (charsLE a.toList b.toList = true))

/-! ## Model loading (`detector.cpp`, `config.h`) -/

namespace Config

/-- Constant `COCO_CLASSES` of `config.h`. -/
def COCO_CLASSES : List String :=
  ["person", "bicycle", "car", "motorcycle", "airplane", "bus", "train", "truck",
   "boat", "traffic light", "fire hydrant", "stop sign", "parking meter", "bench",
   "bird", "cat", "dog", "horse", "sheep", "cow", "elephant", "bear", "zebra",
   "giraffe", "backpack", "umbrella", "handbag", "tie", "suitcase", "frisbee",
   "skis", "snowboard", "sports ball", "kite", "baseball bat", "baseball glove",
   "skateboard", "surfboard", "tennis racket", "bottle", "wine glass", "cup",
   "fork", "knife", "spoon", "bowl", "banana", "apple", "sandwich", "orange",
   "broccoli", "carrot", "hot dog", "pizza", "donut", "cake", "chair", "couch",
   "potted plant", "bed", "dining table", "toilet", "tv", "laptop", "mouse",
   "remote", "keyboard", "cell phone", "microwave", "oven", "toaster", "sink",
   "refrigerator", "book", "clock", "vase", "scissors", "teddy bear", "hair drier",
   "toothbrush"]

/-- Constant `SUPPORTED_EXTENSIONS` of `config.h`. -/
def SUPPORTED_EXTENSIONS : List String :=
  [".jpg", ".jpeg", ".png", ".bmp", ".tiff", ".tif", ".webp"]

end Config

/-- Network `cv::dnn::Net` as far as `loadModel` reads it. -/
structure Net where
  empty : Bool
  unconnectedOutLayersNames : List String
  deriving DecidableEq, Repr

/-- What `loadModel` and `loadClassNames` obtain from outside the detector: the three
network readers of the inference engine (`none` when the reader throws) and the lines
`std::getline` yields for a file (`none` when the file cannot be opened). -/
structure LoadEnv where
  readNetFromONNX : String → Option Net
  readNetFromDarknet : String → String → Option Net
  readNetFromTensorflow : String → Option Net
  fileLines : String → Option (List String)

/-- Constructor `YoloDetector::YoloDetector`: not loaded, built-in label list, default
configuration. -/
def YoloDetector.new : YoloDetector :=
  { classNames_ := Config.COCO_CLASSES, outputNames_ := [], config_ := {}, modelPath_ := "",
    loaded_ := false }

/-- Method `YoloDetector::isLoaded`. -/
def YoloDetector.isLoaded (self : YoloDetector) : Bool :=
  self.loaded_

/-- Method `YoloDetector::loadClassNames`: an unopenable file keeps the current labels,
otherwise the labels become the non-empty lines in file order. -/
def YoloDetector.loadClassNames (env : LoadEnv) (self : YoloDetector) (classesPath : String) :
    YoloDetector :=
  match env.fileLines classesPath with
  | none => self
  | some lines =>
    { self with
      classNames_ := lines.foldl (fun acc line => if line ≠ "" then acc ++ [line] else acc) [] }

/-- Expression `modelPath.substr(modelPath.find_last_of('.'))` followed by the lower-casing
`std::transform`; `none` when `substr` throws. -/
def modelExtension (modelPath : String) : Option String :=
  (substr modelPath (find_last_of modelPath ".")).map tolower

/-- Format dispatch of `loadModel` on the lower-cased extension: the network read by the
matching reader (`none` when the reader throws), or the `std::runtime_error` thrown for
an unsupported format. -/
def readNetwork (env : LoadEnv) (extension modelPath configPath : String) :
    Except String (Option Net) :=
  if extension = ".onnx" then .ok (env.readNetFromONNX modelPath)
  else if extension = ".weights" ∧ configPath ≠ "" then
    .ok (env.readNetFromDarknet configPath modelPath)
  else if extension = ".pb" then .ok (env.readNetFromTensorflow modelPath)
  else .error ("Unsupported model format: " ++ extension)

/-- Body of the `try` block of `YoloDetector::loadModel`: the detector state when the block
is left, and the exception in flight if it is left by one. The stored network itself is
not represented, only the output names read back from it. -/
def YoloDetector.loadModelTry (env : LoadEnv) (self : YoloDetector)
    (modelPath configPath classesPath : String) : YoloDetector × Option String :=
  let s1 : YoloDetector := { self with loaded_ := false, modelPath_ := modelPath }
  match modelExtension modelPath with
  | none => (s1, some "basic_string::substr")
  | some extension =>
    match readNetwork env extension modelPath configPath with
    | .error msg => (s1, some msg)
    | .ok none => (s1, some "cv::Exception")
    | .ok (some net) =>
      if net.empty then (s1, some ("Failed to load network from: " ++ modelPath))
      else
        let s2 : YoloDetector := { s1 with outputNames_ := net.unconnectedOutLayersNames }
        let s3 := if classesPath ≠ "" then s2.loadClassNames env classesPath else s2
        ({ s3 with loaded_ := true }, none)

/-- Method `YoloDetector::loadModel`: the returned flag and the detector afterwards. Every
exception of the body is a `std::exception` and is caught by the handler, which clears
`loaded_` and returns `false`. -/
def YoloDetector.loadModel (env : LoadEnv) (self : YoloDetector)
    (modelPath configPath classesPath : String) : Bool × YoloDetector :=
  match self.loadModelTry env modelPath configPath classesPath with
  | (s, some _) => (false, { s with loaded_ := false })
  | (s, none) => (true, s)

/-- Environment of the loading scenarios: the ONNX reader yields a network with one
output, the other readers throw, and the only label file is "labels.txt". -/
def scenarioEnv : LoadEnv :=
  { readNetFromONNX := fun _ =>
      some { empty := false, unconnectedOutLayersNames := ["output0"] },
    readNetFromDarknet := fun _ _ => none,
    readNetFromTensorflow := fun _ => none,
    fileLines := fun path =>
      if path = "labels.txt" then some ["cat", "", "dog", "", "bird"] else none }

/-- Detector after a successful load of "model.onnx" on a new detector. -/
def loadedDetector : YoloDetector :=
  (YoloDetector.new.loadModel scenarioEnv "model.onnx" "" "").2

/-! ## Result model (`types.h`, `detector.cpp`) -/

/-- Decoded image buffer `cv::Mat` of an `ImageResult`; the image with no rows is the
empty one. -/
structure Image where
  rows : Nat
  cols : Nat
  pixels : List Nat
  deriving DecidableEq, Repr

/-- Struct `ImageResult` of `types.h`, with its default member initialisers. -/
structure ImageResult where
  imagePath : String := ""
  detections : List Detection := []
  originalImage : Image := { rows := 0, cols := 0, pixels := [] }
  annotatedImage : Image := { rows := 0, cols := 0, pixels := [] }
  metadata : String := ""
  processed : Bool := false
  deriving DecidableEq, Repr

/-- Constructor `ImageResult(path)`: only the path is set. -/
def ImageResult.new (path : String) : ImageResult :=
  { imagePath := path }

/-- Method `ImageResult::getDetectionCount`. -/
def ImageResult.getDetectionCount (self : ImageResult) : Int :=
  (self.detections.length : Int)

/-- Struct `FolderResult` of `types.h`; an entry of `images` is a `std::shared_ptr`, `none`
when null. -/
structure FolderResult where
  folderPath : String := ""
  folderName : String := ""
  images : List (Option ImageResult) := []
  totalDetections : Int := 0
  imageCount : Int := 0
  processed : Bool := false
  deriving DecidableEq, Repr

/-- Constructor `FolderResult(path)`: the folder name is what follows the last `/` or `\`
of the path, the whole path when there is none. -/
def FolderResult.new (path : String) : FolderResult :=
  { folderPath := path,
    folderName :=
      match find_last_of path "/\\" with
      | some pos => (substr path (some (pos + 1))).getD ""
      | none => path }

/-- Method `FolderResult::updateCounts`: both counters are recomputed from `images`. -/
def FolderResult.updateCounts (self : FolderResult) : FolderResult :=
  { self with
    imageCount := (self.images.length : Int),
    totalDetections :=
      self.images.foldl
        (fun total img =>
          match img with
          | some r => total + r.getDetectionCount
          | none => total)
        0 }

/-- Struct `ProcessingStats` of `types.h`; the two time points are clock readings. -/
structure ProcessingStats where
  totalFolders : Int := 0
  processedFolders : Int := 0
  totalImages : Int := 0
  processedImages : Int := 0
  totalDetections : Int := 0
  startTime : Nat := 0
  endTime : Nat := 0
  deriving DecidableEq, Repr

/-- Folder of the counting scenario: two images with 2 and 1 detections and a null
entry, with stale counters. -/
def staleFolder : FolderResult :=
  { folderPath := "root/A", folderName := "A",
    images :=
      [some { imagePath := "root/A/a.jpg",
              detections :=
                [{ boundingBox := { x := 0, y := 0, width := 1, height := 1 }, confidence := 1,
                   classId := 0, className := "person" },
                 { boundingBox := { x := 2, y := 2, width := 1, height := 1 }, confidence := 1,
                   classId := 0, className := "person" }],
              processed := true },
       none,
       some { imagePath := "root/A/b.jpg",
              detections :=
                [{ boundingBox := { x := 0, y := 0, width := 1, height := 1 }, confidence := 1,
                   classId := 2, className := "car" }],
              processed := true }],
    totalDetections := 40, imageCount := 7 }

/-! ## Folder scanner (`folder_scanner.cpp`)

The scanner reads the file system through `std::filesystem`. A directory listing is an
`Entries` value: the entries a `directory_iterator` yields, in its order, each a regular
file, a sub-directory with its own listing, or something else. A directory that cannot
be read makes the iterator opening it throw `filesystem_error`. The path of an entry is
the path of its directory, `/`, and its name. -/

/-- Listing of a directory. -/
inductive Entries where
  | nil : Entries
  | file (name : String) (rest : Entries) : Entries
  | other (name : String) (rest : Entries) : Entries
  | dir (name : String) (readable : Bool) (children : Entries) (rest : Entries) : Entries
  deriving DecidableEq, Repr

/-- A directory as the scanner meets it: whether it can be read, and its listing. -/
structure Directory where
  readable : Bool
  entries : Entries
  deriving DecidableEq, Repr

/-- What the status queries `fs::exists` and `fs::is_directory` find for the root path:
nothing, something that is no directory, a directory, or no answer, when the status of
the path cannot be read and the query throws `filesystem_error` with the text `what`. -/
inductive RootState where
  | missing : RootState
  | notDirectory : RootState
  | directory (d : Directory) : RootState
  | unknown (what : String) : RootState
  deriving DecidableEq, Repr

/-- Equality of two outcomes of a call that may throw can be decided. -/
instance {ε α : Type} [DecidableEq ε] [DecidableEq α] : DecidableEq (Except ε α) := fun x y =>
  match x, y with
  | .ok a, .ok b =>
    if h : a = b then isTrue (h ▸ rfl) else isFalse (fun e => h (Except.ok.inj e))
  | .error a, .error b =>
    if h : a = b then isTrue (h ▸ rfl) else isFalse (fun e => h (Except.error.inj e))
  | .ok _, .error _ => isFalse (fun e => Except.noConfusion e)
  | .error _, .ok _ => isFalse (fun e => Except.noConfusion e)

/-- Modelled from the spec: member `fs::path::filename` (C++ standard library), the part
of the path after its last `/`. -/
def pathFilename (p : String) : String :=
  match find_last_of p "/" with
  | some pos => (substr p (some (pos + 1))).getD ""
  | none => p

/-- Modelled from the spec: member `fs::path::extension` (C++ standard library), the part
of the file name from its last `.` on; empty for the names `.` and `..`, for a name
without `.`, and for a name whose only `.` is its first character. -/
def pathExtension (p : String) : String :=
  let filename := pathFilename p
  if filename = "." ∨ filename = ".." then ""
  else
    match find_last_of filename "." with
    | none => ""
    | some 0 => ""
    | some (pos + 1) => (substr filename (some (pos + 1))).getD ""

namespace FolderScanner

/-- Static method `FolderScanner::isImageFile`. -/
def isImageFile (filePath : String) : Bool :=
  Config.SUPPORTED_EXTENSIONS.contains (tolower (pathExtension filePath))

/-- Loop of `folderContainsImages` over the entries of a readable directory: `true` at
the first regular file that is an image file. -/
def anyImageEntry (folderPath : String) : Entries → Bool
  | .nil => false
  | .file name rest => isImageFile (folderPath ++ "/" ++ name) || anyImageEntry folderPath rest
  | .other _ rest => anyImageEntry folderPath rest
  | .dir _ _ _ rest => anyImageEntry folderPath rest

/-- Static method `FolderScanner::folderContainsImages`: `false` when listing the
directory throws. -/
def folderContainsImages (folderPath : String) (d : Directory) : Bool :=
  if d.readable then anyImageEntry folderPath d.entries else false

/-- Loop of `getImageFiles` over the entries of a readable directory: the paths pushed,
in listing order. -/
def listImageFiles (folderPath : String) : Entries → List String
  | .nil => []
  | .file name rest =>
    if isImageFile (folderPath ++ "/" ++ name) then
      (folderPath ++ "/" ++ name) :: listImageFiles folderPath rest
    else listImageFiles folderPath rest
  | .other _ rest => listImageFiles folderPath rest
  | .dir _ _ _ rest => listImageFiles folderPath rest

/-- Method `FolderScanner::getImageFiles`: the image paths of the directory sorted with
`std::sort`, nothing when listing the directory throws. -/
def getImageFiles (folderPath : String) (d : Directory) : List String :=
  if d.readable then (listImageFiles folderPath d.entries).insertionSort stringLE
  else []

/-- Method `FolderScanner::scanSingleFolder`: one unprocessed `ImageResult` per image
path, then `updateCounts`. -/
def scanSingleFolder (folderPath : String) (d : Directory) (result : FolderResult) :
    FolderResult :=
  let imageFiles := getImageFiles folderPath d
  ({ result with
      images := result.images ++ imageFiles.map (fun p => some (ImageResult.new p)) }
    ).updateCounts

/-- Loop of `scanForImages` over `fs::recursive_directory_iterator`, for the entries of
the directory `parent`: the folders pushed onto `foldersToScan` (each with its directory)
and whether the iteration ran to its end. Every entry is visited before its children;
stepping into a directory that cannot be read throws, which ends the whole loop. -/
def walkDirectories (rootPath : String) (parent : String) :
    Entries → List (String × Directory) × Bool
  | .nil => ([], true)
  | .file _ rest => walkDirectories rootPath parent rest
  | .other _ rest => walkDirectories rootPath parent rest
  | .dir name readable children rest =>
    let path := parent ++ "/" ++ name
    let d : Directory := { readable := readable, entries := children }
    let here : List (String × Directory) :=
      if folderContainsImages path d && decide (path ≠ rootPath) then [(path, d)] else []
    if readable then
      let sub := walkDirectories rootPath path children
      if sub.2 then
        let next := walkDirectories rootPath parent rest
        (here ++ sub.1 ++ next.1, next.2)
      else (here ++ sub.1, false)
    else (here, false)

/-- Folders collected by `scanForImages` before they are scanned one by one. -/
def foldersToScan (rootPath : String) (root : Directory) (recursive : Bool) :
    List (String × Directory) :=
  let first : List (String × Directory) :=
    if folderContainsImages rootPath root then [(rootPath, root)] else []
  if recursive then
    if root.readable then first ++ (walkDirectories rootPath rootPath root.entries).1
    else first
  else first

/-- Method `FolderScanner::scanForImages`: the folders returned, or the text of the
`filesystem_error` that leaves the call. The status queries of line 17 stand outside every
`try` block, so their exception is not handled; every later file-system access is inside
a `try` block of the scanner. The calls of the progress callback made on the way are
given by `progressCalls`. -/
def scanForImages (rootPath : String) (root : RootState) (recursive : Bool) :
    Except String (List FolderResult) :=
  match root with
  | .unknown what => .error what
  | .missing => .ok []
  | .notDirectory => .ok []
  | .directory d =>
    .ok ((foldersToScan rootPath d recursive).filterMap (fun pd =>
      let folderResult := scanSingleFolder pd.1 pd.2 (FolderResult.new pd.1)
      if folderResult.images.isEmpty then none else some folderResult))

end FolderScanner

/-- Names of the regular files of a listing, in listing order. -/
def Entries.fileNames : Entries → List String
  | .nil => []
  | .file name rest => name :: fileNames rest
  | .other _ rest => fileNames rest
  | .dir _ _ _ rest => fileNames rest

/-- All directories below the directory `parent`, each with its path, every directory
before the directories inside it. -/
def Entries.subdirectories (parent : String) : Entries → List (String × Directory)
  | .nil => []
  | .file _ rest => subdirectories parent rest
  | .other _ rest => subdirectories parent rest
  | .dir name readable children rest =>
    (parent ++ "/" ++ name, { readable := readable, entries := children })
      :: (subdirectories (parent ++ "/" ++ name) children ++ subdirectories parent rest)

/-- Paths of the regular files of the directory `folderPath` that are image files, in
listing order. -/
def imagePathsOf (folderPath : String) (entries : Entries) : List String :=
  (entries.fileNames.map (fun name => folderPath ++ "/" ++ name)).filter
    FolderScanner.isImageFile

/-- Record the scan returns for the folder "A" of `scenarioTree`. -/
def scenarioFolderA : FolderResult :=
  { folderPath := "root/A", folderName := "A",
    images :=
      [some (ImageResult.new "root/A/a.jpg"), some (ImageResult.new "root/A/b.jpeg"),
       some (ImageResult.new "root/A/c.PNG")],
    totalDetections := 0, imageCount := 3, processed := false }

/-! ## Detection worker (`detection_worker.cpp`) -/

/-- Data members of `DetectionWorker` (`detection_worker.h`) together with the state of
the `QThread` it derives from: `running_` is what `QThread::isRunning()` reports and
`runsStarted_` counts the calls of `QThread::start()`. -/
structure DetectionWorker where
  rootPath_ : String := ""
  detector_ : Option YoloDetector := none
  recursive_ : Bool := true
  cancellationRequested_ : Bool := false
  processing_ : Bool := false
  results_ : List FolderResult := []
  stats_ : ProcessingStats := {}
  running_ : Bool := false
  runsStarted_ : Nat := 0
  deriving DecidableEq, Repr

/-- Inherited method `QThread::isRunning`. -/
def DetectionWorker.isRunning (self : DetectionWorker) : Bool :=
  self.running_

/-- Method `DetectionWorker::isProcessing`. -/
def DetectionWorker.isProcessing (self : DetectionWorker) : Bool :=
  self.processing_

/-- Method `DetectionWorker::startProcessing`: returns at once while the thread runs,
otherwise stores the arguments, clears the flags, results and statistics and starts the
thread. -/
def DetectionWorker.startProcessing (self : DetectionWorker) (rootPath : String)
    (detector : Option YoloDetector) (recursive : Bool) : DetectionWorker :=
  if self.isRunning then self
  else
    { self with
      rootPath_ := rootPath, detector_ := detector, recursive_ := recursive,
      cancellationRequested_ := false, processing_ := true,
      results_ := [], stats_ := {},
      running_ := true, runsStarted_ := self.runsStarted_ + 1 }

/-- Worker in the middle of a run over "root": one folder scanned, two of three images
processed. -/
def busyWorker : DetectionWorker :=
  { rootPath_ := "root", detector_ := some scenarioDetector, recursive_ := true,
    cancellationRequested_ := false, processing_ := true,
    results_ := [scenarioFolderA],
    stats_ := { totalFolders := 1, totalImages := 3, processedImages := 2,
                totalDetections := 5, startTime := 10 },
    running_ := true, runsStarted_ := 1 }

/-! ## Inference (`detector.cpp`) -/

/-- Method `cv::Mat::empty` of an image buffer: no element. -/
def Image.empty (self : Image) : Bool :=
  self.rows == 0 || self.cols == 0

/-- Method `YoloDetector::detectObjects`. The argument `forward` stands for the blob
preparation and the forward pass of the stored network: the output tensors, `none` when
one of the two throws. The handler of the `try` block returns the empty list. -/
def YoloDetector.detectObjects (forward : Image → Option (List Mat)) (self : YoloDetector)
    (image : Image) : List Detection :=
  if !self.loaded_ || image.empty then []
  else
    match forward image with
    | none => []
    | some outputs =>
      self.postProcessDetections outputs { width := (image.cols : Int), height := (image.rows : Int) }

/-- One call of the public interface of a detector, with its arguments; for `loadModel`
and `detectObjects` the arguments include what the call obtains from outside. -/
inductive DetectorCall where
  | setConfig (config : DetectionConfig)
  | loadModel (env : LoadEnv) (modelPath configPath classesPath : String)
  | detectObjects (forward : Image → Option (List Mat)) (image : Image)

/-- Detector state after one call: `detectObjects` writes no modelled data member. -/
def YoloDetector.afterCall (self : YoloDetector) : DetectorCall → YoloDetector
  | .setConfig config => self.setConfig config
  | .loadModel env modelPath configPath classesPath =>
    (self.loadModel env modelPath configPath classesPath).2
  | .detectObjects _ _ => self

/-- Detector state after construction followed by a sequence of calls. -/
def YoloDetector.afterCalls (calls : List DetectorCall) : YoloDetector :=
  calls.foldl YoloDetector.afterCall YoloDetector.new

/-! ## Image processor (`image_processor.cpp`) -/

/-- What image processing obtains from outside: the decoder `cv::imread` (the empty image
when the file cannot be read or decoded), and the drawing and report steps
`createAnnotatedImage` and `generateMetadata`, each yielding its result or the text of the
`std::exception` it throws. -/
structure ImageEnv where
  imread : String → Image
  createAnnotatedImage : Image → List Detection → Except String Image
  generateMetadata : String → Image → List Detection → Except String String

namespace ImageProcessor

/-- Method `ImageProcessor::loadImage`: throws when the decoded image is empty. -/
def loadImage (env : ImageEnv) (imagePath : String) : Except String Image :=
  let image := env.imread imagePath
  if image.empty then .error ("Failed to load image: " ++ imagePath) else .ok image

/-- The `try` block of `processImageResult`, where `detector` is the method
`detectObjects` of the detector passed in: the record when the block is left, the
exception in flight if it is left by one, and the number of calls of `detector` made. -/
def processImageResultTry (env : ImageEnv) (detector : Image → Except String (List Detection))
    (r : ImageResult) : ImageResult × Option String × Nat :=
  match loadImage env r.imagePath with
  | .error e => (r, some e, 0)
  | .ok image =>
    let r1 : ImageResult := { r with originalImage := image }
    match detector r1.originalImage with
    | .error e => (r1, some e, 1)
    | .ok detections =>
      let r2 : ImageResult := { r1 with detections := detections }
      match env.createAnnotatedImage r2.originalImage r2.detections with
      | .error e => (r2, some e, 1)
      | .ok annotated =>
        let r3 : ImageResult := { r2 with annotatedImage := annotated }
        match env.generateMetadata r3.imagePath r3.originalImage r3.detections with
        | .error e => (r3, some e, 1)
        | .ok metadata => ({ r3 with metadata := metadata, processed := true }, none, 1)

/-- Method `ImageProcessor::processImageResult` together with the number of calls of the
detector it makes: a null or already processed entry returns at once, and the handler
marks the record processed and stores the error text. -/
def processImageResultRun (env : ImageEnv) (detector : Image → Except String (List Detection))
    (imageResult : Option ImageResult) : Option ImageResult × Nat :=
  match imageResult with
  | none => (none, 0)
  | some r =>
    if r.processed then (some r, 0)
    else
      match processImageResultTry env detector r with
      | (r1, none, calls) => (some r1, calls)
      | (r1, some e, calls) =>
        (some { r1 with processed := true, metadata := "Error processing image: " ++ e }, calls)

/-- Method `ImageProcessor::processImageResult`: the entry after the call. -/
def processImageResult (env : ImageEnv) (detector : Image → Except String (List Detection))
    (imageResult : Option ImageResult) : Option ImageResult :=
  (processImageResultRun env detector imageResult).1

/-- Number of calls of `detector.detectObjects` made by one call of
`processImageResult`. -/
def detectorCalls (env : ImageEnv) (detector : Image → Except String (List Detection))
    (imageResult : Option ImageResult) : Nat :=
  (processImageResultRun env detector imageResult).2

/-- The call `processImageResult(imageResult, *detector_)` as its caller sees it: the
entry afterwards, or the exception that leaves the call. Every `std::exception` of the
body is handled inside, so the call always returns. -/
def processImageResultCall (env : ImageEnv)
    (detector : Image → Except String (List Detection))
    (imageResult : Option ImageResult) : Except String (Option ImageResult) :=
  .ok (processImageResult env detector imageResult)

end ImageProcessor

/-! ## Progress callback of the scanner (`folder_scanner.cpp`, lines 44-63) -/

/-- Arguments of one call of the progress callback. -/
structure ProgressCall where
  current : Int
  total : Int
  currentPath : String
  deriving DecidableEq, Repr

/-- Calls of the progress callback made by `scanForImages`, in order: one per collected
folder before it is scanned, then the closing call with an empty path; none when the
call returns or throws at line 17. -/
def FolderScanner.progressCalls (rootPath : String) (root : RootState) (recursive : Bool) :
    List ProgressCall :=
  match root with
  | .unknown _ => []
  | .missing => []
  | .notDirectory => []
  | .directory d =>
    let folders := (FolderScanner.foldersToScan rootPath d recursive).map Prod.fst
    let totalFolders : Int := (folders.length : Int)
    folders.enum.map
        (fun ip => { current := (ip.1 : Int), total := totalFolders, currentPath := ip.2 }) ++
      [{ current := totalFolders, total := totalFolders, currentPath := "" }]

/-! ## Run of the detection worker (`detection_worker.cpp`) -/

/-- Signals of `DetectionWorker` (`detection_worker.h`), with their arguments. -/
inductive Event where
  | scanningStarted (totalFolders : Int)
  | folderScanned (folderName : String) (imageCount : Int)
  | processingStarted (totalImages : Int)
  | imageProcessed (imagePath : String) (detectionCount : Int)
  | folderCompleted (folderName : String) (totalDetections : Int)
  | processingCompleted (stats : ProcessingStats)
  | errorOccurred (error : String)
  deriving DecidableEq, Repr

/-- What a run obtains from outside the worker: the directory tree a root path names, the
image decoder and the drawing and report steps, the forward pass of the detector, the
two readings of the steady clock, and `cancelled n`, the value the atomic flag
`cancellationRequested_` has at the `n`-th read the run makes of it (another thread sets
it through `requestCancellation`). -/
structure WorkerEnv where
  fileSystem : String → RootState
  images : ImageEnv
  forward : Image → Option (List Mat)
  startClock : Nat
  endClock : Nat
  cancelled : Nat → Bool

/-- State of a run: the worker, the signals emitted so far in order, and the number of
reads of the cancellation flag made so far. -/
structure RunState where
  worker : DetectionWorker
  events : List Event
  polls : Nat

/-- Statement `emit signal(...)`. -/
def RunState.emit (s : RunState) (e : Event) : RunState :=
  { s with events := s.events ++ [e] }

/-- Value read from `cancellationRequested_` at the current point of the run. -/
def RunState.cancellationRequested (env : WorkerEnv) (s : RunState) : Bool :=
  env.cancelled s.polls

/-- State after a read of `cancellationRequested_`: the flag holds the value read. -/
def RunState.polled (env : WorkerEnv) (s : RunState) : RunState :=
  { s with
    worker := { s.worker with cancellationRequested_ := env.cancelled s.polls },
    polls := s.polls + 1 }

namespace DetectionWorker

/-- Method `DetectionWorker::getResults`: the value of `results_`; that the copy shares the
image records with `results_` is represented by `SharedWorker.getResults`. -/
def getResults (self : DetectionWorker) : List FolderResult :=
  self.results_

/-- Method `DetectionWorker::getStats`: a copy of `stats_`. -/
def getStats (self : DetectionWorker) : ProcessingStats :=
  self.stats_

/-- Progress callback installed by `performScanning` (lines 94-106). -/
def onScanProgress (env : WorkerEnv) (s : RunState) (call : ProgressCall) : RunState :=
  if s.cancellationRequested env then s.polled env
  else
    let s1 := s.polled env
    let s2 := if call.current = 0 ∧ call.total > 0 then s1.emit (.scanningStarted call.total) else s1
    if call.currentPath ≠ "" then s2.emit (.folderScanned call.currentPath 0) else s2

/-- Test `!detector_ || !detector_->isLoaded()`. -/
def detectorNotLoaded (detector : Option YoloDetector) : Bool :=
  match detector with
  | none => true
  | some d => !d.isLoaded

/-- Method `DetectionWorker::performScanning`: the state when it is left, and the
exception in flight if it is left by one, which is the `std::runtime_error` of the
detector test or the `filesystem_error` that leaves `scanForImages` before its first
progress call. -/
def performScanning (env : WorkerEnv) (s : RunState) : RunState × Option String :=
  if detectorNotLoaded s.worker.detector_ then (s, some "Detector not loaded")
  else
    let root := env.fileSystem s.worker.rootPath_
    match FolderScanner.scanForImages s.worker.rootPath_ root s.worker.recursive_ with
    | .error what => (s, some what)
    | .ok scannedResults =>
      let s1 :=
        (FolderScanner.progressCalls s.worker.rootPath_ root s.worker.recursive_).foldl
          (onScanProgress env) s
      if s1.cancellationRequested env then (s1.polled env, none)
      else
        let s2 := s1.polled env
        let stats1 : ProcessingStats :=
          { s2.worker.stats_ with totalFolders := (scannedResults.length : Int) }
        let stats2 : ProcessingStats :=
          scannedResults.foldl
            (fun st folder => { st with totalImages := st.totalImages + folder.imageCount })
            stats1
        let s3 : RunState :=
          { s2 with worker := { s2.worker with results_ := scannedResults, stats_ := stats2 } }
        (s3.emit (.processingStarted s3.worker.stats_.totalImages), none)

/-- Path `imageResult->imagePath` of an entry; the scanner stores no null entry, and the
path of one is taken to be empty. -/
def entryPath (imageResult : Option ImageResult) : String :=
  match imageResult with
  | some r => r.imagePath
  | none => ""

/-- Count `imageResult->getDetectionCount()` of an entry; the scanner stores no null
entry, and the count of one is taken to be zero. -/
def entryDetectionCount (imageResult : Option ImageResult) : Int :=
  match imageResult with
  | some r => r.getDetectionCount
  | none => 0

/-- Body of the image loop of `performProcessing` after the cancellation test (lines
144-162), where `detector` is `detectObjects` of `*detector_`: the entry and the state
after one pass. -/
def processImageStep (env : WorkerEnv) (detector : Image → Except String (List Detection))
    (imageResult : Option ImageResult) (s : RunState) : Option ImageResult × RunState :=
  let outcome : Option ImageResult × RunState :=
    match ImageProcessor.processImageResultCall env.images detector imageResult with
    | .ok processed =>
      (processed, s.emit (.imageProcessed (entryPath processed) (entryDetectionCount processed)))
    | .error e =>
      (imageResult,
        s.emit (.errorOccurred ("Error processing " ++ entryPath imageResult ++ ": " ++ e)))
  let s2 := outcome.2
  let stats : ProcessingStats :=
    { s2.worker.stats_ with
      processedImages := s2.worker.stats_.processedImages + 1,
      totalDetections := s2.worker.stats_.totalDetections + entryDetectionCount outcome.1 }
  (outcome.1, { s2 with worker := { s2.worker with stats_ := stats } })

/-- Inner loop of `performProcessing` over the images of one folder (lines 139-163): the
entries after the loop and the state after it. The loop is left at the first read of the
flag that yields `true`. -/
def processImages (env : WorkerEnv) (detector : Image → Except String (List Detection)) :
    List (Option ImageResult) → RunState → List (Option ImageResult) × RunState
  | [], s => ([], s)
  | imageResult :: rest, s =>
    if s.cancellationRequested env then (imageResult :: rest, s.polled env)
    else
      let step := processImageStep env detector imageResult (s.polled env)
      let next := processImages env detector rest step.2
      (step.1 :: next.1, next.2)

/-- Body of the folder loop of `performProcessing` after the cancellation test (lines
139-171): the folder and the state after one pass. A folder whose image loop was left
early is still counted, marked processed and reported. -/
def processFolderStep (env : WorkerEnv) (detector : Image → Except String (List Detection))
    (folderResult : FolderResult) (s : RunState) : FolderResult × RunState :=
  let inner := processImages env detector folderResult.images s
  let counted : FolderResult := ({ folderResult with images := inner.1 }).updateCounts
  let done : FolderResult := { counted with processed := true }
  let s2 := inner.2
  let stats : ProcessingStats :=
    { s2.worker.stats_ with processedFolders := s2.worker.stats_.processedFolders + 1 }
  let s3 : RunState := { s2 with worker := { s2.worker with stats_ := stats } }
  (done, s3.emit (.folderCompleted done.folderName done.totalDetections))

/-- Outer loop of `performProcessing` over the folders (lines 133-172): the folders after
the loop and the state after it. -/
def processFolders (env : WorkerEnv) (detector : Image → Except String (List Detection)) :
    List FolderResult → RunState → List FolderResult × RunState
  | [], s => ([], s)
  | folderResult :: rest, s =>
    if s.cancellationRequested env then (folderResult :: rest, s.polled env)
    else
      let step := processFolderStep env detector folderResult (s.polled env)
      let next := processFolders env detector rest step.2
      (step.1 :: next.1, next.2)

/-- Method `detectObjects` of `*detector_` as the image processor calls it: the detector
of the worker never lets an exception out. -/
def detectorOf (env : WorkerEnv) (detector : Option YoloDetector) :
    Image → Except String (List Detection) :=
  fun image =>
    match detector with
    | some d => .ok (d.detectObjects env.forward image)
    | none => .ok []

/-- Method `DetectionWorker::performProcessing`. -/
def performProcessing (env : WorkerEnv) (s : RunState) : RunState :=
  let out := processFolders env (detectorOf env s.worker.detector_) s.worker.results_ s
  { out.2 with worker := { out.2.worker with results_ := out.1 } }

/-- Body of the `try` block of `run` after `stats_.start()`: the state when the block is
left, and the exception in flight if it is left by one. -/
def runTry (env : WorkerEnv) (s : RunState) : RunState × Option String :=
  match performScanning env s with
  | (s1, some e) => (s1, some e)
  | (s1, none) =>
    let s2 := if s1.cancellationRequested env then s1.polled env
      else performProcessing env (s1.polled env)
    let s3 : RunState :=
      { s2 with worker := { s2.worker with stats_ := { s2.worker.stats_ with endTime := env.endClock } } }
    (s3.emit (.processingCompleted s3.worker.stats_), none)

/-- Method `DetectionWorker::run` up to its last statement: the state of the run after
the `try` block and its handler. -/
def runFinal (env : WorkerEnv) (self : DetectionWorker) : RunState :=
  let s0 : RunState :=
    { worker := { self with stats_ := { self.stats_ with startTime := env.startClock } },
      events := [], polls := 0 }
  match runTry env s0 with
  | (s, some e) => s.emit (.errorOccurred e)
  | (s, none) => s

/-- Method `DetectionWorker::run`, the body of the background thread: the worker when the
thread has finished and the signals emitted, in order. -/
def run (env : WorkerEnv) (self : DetectionWorker) : DetectionWorker × List Event :=
  let s1 := runFinal env self
  ({ s1.worker with processing_ := false, running_ := false }, s1.events)

/-- Number of reads of `cancellationRequested_` the run makes: its poll points are the
reads `0`, ..., `runPolls - 1`. -/
def runPolls (env : WorkerEnv) (self : DetectionWorker) : Nat :=
  (runFinal env self).polls

end DetectionWorker

/-! ## Shared ownership of the image records (`std::shared_ptr<ImageResult>`) -/

/-- Store of the `ImageResult` objects owned through `std::shared_ptr`; an address is an
index into it. -/
abbrev ImageStore := List ImageResult

/-- Struct `FolderResult` of `types.h` with each entry of `images` held as the address its
`std::shared_ptr` points to, `none` when null. -/
structure SharedFolderResult where
  folderPath : String := ""
  folderName : String := ""
  images : List (Option Nat) := []
  totalDetections : Int := 0
  imageCount : Int := 0
  processed : Bool := false
  deriving DecidableEq, Repr

/-- Implicit copy constructor of `FolderResult`: member-wise, and copying a
`std::shared_ptr` copies the address. -/
def SharedFolderResult.copy (self : SharedFolderResult) : SharedFolderResult :=
  { folderPath := self.folderPath, folderName := self.folderName, images := self.images,
    totalDetections := self.totalDetections, imageCount := self.imageCount,
    processed := self.processed }

/-- The worker with `results_` held at the level of addresses, and the store the
addresses point into. -/
structure SharedWorker where
  results_ : List SharedFolderResult
  store : ImageStore
  deriving DecidableEq, Repr

/-- Method `DetectionWorker::getResults` at the level of addresses: `return results_`
copy-constructs the vector, element by element. -/
def SharedWorker.getResults (self : SharedWorker) : List SharedFolderResult :=
  self.results_.map SharedFolderResult.copy

/-- Record an entry points to in a store. -/
def ImageStore.deref (store : ImageStore) (entry : Option Nat) : Option ImageResult :=
  match entry with
  | none => none
  | some address => store[address]?

/-- What a reader sees through a sequence of folder records: each folder with the image
records its entries point to in the store. -/
def observe (store : ImageStore) (folders : List SharedFolderResult) : List FolderResult :=
  folders.map (fun f =>
    { folderPath := f.folderPath, folderName := f.folderName,
      images := f.images.map store.deref,
      totalDetections := f.totalDetections, imageCount := f.imageCount,
      processed := f.processed })

/-- The call `processImageResult(imageResult, *detector_)` of the background run on the
entry `entry` of its working tree: the record the entry points to is updated in place. -/
def SharedWorker.processEntry (env : ImageEnv)
    (detector : Image → Except String (List Detection)) (self : SharedWorker)
    (entry : Option Nat) : SharedWorker :=
  match entry with
  | none => self
  | some address =>
    match ImageProcessor.processImageResult env detector (self.store.deref (some address)) with
    | none => self
    | some r => { self with store := self.store.set address r }

/-! ## Auxiliary definitions for the worker properties -/

/-- Whether a signal is `processingCompleted`. -/
def Event.isProcessingCompleted : Event → Bool
  | .processingCompleted _ => true
  | _ => false

/-- Whether a signal is `errorOccurred`. -/
def Event.isErrorOccurred : Event → Bool
  | .errorOccurred _ => true
  | _ => false

/-- Whether a signal is one of `processingStarted`, `imageProcessed`, `folderCompleted`
and `processingCompleted`. -/
def Event.isProcessingSignal : Event → Bool
  | .processingStarted _ => true
  | .imageProcessed _ _ => true
  | .folderCompleted _ _ => true
  | .processingCompleted _ => true
  | _ => false

/-- Whether an entry points to a record marked processed. -/
def entryProcessed (imageResult : Option ImageResult) : Bool :=
  match imageResult with
  | some r => r.processed
  | none => false

/-- Number of entries of a folder that point to a record marked processed. -/
def processedCount (images : List (Option ImageResult)) : Int :=
  ((images.filter entryProcessed).length : Int)

/-- Sum of the detection counts of the records marked processed. -/
def processedDetections (images : List (Option ImageResult)) : Int :=
  ((images.filter entryProcessed).map DetectionWorker.entryDetectionCount).sum

/-- Sum of `len(folder.images)` over a result tree. -/
def imagesIn (folders : List FolderResult) : Int :=
  (folders.map (fun f => (f.images.length : Int))).sum

/-- Number of entries of a result tree that point to a record marked processed. -/
def processedImagesIn (folders : List FolderResult) : Int :=
  (folders.map (fun f => processedCount f.images)).sum

/-- Sum of the detection counts of the records of a result tree marked processed. -/
def processedDetectionsIn (folders : List FolderResult) : Int :=
  (folders.map (fun f => processedDetections f.images)).sum

/-- Number of folders of a result tree marked processed. -/
def processedFoldersIn (folders : List FolderResult) : Int :=
  ((folders.filter (fun f => f.processed)).length : Int)

/-- Number of `imageProcessed` signals of a trace. -/
def signalledImages : List Event → Int
  | [] => 0
  | .imageProcessed _ _ :: rest => 1 + signalledImages rest
  | _ :: rest => signalledImages rest

/-- Sum of the detection counts carried by the `imageProcessed` signals of a trace. -/
def signalledDetections : List Event → Int
  | [] => 0
  | .imageProcessed _ detectionCount :: rest => detectionCount + signalledDetections rest
  | _ :: rest => signalledDetections rest

/-- Number of `folderCompleted` signals of a trace. -/
def signalledFolders : List Event → Int
  | [] => 0
  | .folderCompleted _ _ :: rest => 1 + signalledFolders rest
  | _ :: rest => signalledFolders rest

/-- A folder as the scanner returns it: not processed, counted, and every entry a record
that is not processed yet. -/
def FolderResult.fresh (f : FolderResult) : Prop :=
  f.processed = false ∧ f.imageCount = (f.images.length : Int) ∧
    ∀ img ∈ f.images, ∃ r : ImageResult, img = some r ∧ r.processed = false

/-- The state `s'` is reached from `s` by steps that add the given amounts to the three
progress counters, leave the other statistics, the detector and the scan arguments as
they are, and emit signals none of which is `processingCompleted` or `errorOccurred`,
with as many `imageProcessed` and `folderCompleted` signals, and as many detections
carried by them, as the counters grow by. -/
def RunState.Advances (s s' : RunState) (images detections folders : Int) : Prop :=
  s'.worker.stats_ =
      { s.worker.stats_ with
        processedImages := s.worker.stats_.processedImages + images,
        totalDetections := s.worker.stats_.totalDetections + detections,
        processedFolders := s.worker.stats_.processedFolders + folders } ∧
    s'.worker.detector_ = s.worker.detector_ ∧
    s'.worker.rootPath_ = s.worker.rootPath_ ∧
    s'.worker.recursive_ = s.worker.recursive_ ∧
    s'.worker.results_ = s.worker.results_ ∧
    ∃ extra, s'.events = s.events ++ extra ∧
      (∀ e ∈ extra, e.isProcessingCompleted = false ∧ e.isErrorOccurred = false) ∧
      signalledImages extra = images ∧ signalledDetections extra = detections ∧
      signalledFolders extra = folders

/-- Environment of the failed scan: the status of no root path can be read, and no image
can be decoded. -/
def brokenEnv : WorkerEnv :=
  { fileSystem := fun _ => .unknown "filesystem error: cannot get file status",
    images :=
      { imread := fun _ => { rows := 0, cols := 0, pixels := [] },
        createAnnotatedImage := fun image _ => .ok image,
        generateMetadata := fun _ _ _ => .ok "" },
    forward := fun _ => none,
    startClock := 10, endClock := 20,
    cancelled := fun _ => false }

/-- Tree with readable "A", unreadable "U" and readable "D", listed in that order, each
holding one image. -/
def mixedTree : RootState :=
  .directory
    { readable := true,
      entries :=
        .dir "A" true (.file "a.jpg" .nil)
          (.dir "U" false (.file "u.jpg" .nil) (.dir "D" true (.file "d.jpg" .nil) .nil)) }

/-- The tree `mixedTree` with "U" readable. -/
def readableTree : RootState :=
  .directory
    { readable := true,
      entries :=
        .dir "A" true (.file "a.jpg" .nil)
          (.dir "U" true (.file "u.jpg" .nil) (.dir "D" true (.file "d.jpg" .nil) .nil)) }

/-- Tree of the run scenario: sub-folder "A" with the images "a.jpg" and "b.jpg". -/
def runTree : RootState :=
  .directory
    { readable := true,
      entries := .dir "A" true (.file "a.jpg" (.file "b.jpg" .nil)) .nil }

/-- Image environment of the run scenario: "root/A/a.jpg" cannot be decoded, every other
file decodes to a 2 x 2 image, and drawing and report succeed. -/
def runImages : ImageEnv :=
  { imread := fun path =>
      if path = "root/A/a.jpg" then { rows := 0, cols := 0, pixels := [] }
      else { rows := 2, cols := 2, pixels := [0, 0, 0, 0] },
    createAnnotatedImage := fun image _ => .ok image,
    generateMetadata := fun imagePath _ _ => .ok ("Path: " ++ imagePath) }

/-- Environment of the run scenario: "root" names `runTree`, the forward pass throws for
every image, and the cancellation flag is never set. -/
def runEnv : WorkerEnv :=
  { fileSystem := fun path => if path = "root" then runTree else .missing,
    images := runImages,
    forward := fun _ => none,
    startClock := 10, endClock := 20,
    cancelled := fun _ => false }

/-- Environment of the cancelled run: as `runEnv`, with the flag set from the read before
the second image on (reads 0 to 3 are those of the two progress calls, of
`performScanning` and of `run`; read 4 precedes the folder, read 5 the first image). -/
def cancelledEnv : WorkerEnv :=
  { runEnv with cancelled := fun n => decide (6 ≤ n) }

/-- Worker of the aliasing scenario at the level of addresses: one folder whose only
entry points to the unprocessed record at address 0. -/
def sharedScenario : SharedWorker :=
  { results_ :=
      [{ folderPath := "root/A", folderName := "A", images := [some 0], imageCount := 1 }],
    store := [ImageResult.new "root/A/a.jpg"] }

/-! ## Facts about the decode loop -/

theorem findBestClass_eq_scanClasses (row : Nat → ℚ) (cols : Nat) :
    findBestClass row cols = scanClasses row (cols - 5) := by
  unfold findBestClass scanClasses
  rw [List.range'_eq_map_range, List.foldl_map]

theorem scanClasses_succ (row : Nat → ℚ) (n : Nat) :
    scanClasses row (n + 1) = bestClassStep row (scanClasses row n) (5 + n) := by
  unfold scanClasses
  rw [List.range_succ, List.foldl_append]
  rfl

/-- Outcome of the class scan over `n` class columns: either no score is positive and the
sentinel `(0, -1)` is returned, or the first column that attains the maximum is. -/
theorem scanClasses_spec (row : Nat → ℚ) (n : Nat) :
    ((scanClasses row n).2 = -1 ∧ (scanClasses row n).1 = 0 ∧ ∀ k, k < n → row (5 + k) ≤ 0) ∨
    (∃ k, k < n ∧ (scanClasses row n).2 = (k : Int) ∧ (scanClasses row n).1 = row (5 + k) ∧
      0 < row (5 + k) ∧ (∀ k2, k2 < n → row (5 + k2) ≤ row (5 + k)) ∧
      (∀ k2, k2 < k → row (5 + k2) < row (5 + k))) := by
  induction n with
  | zero => left; simp [scanClasses]
  | succ n ih =>
    rw [scanClasses_succ]
    unfold bestClassStep
    rcases ih with ⟨h2, h1, hall⟩ | ⟨k, hk, h2, h1, hpos, hmax, hfirst⟩
    · by_cases hgt : row (5 + n) > (scanClasses row n).1
      · right
        rw [if_pos hgt]
        rw [h1] at hgt
        refine ⟨n, Nat.lt_succ_self n, ?_, rfl, hgt, ?_, ?_⟩
        · simp only; push_cast; ring
        · intro k2 hk2
          rcases Nat.lt_succ_iff_lt_or_eq.mp hk2 with h | h
          · exact le_trans (hall k2 h) (le_of_lt hgt)
          · rw [h]
        · intro k2 hk2
          exact lt_of_le_of_lt (hall k2 hk2) hgt
      · left
        rw [if_neg hgt]
        rw [h1] at hgt
        refine ⟨h2, h1, ?_⟩
        intro k2 hk2
        rcases Nat.lt_succ_iff_lt_or_eq.mp hk2 with h | h
        · exact hall k2 h
        · rw [h]; exact not_lt.mp hgt
    · by_cases hgt : row (5 + n) > (scanClasses row n).1
      · right
        rw [if_pos hgt]
        rw [h1] at hgt
        refine ⟨n, Nat.lt_succ_self n, ?_, rfl, lt_trans hpos hgt, ?_, ?_⟩
        · simp only; push_cast; ring
        · intro k2 hk2
          rcases Nat.lt_succ_iff_lt_or_eq.mp hk2 with h | h
          · exact le_trans (hmax k2 h) (le_of_lt hgt)
          · rw [h]
        · intro k2 hk2
          exact lt_of_le_of_lt (hmax k2 hk2) hgt
      · right
        rw [if_neg hgt]
        rw [h1] at hgt
        refine ⟨k, Nat.lt_succ_of_lt hk, h2, h1, hpos, ?_, hfirst⟩
        intro k2 hk2
        rcases Nat.lt_succ_iff_lt_or_eq.mp hk2 with h | h
        · exact hmax k2 h
        · rw [h]; exact not_lt.mp hgt

/-- What an accepted row guarantees about the entry pushed for it. -/
theorem decodeRow_some {config : DetectionConfig} {classNames : List String}
    {imageSize : Size} {output : Mat} {i : Nat} {c : Candidate}
    (h : decodeRow config classNames imageSize output i = some c) :
    5 ≤ output.cols ∧
    config.confidenceThreshold ≤ output.rowAt i 4 ∧
    c.confidence = output.rowAt i 4 * (findBestClass (output.rowAt i) output.cols).1 ∧
    config.confidenceThreshold ≤ c.confidence ∧
    c.classId = (findBestClass (output.rowAt i) output.cols).2 ∧
    c.box = extractBox config imageSize (output.rowAt i) ∧
    (config.targetClasses = [] ∨
      resolveClassName classNames c.classId ∈ config.targetClasses) := by
  unfold decodeRow at h
  simp only at h
  split_ifs at h with h1 h2 h3 h4
  have hc := Option.some.inj h
  subst hc
  refine ⟨not_lt.mp h1, not_lt.mp h2, rfl, not_lt.mp h3, rfl, rfl, ?_⟩
  by_cases he : config.targetClasses = []
  · left; exact he
  · right
    simp [isTargetClass, he] at h4
    exact h4

theorem mem_decodeCandidates {config : DetectionConfig} {classNames : List String}
    {imageSize : Size} {outputs : List Mat} {c : Candidate} :
    c ∈ decodeCandidates config classNames imageSize outputs ↔
      ∃ output ∈ outputs, ∃ i, i < output.rows ∧
        decodeRow config classNames imageSize output i = some c := by
  simp [decodeCandidates, decodeOutput, List.mem_filterMap]

/-! ## Facts about the score selection -/

theorem zip_range_eq_enum_swap (scores : List ℚ) :
    scores.zip (List.range scores.length) = scores.enum.map Prod.swap := by
  rw [List.enum_eq_zip_range, List.zip_swap]

theorem mem_zip_range {scores : List ℚ} {p : ℚ × Nat} :
    p ∈ scores.zip (List.range scores.length) ↔ scores[p.2]? = some p.1 := by
  rw [zip_range_eq_enum_swap, List.mem_map]
  constructor
  · rintro ⟨q, hq, rfl⟩
    exact List.mem_enum_iff_getElem?.mp hq
  · intro h
    exact ⟨(p.2, p.1), List.mem_enum_iff_getElem?.mpr h, rfl⟩

theorem mem_GetMaxScoreIndex {scores : List ℚ} {threshold : ℚ} {p : ℚ × Nat} :
    p ∈ GetMaxScoreIndex scores threshold ↔ scores[p.2]? = some p.1 ∧ threshold < p.1 := by
  unfold GetMaxScoreIndex
  rw [List.mem_insertionSort, List.mem_filter, mem_zip_range]
  simp

theorem scoreOrder_iff (p q : ℚ × Nat) : scoreOrder p q ↔ q.1 ≤ p.1 := by
  simp [scoreOrder, SortScorePairDescend]

theorem sorted_GetMaxScoreIndex (scores : List ℚ) (threshold : ℚ) :
    (GetMaxScoreIndex scores threshold).Pairwise scoreOrder :=
  List.sorted_insertionSort scoreOrder _

/-- The selected indices, in sorted order, carry non-increasing scores. -/
theorem pairwise_score_GetMaxScoreIndex (scores : List ℚ) (threshold : ℚ) :
    ((GetMaxScoreIndex scores threshold).map Prod.snd).Pairwise
      (fun a b => scores.getD b 0 ≤ scores.getD a 0) := by
  rw [List.pairwise_map]
  refine List.Pairwise.imp_of_mem ?_ (sorted_GetMaxScoreIndex scores threshold)
  intro p q hp hq hpq
  have h1 := (mem_GetMaxScoreIndex.mp hp).1
  have h2 := (mem_GetMaxScoreIndex.mp hq).1
  rw [List.getD_eq_getElem?_getD, List.getD_eq_getElem?_getD, h1, h2]
  exact (scoreOrder_iff p q).mp hpq

/-! ## Facts about the greedy suppression loop -/

theorem nmsStep_keep {β : Type} [Inhabited β] {computeOverlap : β → β → ℚ} {bboxes : List β}
    {nms_threshold : ℚ} {indices : List Nat} {p : ℚ × Nat}
    (h : ∀ a ∈ indices, withinOverlap computeOverlap bboxes nms_threshold a p.2) :
    nmsStep computeOverlap bboxes nms_threshold indices p = indices ++ [p.2] := by
  unfold nmsStep
  simp only
  rw [if_pos]
  rw [List.all_eq_true]
  intro a ha
  simpa [withinOverlap] using h a ha

theorem nmsStep_cases {β : Type} [Inhabited β] (computeOverlap : β → β → ℚ) (bboxes : List β)
    (nms_threshold : ℚ) (indices : List Nat) (p : ℚ × Nat) :
    (nmsStep computeOverlap bboxes nms_threshold indices p = indices ++ [p.2] ∧
      ∀ a ∈ indices, withinOverlap computeOverlap bboxes nms_threshold a p.2) ∨
    nmsStep computeOverlap bboxes nms_threshold indices p = indices := by
  unfold nmsStep
  simp only
  split_ifs with h
  · left
    refine ⟨rfl, ?_⟩
    intro a ha
    simpa [withinOverlap] using List.all_eq_true.mp h a ha
  · right; rfl

/-- The loop only appends: its result is the starting list followed by a sublist of the
walked indices, and pairwise separation of the kept indices is preserved. -/
theorem nmsFold_spec {β : Type} [Inhabited β] (computeOverlap : β → β → ℚ) (bboxes : List β)
    (nms_threshold : ℚ) (l : List (ℚ × Nat)) :
    ∀ acc : List Nat, ∃ extra : List Nat,
      l.foldl (nmsStep computeOverlap bboxes nms_threshold) acc = acc ++ extra ∧
      extra.Sublist (l.map Prod.snd) ∧
      (acc.Pairwise (withinOverlap computeOverlap bboxes nms_threshold) →
        (acc ++ extra).Pairwise (withinOverlap computeOverlap bboxes nms_threshold)) := by
  induction l with
  | nil => intro acc; exact ⟨[], by simp, by simp, by simp⟩
  | cons p l ih =>
    intro acc
    rw [List.foldl_cons]
    rcases nmsStep_cases computeOverlap bboxes nms_threshold acc p with ⟨hs, hk⟩ | hs
    · obtain ⟨extra, he, hsub, hpw⟩ := ih (acc ++ [p.2])
      refine ⟨p.2 :: extra, ?_, ?_, ?_⟩
      · rw [hs, he]; simp
      · simpa using hsub.cons₂ p.2
      · intro hacc
        have h1 : (acc ++ [p.2]).Pairwise (withinOverlap computeOverlap bboxes nms_threshold) := by
          rw [List.pairwise_append]
          refine ⟨hacc, List.pairwise_singleton _ _, ?_⟩
          intro a ha b hb
          rw [List.mem_singleton] at hb
          subst hb
          exact hk a ha
        have h2 := hpw h1
        simpa using h2
    · obtain ⟨extra, he, hsub, hpw⟩ := ih acc
      refine ⟨extra, ?_, ?_, hpw⟩
      · rw [hs, he]
      · simpa using hsub.cons p.2

/-- When every walked candidate is within the overlap threshold of every index kept so
far and of every candidate before it, the loop keeps all of them. -/
theorem nmsFold_keep_all {β : Type} [Inhabited β] (computeOverlap : β → β → ℚ)
    (bboxes : List β) (nms_threshold : ℚ) (l : List (ℚ × Nat)) :
    ∀ acc : List Nat,
      (∀ p ∈ l, ∀ a ∈ acc, withinOverlap computeOverlap bboxes nms_threshold a p.2) →
      (l.map Prod.snd).Pairwise (withinOverlap computeOverlap bboxes nms_threshold) →
      l.foldl (nmsStep computeOverlap bboxes nms_threshold) acc = acc ++ l.map Prod.snd := by
  induction l with
  | nil => intro acc _ _; simp
  | cons p l ih =>
    intro acc hacc hpw
    rw [List.foldl_cons, nmsStep_keep (fun a ha => hacc p (List.mem_cons_self p l) a ha)]
    rw [List.map_cons, List.pairwise_cons] at hpw
    rw [ih (acc ++ [p.2]) ?_ hpw.2]
    · simp
    · intro q hq a ha
      rcases List.mem_append.mp ha with h | h
      · exact hacc q (List.mem_cons_of_mem p hq) a h
      · rw [List.mem_singleton] at h
        subst h
        exact hpw.1 q.2 (List.mem_map_of_mem Prod.snd hq)

/-! ## Facts about `NMSFast` and `NMSBoxes` -/

theorem NMSFast_sublist {β : Type} [Inhabited β] (computeOverlap : β → β → ℚ) (bboxes : List β)
    (scores : List ℚ) (st nt : ℚ) :
    (NMSFast computeOverlap bboxes scores st nt).Sublist
      ((GetMaxScoreIndex scores st).map Prod.snd) := by
  obtain ⟨extra, he, hsub, _⟩ :=
    nmsFold_spec computeOverlap bboxes nt (GetMaxScoreIndex scores st) []
  unfold NMSFast
  rw [he]
  simpa using hsub

theorem NMSFast_pairwise_overlap {β : Type} [Inhabited β] (computeOverlap : β → β → ℚ)
    (bboxes : List β) (scores : List ℚ) (st nt : ℚ) :
    (NMSFast computeOverlap bboxes scores st nt).Pairwise
      (withinOverlap computeOverlap bboxes nt) := by
  obtain ⟨extra, he, _, hpw⟩ :=
    nmsFold_spec computeOverlap bboxes nt (GetMaxScoreIndex scores st) []
  unfold NMSFast
  rw [he]
  exact hpw List.Pairwise.nil

theorem NMSFast_pairwise_score {β : Type} [Inhabited β] (computeOverlap : β → β → ℚ)
    (bboxes : List β) (scores : List ℚ) (st nt : ℚ) :
    (NMSFast computeOverlap bboxes scores st nt).Pairwise
      (fun a b => scores.getD b 0 ≤ scores.getD a 0) :=
  (pairwise_score_GetMaxScoreIndex scores st).sublist
    (NMSFast_sublist computeOverlap bboxes scores st nt)

/-- Every kept index is a valid index whose score is strictly above the score floor. -/
theorem NMSFast_mem {β : Type} [Inhabited β] {computeOverlap : β → β → ℚ} {bboxes : List β}
    {scores : List ℚ} {st nt : ℚ} {idx : Nat}
    (h : idx ∈ NMSFast computeOverlap bboxes scores st nt) :
    idx < scores.length ∧ st < scores.getD idx 0 := by
  have h1 := (NMSFast_sublist computeOverlap bboxes scores st nt).subset h
  obtain ⟨p, hp, rfl⟩ := List.mem_map.mp h1
  obtain ⟨hget, hgt⟩ := mem_GetMaxScoreIndex.mp hp
  have hlt : p.2 < scores.length := by
    by_contra hcon
    rw [List.getElem?_eq_none (not_lt.mp hcon)] at hget
    exact Option.noConfusion hget
  refine ⟨hlt, ?_⟩
  rw [List.getD_eq_getElem?_getD, hget]
  exact hgt

/-- The first candidate of the sorted walk is always kept, and heads the result. -/
theorem NMSFast_head {β : Type} [Inhabited β] (computeOverlap : β → β → ℚ) (bboxes : List β)
    (scores : List ℚ) (st nt : ℚ) (p : ℚ × Nat) (rest : List (ℚ × Nat))
    (h : GetMaxScoreIndex scores st = p :: rest) :
    p.2 ∈ NMSFast computeOverlap bboxes scores st nt := by
  unfold NMSFast
  rw [h, List.foldl_cons, nmsStep_keep (fun a ha => absurd ha (List.not_mem_nil a))]
  obtain ⟨extra, he, _, _⟩ := nmsFold_spec computeOverlap bboxes nt rest ([] ++ [p.2])
  rw [he]
  simp

/-- When some score is above the floor, an index of maximal score is kept. -/
theorem NMSFast_keeps_max {β : Type} [Inhabited β] (computeOverlap : β → β → ℚ)
    (bboxes : List β) (scores : List ℚ) (st nt : ℚ) (j : Nat)
    (hj : j < scores.length) (hgt : st < scores.getD j 0) :
    ∃ m ∈ NMSFast computeOverlap bboxes scores st nt,
      ∀ k, k < scores.length → scores.getD k 0 ≤ scores.getD m 0 := by
  have hjmem : (scores.getD j 0, j) ∈ GetMaxScoreIndex scores st := by
    rw [mem_GetMaxScoreIndex]
    refine ⟨?_, hgt⟩
    simp [List.getD_eq_getElem?_getD, List.getElem?_eq_getElem hj]
  cases hl : GetMaxScoreIndex scores st with
  | nil => rw [hl] at hjmem; exact absurd hjmem (List.not_mem_nil _)
  | cons p rest =>
    refine ⟨p.2, NMSFast_head computeOverlap bboxes scores st nt p rest hl, ?_⟩
    have hsorted := sorted_GetMaxScoreIndex scores st
    rw [hl, List.pairwise_cons] at hsorted
    have hp : p ∈ GetMaxScoreIndex scores st := by rw [hl]; exact List.mem_cons_self p rest
    obtain ⟨hpget, hpgt⟩ := mem_GetMaxScoreIndex.mp hp
    have hpscore : scores.getD p.2 0 = p.1 := by
      rw [List.getD_eq_getElem?_getD, hpget]; rfl
    intro k hk
    rw [hpscore]
    by_cases hkgt : st < scores.getD k 0
    · have hkmem : (scores.getD k 0, k) ∈ GetMaxScoreIndex scores st := by
        rw [mem_GetMaxScoreIndex]
        refine ⟨?_, hkgt⟩
        simp [List.getD_eq_getElem?_getD, List.getElem?_eq_getElem hk]
      rw [hl] at hkmem
      rcases List.mem_cons.mp hkmem with heq | hin
      · rw [← heq]
      · exact (scoreOrder_iff p _).mp (hsorted.1 _ hin)
    · exact le_trans (not_lt.mp hkgt) (le_of_lt hpgt)

/-- Running the suppression on the boxes and scores of its own result keeps all of them
in the same order. -/
theorem NMSFast_idempotent {β : Type} [Inhabited β] (computeOverlap : β → β → ℚ)
    (bboxes : List β) (scores : List ℚ) (st nt : ℚ) :
    NMSFast computeOverlap
      ((NMSFast computeOverlap bboxes scores st nt).map (fun idx => bboxes.getD idx default))
      ((NMSFast computeOverlap bboxes scores st nt).map (fun idx => scores.getD idx 0))
      st nt
    = List.range (NMSFast computeOverlap bboxes scores st nt).length := by
  set out := NMSFast computeOverlap bboxes scores st nt with hout
  set scores2 := out.map (fun idx => scores.getD idx 0) with hs2
  set bboxes2 := out.map (fun idx => bboxes.getD idx default) with hb2
  have hlen : scores2.length = out.length := by simp [hs2]
  -- every score of the result is above the floor
  have hfilter : (scores2.zip (List.range scores2.length)).filter
      (fun p => decide (p.1 > st)) = scores2.zip (List.range scores2.length) := by
    rw [List.filter_eq_self]
    intro p hp
    have hmem : p.1 ∈ scores2 := (List.of_mem_zip hp).1
    obtain ⟨idx, hidx, hval⟩ := List.mem_map.mp hmem
    have := (NMSFast_mem hidx).2
    simp only [decide_eq_true_eq]
    rw [← hval]
    exact this
  -- the scores of the result are already in descending order
  have hscore : scores2.Pairwise (fun s t => t ≤ s) := by
    rw [hs2, List.pairwise_map]
    exact NMSFast_pairwise_score computeOverlap bboxes scores st nt
  have hsorted : (scores2.zip (List.range scores2.length)).Pairwise scoreOrder := by
    rw [List.pairwise_iff_getElem] at hscore ⊢
    intro i j hi hj hij
    rw [scoreOrder_iff]
    simp only [List.getElem_zip]
    simp only [List.length_zip, List.length_range, min_self] at hi hj
    exact hscore i j hi hj hij
  have hsel : GetMaxScoreIndex scores2 st = scores2.zip (List.range scores2.length) := by
    unfold GetMaxScoreIndex
    rw [hfilter]
    exact List.Sorted.insertionSort_eq hsorted
  have hsnd : (scores2.zip (List.range scores2.length)).map Prod.snd
      = List.range out.length := by
    rw [List.map_snd_zip _ _ (by simp), hlen]
  have hpw : (List.range out.length).Pairwise (withinOverlap computeOverlap bboxes2 nt) := by
    have hov := NMSFast_pairwise_overlap computeOverlap bboxes scores st nt
    rw [← hout] at hov
    rw [List.pairwise_iff_getElem] at hov ⊢
    intro i j hi hj hij
    simp only [List.length_range] at hi hj
    simp only [List.getElem_range]
    have := hov i j hi hj hij
    unfold withinOverlap at this ⊢
    have e1 : bboxes2.getD j default = bboxes.getD out[j] default := by
      rw [List.getD_eq_getElem _ _ (by simpa [hb2] using hj)]
      simp [hb2]
    have e2 : bboxes2.getD i default = bboxes.getD out[i] default := by
      rw [List.getD_eq_getElem _ _ (by simpa [hb2] using hi)]
      simp [hb2]
    rw [e1, e2]
    exact this
  unfold NMSFast
  rw [hsel, nmsFold_keep_all computeOverlap bboxes2 nt _ [] (by simp) (by rw [hsnd]; exact hpw),
    hsnd]
  simp

/-- Of two kept indices the one with the strictly higher score is within the overlap
threshold of the other, so a lower-scored candidate overlapping a kept one is dropped. -/
theorem NMSFast_suppresses {β : Type} [Inhabited β] (computeOverlap : β → β → ℚ)
    (hcomm : ∀ x y, computeOverlap x y = computeOverlap y x)
    (bboxes : List β) (scores : List ℚ) (st nt : ℚ) (a b : Nat)
    (hconf : scores.getD b 0 < scores.getD a 0)
    (hiou : nt < computeOverlap (bboxes.getD a default) (bboxes.getD b default))
    (ha : a ∈ NMSFast computeOverlap bboxes scores st nt) :
    b ∉ NMSFast computeOverlap bboxes scores st nt := by
  intro hb
  have h1 := NMSFast_pairwise_overlap computeOverlap bboxes scores st nt
  have h2 := NMSFast_pairwise_score computeOverlap bboxes scores st nt
  have hne : a ≠ b := by
    intro hab
    rw [hab] at hconf
    exact lt_irrefl _ hconf
  obtain ⟨i, hi, hia⟩ := List.mem_iff_getElem.mp ha
  obtain ⟨j, hj, hjb⟩ := List.mem_iff_getElem.mp hb
  rw [List.pairwise_iff_getElem] at h1 h2
  rcases Nat.lt_trichotomy i j with hlt | heq | hgt
  · have h := h1 i j hi hj hlt
    rw [hia, hjb] at h
    unfold withinOverlap at h
    rw [hcomm] at h
    exact absurd hiou (not_lt.mpr h)
  · subst heq
    exact hne (hia.symm.trans hjb)
  · have h := h2 j i hj hi hgt
    rw [hia, hjb] at h
    exact absurd hconf (not_lt.mpr h)

/-! ## Facts about the overlap measure -/

theorem Rect.inter_comm (a b : Rect) : a.inter b = b.inter a := by
  unfold Rect.inter
  simp only [max_comm a.x b.x, max_comm a.y b.y, min_comm (a.x + a.width) (b.x + b.width),
    min_comm (a.y + a.height) (b.y + b.height)]

theorem rectOverlap_comm (a b : Rect) : rectOverlap a b = rectOverlap b a := by
  unfold rectOverlap jaccardDistance
  simp only [Rect.inter_comm a b, add_comm a.area b.area]

/-! ## Facts about `postProcessDetections` -/

theorem truncToInt_intCast (n : Int) (h : -2147483648 ≤ n ∧ n ≤ 2147483647) :
    truncToInt (n : ℚ) = n := by
  simp [truncToInt, h]

theorem clampToImage_bounds (v dim : Int) (h : 1 ≤ dim) :
    0 ≤ clampToImage v dim ∧ clampToImage v dim ≤ dim - 1 := by
  unfold clampToImage
  constructor
  · exact le_max_left 0 _
  · exact max_le (by omega) (min_le_right v (dim - 1))

theorem nmsIndices_nil (self : YoloDetector) (imageSize : Size) :
    self.nmsIndices [] imageSize = [] := by
  simp [YoloDetector.nmsIndices, decodeCandidates, NMSBoxes, NMSFast, GetMaxScoreIndex]

/-- The returned list is always the image of the kept indices, also for no outputs. -/
theorem postProcessDetections_eq_map (self : YoloDetector) (outputs : List Mat)
    (imageSize : Size) :
    self.postProcessDetections outputs imageSize =
      (self.nmsIndices outputs imageSize).map
        (makeDetection self.classNames_
          (decodeCandidates self.config_ self.classNames_ imageSize outputs)) := by
  unfold YoloDetector.postProcessDetections
  cases outputs with
  | nil => simp [nmsIndices_nil]
  | cons o os => simp

/-- A kept index points at a decoded candidate whose confidence is above the floor. -/
theorem nmsIndices_mem {self : YoloDetector} {outputs : List Mat} {imageSize : Size}
    {idx : Nat} (h : idx ∈ self.nmsIndices outputs imageSize) :
    ∃ c, (decodeCandidates self.config_ self.classNames_ imageSize outputs)[idx]? = some c ∧
      self.config_.confidenceThreshold < c.confidence := by
  unfold YoloDetector.nmsIndices NMSBoxes at h
  obtain ⟨hlt, hgt⟩ := NMSFast_mem h
  simp only [List.length_map] at hlt
  refine ⟨(decodeCandidates self.config_ self.classNames_ imageSize outputs)[idx],
    List.getElem?_eq_getElem hlt, ?_⟩
  rw [List.getD_eq_getElem _ _ (by simpa using hlt)] at hgt
  simpa using hgt

theorem makeDetection_of_getElem? {classNames : List String} {cands : List Candidate}
    {idx : Nat} {c : Candidate} (h : cands[idx]? = some c) :
    makeDetection classNames cands idx =
      { boundingBox := c.box, confidence := c.confidence, classId := c.classId,
        className := resolveClassName classNames c.classId } := by
  unfold makeDetection
  simp [List.getD_eq_getElem?_getD, List.getElem?_map, h]

/-- Every returned detection is built from a decoded candidate that an accepted row
pushed and whose confidence is above the score floor of the suppression. -/
theorem mem_postProcessDetections {self : YoloDetector} {outputs : List Mat}
    {imageSize : Size} {d : Detection}
    (h : d ∈ self.postProcessDetections outputs imageSize) :
    ∃ c, c ∈ decodeCandidates self.config_ self.classNames_ imageSize outputs ∧
      self.config_.confidenceThreshold < c.confidence ∧
      d = { boundingBox := c.box, confidence := c.confidence, classId := c.classId,
            className := resolveClassName self.classNames_ c.classId } := by
  rw [postProcessDetections_eq_map] at h
  obtain ⟨idx, hidx, rfl⟩ := List.mem_map.mp h
  obtain ⟨c, hc, hgt⟩ := nmsIndices_mem hidx
  exact ⟨c, List.getElem?_mem hc, hgt, makeDetection_of_getElem? hc⟩

/-! ## Evaluation of the scenarios -/

theorem truncToInt_ofNat (n : Nat) [n.AtLeastTwo] (h : n ≤ 2147483647) :
    truncToInt (no_index (OfNat.ofNat n) : ℚ) = (OfNat.ofNat n : Int) := by
  have h1 : ((OfNat.ofNat n : Int)) = (n : Int) := rfl
  have h2 : (-2147483648 : Int) ≤ (n : Int) := by omega
  have h3 : (n : Int) ≤ 2147483647 := by omega
  simp [truncToInt, h1, h2, h3]

theorem scenario_decodeRow :
    decodeRow scenarioDetector.config_ scenarioDetector.classNames_ scenarioSize
      scenarioOutput 0
    = some { classId := 1, confidence := 0.729, box := { x := 8, y := 8, width := 4, height := 4 } } := by
  simp [decodeRow, findBestClass, List.range', bestClassStep, Mat.rowAt, scenarioOutput,
    scenarioDetector, scenarioSize, extractBox, clampToImage]
  norm_num [truncToInt_ofNat]

theorem scenario_decodeCandidates :
    decodeCandidates scenarioDetector.config_ scenarioDetector.classNames_ scenarioSize
      [scenarioOutput]
    = [{ classId := 1, confidence := 0.729, box := { x := 8, y := 8, width := 4, height := 4 } }] := by
  have hrows : scenarioOutput.rows = 1 := rfl
  simp [decodeCandidates, decodeOutput, hrows, List.range_succ, List.filterMap_cons,
    scenario_decodeRow]

theorem scenario_postProcessDetections :
    scenarioDetector.postProcessDetections [scenarioOutput] scenarioSize
    = [scenarioDetection] := by
  rw [postProcessDetections_eq_map]
  unfold YoloDetector.nmsIndices
  rw [scenario_decodeCandidates]
  have hs : GetMaxScoreIndex
      (List.map (fun c => c.confidence)
        [({ classId := 1, confidence := 0.729,
            box := { x := 8, y := 8, width := 4, height := 4 } } : Candidate)])
      scenarioDetector.config_.confidenceThreshold = [(0.729, 0)] := by
    simp [GetMaxScoreIndex, scenarioDetector, List.range_succ, List.filter_cons]
    norm_num
  unfold NMSBoxes NMSFast
  dsimp only
  rw [hs]
  simp [nmsStep, makeDetection, resolveClassName, scenarioDetector, scenarioDetection]

theorem twoObject_decodeCandidates :
    decodeCandidates scenarioDetector.config_ scenarioDetector.classNames_ scenarioSize
      [twoObjectOutput]
    = [{ classId := 0, confidence := 0.9, box := { x := 8, y := 8, width := 4, height := 4 } },
       { classId := 0, confidence := 0.6,
         box := { x := 45, y := 45, width := 10, height := 10 } }] := by
  have hrows : twoObjectOutput.rows = 2 := rfl
  have h0 : decodeRow scenarioDetector.config_ scenarioDetector.classNames_ scenarioSize
      twoObjectOutput 0
      = some { classId := 0, confidence := 0.9,
               box := { x := 8, y := 8, width := 4, height := 4 } } := by
    simp [decodeRow, findBestClass, List.range', bestClassStep, Mat.rowAt, twoObjectOutput,
      scenarioDetector, scenarioSize, extractBox, clampToImage]
    norm_num [truncToInt_ofNat]
  have h1 : decodeRow scenarioDetector.config_ scenarioDetector.classNames_ scenarioSize
      twoObjectOutput 1
      = some { classId := 0, confidence := 0.6,
               box := { x := 45, y := 45, width := 10, height := 10 } } := by
    simp [decodeRow, findBestClass, List.range', bestClassStep, Mat.rowAt, twoObjectOutput,
      scenarioDetector, scenarioSize, extractBox, clampToImage]
    norm_num [truncToInt_ofNat]
  simp [decodeCandidates, decodeOutput, hrows, List.range_succ, List.filterMap_cons, h0, h1]

theorem twoObject_nmsIndices :
    scenarioDetector.nmsIndices [twoObjectOutput] scenarioSize = [0, 1] := by
  unfold YoloDetector.nmsIndices
  rw [twoObject_decodeCandidates]
  have hs : GetMaxScoreIndex
      (List.map (fun c => c.confidence)
        [({ classId := 0, confidence := 0.9,
            box := { x := 8, y := 8, width := 4, height := 4 } } : Candidate),
         { classId := 0, confidence := 0.6,
           box := { x := 45, y := 45, width := 10, height := 10 } }])
      scenarioDetector.config_.confidenceThreshold = [(0.9, 0), (0.6, 1)] := by
    simp [GetMaxScoreIndex, scenarioDetector, List.range_succ, List.filter_cons,
      List.insertionSort, List.orderedInsert, scoreOrder_iff]
    norm_num [scoreOrder_iff]
  unfold NMSBoxes NMSFast
  dsimp only
  rw [hs]
  simp [nmsStep, rectOverlap, jaccardDistance, Rect.inter, Rect.area, scenarioDetector]
  norm_num

theorem twoObject_postProcessDetections :
    scenarioDetector.postProcessDetections [twoObjectOutput] scenarioSize
    = [{ boundingBox := { x := 8, y := 8, width := 4, height := 4 }, confidence := 0.9,
         classId := 0, className := "person" },
       { boundingBox := { x := 45, y := 45, width := 10, height := 10 }, confidence := 0.6,
         classId := 0, className := "person" }] := by
  rw [postProcessDetections_eq_map, twoObject_nmsIndices, twoObject_decodeCandidates]
  simp [makeDetection, resolveClassName, scenarioDetector]

theorem overlap_decodeCandidates :
    decodeCandidates overlapDetector.config_ overlapDetector.classNames_ scenarioSize
      [overlapOutput]
    = [{ classId := 0, confidence := 0.6, box := { x := 6, y := 0, width := 34, height := 20 } },
       { classId := 0, confidence := 0.9,
         box := { x := 0, y := 0, width := 34, height := 20 } }] := by
  have hrows : overlapOutput.rows = 2 := rfl
  have h0 : decodeRow overlapDetector.config_ overlapDetector.classNames_ scenarioSize
      overlapOutput 0
      = some { classId := 0, confidence := 0.6,
               box := { x := 6, y := 0, width := 34, height := 20 } } := by
    simp [decodeRow, findBestClass, List.range', bestClassStep, Mat.rowAt, overlapOutput,
      overlapDetector, scenarioSize, extractBox, clampToImage]
    norm_num [truncToInt_ofNat, truncToInt]
  have h1 : decodeRow overlapDetector.config_ overlapDetector.classNames_ scenarioSize
      overlapOutput 1
      = some { classId := 0, confidence := 0.9,
               box := { x := 0, y := 0, width := 34, height := 20 } } := by
    simp [decodeRow, findBestClass, List.range', bestClassStep, Mat.rowAt, overlapOutput,
      overlapDetector, scenarioSize, extractBox, clampToImage]
    norm_num [truncToInt_ofNat, truncToInt]
  simp [decodeCandidates, decodeOutput, hrows, List.range_succ, List.filterMap_cons, h0, h1]

theorem overlap_rectOverlap :
    rectOverlap { x := 0, y := 0, width := 34, height := 20 }
      { x := 6, y := 0, width := 34, height := 20 } = 0.7 := by
  simp [rectOverlap, jaccardDistance, Rect.inter, Rect.area]
  norm_num

theorem overlap_nmsIndices :
    overlapDetector.nmsIndices [overlapOutput] scenarioSize = [1] := by
  unfold YoloDetector.nmsIndices
  rw [overlap_decodeCandidates]
  have hs : GetMaxScoreIndex
      (List.map (fun c => c.confidence)
        [({ classId := 0, confidence := 0.6,
            box := { x := 6, y := 0, width := 34, height := 20 } } : Candidate),
         { classId := 0, confidence := 0.9,
           box := { x := 0, y := 0, width := 34, height := 20 } }])
      overlapDetector.config_.confidenceThreshold = [(0.9, 1), (0.6, 0)] := by
    simp [GetMaxScoreIndex, overlapDetector, List.range_succ, List.filter_cons,
      List.insertionSort, List.orderedInsert, scoreOrder_iff]
    norm_num [scoreOrder_iff]
  unfold NMSBoxes NMSFast
  dsimp only
  rw [hs]
  simp [nmsStep, rectOverlap, jaccardDistance, Rect.inter, Rect.area, overlapDetector]
  norm_num

theorem overlap_postProcessDetections :
    overlapDetector.postProcessDetections [overlapOutput] scenarioSize
    = [{ boundingBox := { x := 0, y := 0, width := 34, height := 20 }, confidence := 0.9,
         classId := 0, className := "person" }] := by
  rw [postProcessDetections_eq_map, overlap_nmsIndices, overlap_decodeCandidates]
  simp [makeDetection, resolveClassName, overlapDetector]

/-- A row whose product equals the confidence threshold passes the decode checks (they
skip on `<` only) and is pushed, but the score floor of the suppression step drops it, so
nothing is returned for it. -/
theorem threshold_row_pushed_then_dropped :
    decodeRow scenarioDetector.config_ scenarioDetector.classNames_ scenarioSize
      thresholdOutput 0
      = some { classId := 0, confidence := 1 / 2,
               box := { x := 8, y := 8, width := 4, height := 4 } } ∧
    scenarioDetector.postProcessDetections [thresholdOutput] scenarioSize = [] := by
  have hrow : decodeRow scenarioDetector.config_ scenarioDetector.classNames_ scenarioSize
      thresholdOutput 0
      = some { classId := 0, confidence := 1 / 2,
               box := { x := 8, y := 8, width := 4, height := 4 } } := by
    simp [decodeRow, findBestClass, List.range', bestClassStep, Mat.rowAt, thresholdOutput,
      scenarioDetector, scenarioSize, extractBox, clampToImage]
    norm_num [truncToInt_ofNat]
  have hrows : thresholdOutput.rows = 1 := rfl
  have hcands : decodeCandidates scenarioDetector.config_ scenarioDetector.classNames_
      scenarioSize [thresholdOutput]
      = [{ classId := 0, confidence := 1 / 2,
           box := { x := 8, y := 8, width := 4, height := 4 } }] := by
    simp [decodeCandidates, decodeOutput, hrows, List.range_succ, List.filterMap_cons, hrow]
  refine ⟨hrow, ?_⟩
  rw [postProcessDetections_eq_map]
  unfold YoloDetector.nmsIndices
  rw [hcands]
  simp [NMSBoxes, NMSFast, GetMaxScoreIndex, scenarioDetector, List.range_succ,
    List.filter_cons]

/-! ## Claims about the decode loop -/

/-- C1. Every detection returned by `postProcessDetections` was decoded from a row of an
output tensor, its confidence is `objectness * maxClassScore` of that row, and this
product is strictly greater than `confidenceThreshold`. -/
theorem C1_confidence_is_product_above_threshold (self : YoloDetector) (outputs : List Mat)
    (imageSize : Size) (d : Detection)
    (h : d ∈ self.postProcessDetections outputs imageSize) :
    ∃ output ∈ outputs, ∃ i, i < output.rows ∧
      decodeRow self.config_ self.classNames_ imageSize output i
        = some { classId := d.classId, confidence := d.confidence, box := d.boundingBox } ∧
      d.confidence = output.rowAt i 4 * (findBestClass (output.rowAt i) output.cols).1 ∧
      self.config_.confidenceThreshold <
        output.rowAt i 4 * (findBestClass (output.rowAt i) output.cols).1 := by
  obtain ⟨c, hc, hgt, rfl⟩ := mem_postProcessDetections h
  obtain ⟨output, hout, i, hi, hrow⟩ := mem_decodeCandidates.mp hc
  have hprod := (decodeRow_some hrow).2.2.1
  refine ⟨output, hout, i, hi, hrow, hprod, ?_⟩
  rw [← hprod]
  exact hgt

/-- C1, scenario: the row with objectness 0.9 and class scores 0.2, 0.81, 0.1 is accepted
under threshold 0.5 and returned with confidence 0.729, the product 0.9 * 0.81. -/
theorem C1_witness :
    scenarioDetection ∈ scenarioDetector.postProcessDetections [scenarioOutput] scenarioSize ∧
    scenarioDetection.confidence = 0.729 ∧
    ∃ output ∈ [scenarioOutput], ∃ i, i < output.rows ∧
      decodeRow scenarioDetector.config_ scenarioDetector.classNames_ scenarioSize output i
        = some { classId := scenarioDetection.classId, confidence := scenarioDetection.confidence,
                 box := scenarioDetection.boundingBox } ∧
      scenarioDetection.confidence
        = output.rowAt i 4 * (findBestClass (output.rowAt i) output.cols).1 ∧
      scenarioDetector.config_.confidenceThreshold <
        output.rowAt i 4 * (findBestClass (output.rowAt i) output.cols).1 :=
  ⟨by rw [scenario_postProcessDetections]; exact List.mem_singleton_self _, rfl,
    C1_confidence_is_product_above_threshold scenarioDetector [scenarioOutput] scenarioSize
      scenarioDetection
      (by rw [scenario_postProcessDetections]; exact List.mem_singleton_self _)⟩

/-- C5 as stated fails: on the row of `zeroScoreOutput`, which has two class columns both
holding the maximum score 0, the scan selects `-1`, not the smallest index `0` of a
maximal class score. -/
theorem C5_counterexample :
    zeroScoreOutput.cols > 5 ∧
    (findBestClass (zeroScoreOutput.rowAt 0) zeroScoreOutput.cols).2 = -1 ∧
    (∀ k2, k2 < zeroScoreOutput.cols - 5 →
      zeroScoreOutput.rowAt 0 (5 + k2) ≤ zeroScoreOutput.rowAt 0 (5 + 0)) ∧
    ¬ ∃ k : Nat, k < zeroScoreOutput.cols - 5 ∧
      (findBestClass (zeroScoreOutput.rowAt 0) zeroScoreOutput.cols).2 = (k : Int) := by
  have hbest : (findBestClass (zeroScoreOutput.rowAt 0) zeroScoreOutput.cols).2 = -1 := by
    simp [findBestClass, List.range', bestClassStep, Mat.rowAt, zeroScoreOutput]
  refine ⟨by decide, hbest, ?_, ?_⟩
  · intro k2 hk2
    have hk : k2 < 2 := hk2
    interval_cases k2 <;> simp [Mat.rowAt, zeroScoreOutput]
  · rintro ⟨k, _, hk⟩
    rw [hbest] at hk
    omega

/-- C5, amended. For every row in which some class score is greater than 0, the class id
selected by the scan is the smallest index whose class score equals the maximum of all
class scores of the row, and `maxClassScore` is that maximum; for a row in which no class
score is greater than 0 the scan leaves `bestClassId = -1` and `maxClassScore = 0`. -/
theorem C5_first_max_class_of_positive_scores (output : Mat) (i : Nat) :
    ((∃ k, k < output.cols - 5 ∧ 0 < output.rowAt i (5 + k)) →
      ∃ k : Nat, k < output.cols - 5 ∧
        (findBestClass (output.rowAt i) output.cols).2 = (k : Int) ∧
        (findBestClass (output.rowAt i) output.cols).1 = output.rowAt i (5 + k) ∧
        (∀ k2, k2 < output.cols - 5 → output.rowAt i (5 + k2) ≤ output.rowAt i (5 + k)) ∧
        (∀ k2, k2 < k → output.rowAt i (5 + k2) < output.rowAt i (5 + k))) ∧
    ((∀ k, k < output.cols - 5 → output.rowAt i (5 + k) ≤ 0) →
      findBestClass (output.rowAt i) output.cols = (0, -1)) := by
  rw [findBestClass_eq_scanClasses]
  constructor
  · rintro ⟨k0, hk0, hpos0⟩
    rcases scanClasses_spec (output.rowAt i) (output.cols - 5) with
      ⟨_, _, hall⟩ | ⟨k, hk, h2, h1, _, hmax, hfirst⟩
    · exact absurd hpos0 (not_lt.mpr (hall k0 hk0))
    · exact ⟨k, hk, h2, h1, hmax, hfirst⟩
  · intro hall
    rcases scanClasses_spec (output.rowAt i) (output.cols - 5) with
      ⟨h2, h1, _⟩ | ⟨k, hk, _, _, hpos, _, _⟩
    · exact Prod.ext h1 h2
    · exact absurd hpos (not_lt.mpr (hall k hk))

/-- C5, scenario: class scores 0.2, 0.81, 0.1 select class id 1. -/
theorem C5_witness :
    (findBestClass (scenarioOutput.rowAt 0) scenarioOutput.cols).2 = 1 ∧
    ∃ k : Nat, k < scenarioOutput.cols - 5 ∧
      (findBestClass (scenarioOutput.rowAt 0) scenarioOutput.cols).2 = (k : Int) ∧
      (findBestClass (scenarioOutput.rowAt 0) scenarioOutput.cols).1
        = scenarioOutput.rowAt 0 (5 + k) ∧
      (∀ k2, k2 < scenarioOutput.cols - 5 →
        scenarioOutput.rowAt 0 (5 + k2) ≤ scenarioOutput.rowAt 0 (5 + k)) ∧
      (∀ k2, k2 < k → scenarioOutput.rowAt 0 (5 + k2) < scenarioOutput.rowAt 0 (5 + k)) :=
  ⟨by
      simp [findBestClass, List.range', bestClassStep, Mat.rowAt, scenarioOutput]
      norm_num,
    (C5_first_max_class_of_positive_scores scenarioOutput 0).1
      ⟨1, by decide, by norm_num [Mat.rowAt, scenarioOutput]⟩⟩

/-- C6. For an image of width and height at least 1, every detection returned by
`postProcessDetections` has its box inside the image: `0 ≤ x ≤ W-1`, `0 ≤ y ≤ H-1`,
`0 ≤ x + width ≤ W-1` and `0 ≤ y + height ≤ H-1`, whatever the row held. -/
theorem C6_box_clamped_to_image (self : YoloDetector) (outputs : List Mat)
    (imageSize : Size) (d : Detection)
    (hW : 1 ≤ imageSize.width) (hH : 1 ≤ imageSize.height)
    (h : d ∈ self.postProcessDetections outputs imageSize) :
    (0 ≤ d.boundingBox.x ∧ d.boundingBox.x ≤ imageSize.width - 1) ∧
    (0 ≤ d.boundingBox.y ∧ d.boundingBox.y ≤ imageSize.height - 1) ∧
    (0 ≤ d.boundingBox.x + d.boundingBox.width ∧
      d.boundingBox.x + d.boundingBox.width ≤ imageSize.width - 1) ∧
    (0 ≤ d.boundingBox.y + d.boundingBox.height ∧
      d.boundingBox.y + d.boundingBox.height ≤ imageSize.height - 1) := by
  obtain ⟨c, hc, _, rfl⟩ := mem_postProcessDetections h
  obtain ⟨output, _, i, _, hrow⟩ := mem_decodeCandidates.mp hc
  have hbox := (decodeRow_some hrow).2.2.2.2.2.1
  simp only [hbox, extractBox]
  refine ⟨clampToImage_bounds _ _ hW, clampToImage_bounds _ _ hH, ?_, ?_⟩
  · rw [add_sub_cancel]
    exact clampToImage_bounds _ _ hW
  · rw [add_sub_cancel]
    exact clampToImage_bounds _ _ hH

/-- C6, scenario: the box `(8, 8, 4, 4)` returned for `scenarioOutput` lies inside the
640 x 640 image. -/
theorem C6_witness :
    (1 ≤ scenarioSize.width ∧ 1 ≤ scenarioSize.height ∧
      scenarioDetection ∈
        scenarioDetector.postProcessDetections [scenarioOutput] scenarioSize) ∧
    (0 ≤ scenarioDetection.boundingBox.x ∧
      scenarioDetection.boundingBox.x ≤ scenarioSize.width - 1) ∧
    (0 ≤ scenarioDetection.boundingBox.y ∧
      scenarioDetection.boundingBox.y ≤ scenarioSize.height - 1) ∧
    (0 ≤ scenarioDetection.boundingBox.x + scenarioDetection.boundingBox.width ∧
      scenarioDetection.boundingBox.x + scenarioDetection.boundingBox.width
        ≤ scenarioSize.width - 1) ∧
    (0 ≤ scenarioDetection.boundingBox.y + scenarioDetection.boundingBox.height ∧
      scenarioDetection.boundingBox.y + scenarioDetection.boundingBox.height
        ≤ scenarioSize.height - 1) :=
  ⟨⟨by decide, by decide,
      by rw [scenario_postProcessDetections]; exact List.mem_singleton_self _⟩,
    C6_box_clamped_to_image scenarioDetector [scenarioOutput] scenarioSize scenarioDetection
      (by decide) (by decide)
      (by rw [scenario_postProcessDetections]; exact List.mem_singleton_self _)⟩

/-- C9. Under a valid configuration every accepted row is pushed with a class id that
indexes one of its class columns, `0 ≤ classId < cols - 5`, so every detection returned
by `postProcessDetections` has such a class id for the row it was decoded from and the
sentinel `-1` never reaches the output. -/
theorem C9_class_id_indexes_a_class_column (self : YoloDetector) (outputs : List Mat)
    (imageSize : Size) (hvalid : self.config_.isValid = true) :
    (∀ (output : Mat) (i : Nat) (c : Candidate),
      decodeRow self.config_ self.classNames_ imageSize output i = some c →
        0 ≤ c.classId ∧ c.classId < (output.cols : Int) - 5) ∧
    (∀ d ∈ self.postProcessDetections outputs imageSize,
      d.classId ≠ -1 ∧
      ∃ output ∈ outputs, ∃ i, i < output.rows ∧
        decodeRow self.config_ self.classNames_ imageSize output i
          = some { classId := d.classId, confidence := d.confidence, box := d.boundingBox } ∧
        0 ≤ d.classId ∧ d.classId < (output.cols : Int) - 5) := by
  have hthr : 0 < self.config_.confidenceThreshold := by
    simp only [DetectionConfig.isValid, Bool.and_eq_true, decide_eq_true_eq] at hvalid
    exact hvalid.1.1.1.1.1
  have hrowfact : ∀ (output : Mat) (i : Nat) (c : Candidate),
      decodeRow self.config_ self.classNames_ imageSize output i = some c →
        0 ≤ c.classId ∧ c.classId < (output.cols : Int) - 5 := by
    intro output i c hrow
    obtain ⟨hcols, _, hprod, hconf, hid, _, _⟩ := decodeRow_some hrow
    rw [findBestClass_eq_scanClasses] at hprod hid
    rcases scanClasses_spec (output.rowAt i) (output.cols - 5) with
      ⟨_, h1, _⟩ | ⟨k, hk, h2, _, _, _, _⟩
    · rw [h1, mul_zero] at hprod
      rw [hprod] at hconf
      exact absurd hthr (not_lt.mpr hconf)
    · rw [hid, h2]
      omega
  refine ⟨hrowfact, ?_⟩
  intro d hd
  obtain ⟨c, hc, _, rfl⟩ := mem_postProcessDetections hd
  obtain ⟨output, hout, i, hi, hrow⟩ := mem_decodeCandidates.mp hc
  obtain ⟨h0, hlt⟩ := hrowfact output i c hrow
  refine ⟨?_, output, hout, i, hi, hrow, h0, hlt⟩
  show c.classId ≠ -1
  omega

/-- C9, scenario: under the default configuration the detection returned for
`scenarioOutput` has class id 1, an index into the three class columns of its row. -/
theorem C9_witness :
    scenarioDetector.config_.isValid = true ∧
    scenarioDetection ∈ scenarioDetector.postProcessDetections [scenarioOutput] scenarioSize ∧
    scenarioDetection.classId ≠ -1 ∧
    ∃ output ∈ [scenarioOutput], ∃ i, i < output.rows ∧
      decodeRow scenarioDetector.config_ scenarioDetector.classNames_ scenarioSize output i
        = some { classId := scenarioDetection.classId,
                 confidence := scenarioDetection.confidence,
                 box := scenarioDetection.boundingBox } ∧
      0 ≤ scenarioDetection.classId ∧ scenarioDetection.classId < (output.cols : Int) - 5 :=
  have hvalid : scenarioDetector.config_.isValid = true := by
    simp [DetectionConfig.isValid, scenarioDetector]
    norm_num
  have hmem : scenarioDetection ∈
      scenarioDetector.postProcessDetections [scenarioOutput] scenarioSize := by
    rw [scenario_postProcessDetections]; exact List.mem_singleton_self _
  ⟨hvalid, hmem,
    (C9_class_id_indexes_a_class_column scenarioDetector [scenarioOutput] scenarioSize
      hvalid).2 scenarioDetection hmem⟩

/-! ## Claims about the class filter and the emitted detections -/

/-- C7. A row that passes both threshold checks is skipped by the class filter exactly
when `targetClasses` is non-empty and the resolved class name of the row is not in it;
hence with a non-empty filter every returned detection has its `className` in
`targetClasses`, and with an empty filter no such row is skipped. -/
theorem C7_class_filter (self : YoloDetector) (outputs : List Mat) (imageSize : Size) :
    (∀ (output : Mat) (i : Nat),
      5 ≤ output.cols →
      ¬ output.rowAt i 4 < self.config_.confidenceThreshold →
      ¬ output.rowAt i 4 * (findBestClass (output.rowAt i) output.cols).1
          < self.config_.confidenceThreshold →
      (decodeRow self.config_ self.classNames_ imageSize output i = none ↔
        self.config_.targetClasses ≠ [] ∧
        resolveClassName self.classNames_ (findBestClass (output.rowAt i) output.cols).2
          ∉ self.config_.targetClasses)) ∧
    (self.config_.targetClasses ≠ [] →
      ∀ d ∈ self.postProcessDetections outputs imageSize,
        d.className ∈ self.config_.targetClasses) ∧
    (self.config_.targetClasses = [] →
      ∀ (output : Mat) (i : Nat),
        5 ≤ output.cols →
        ¬ output.rowAt i 4 < self.config_.confidenceThreshold →
        ¬ output.rowAt i 4 * (findBestClass (output.rowAt i) output.cols).1
            < self.config_.confidenceThreshold →
        decodeRow self.config_ self.classNames_ imageSize output i ≠ none) := by
  have hiff : ∀ (output : Mat) (i : Nat),
      5 ≤ output.cols →
      ¬ output.rowAt i 4 < self.config_.confidenceThreshold →
      ¬ output.rowAt i 4 * (findBestClass (output.rowAt i) output.cols).1
          < self.config_.confidenceThreshold →
      (decodeRow self.config_ self.classNames_ imageSize output i = none ↔
        self.config_.targetClasses ≠ [] ∧
        resolveClassName self.classNames_ (findBestClass (output.rowAt i) output.cols).2
          ∉ self.config_.targetClasses) := by
    intro output i hcols hobj hconf
    unfold decodeRow
    simp only
    rw [if_neg (not_lt.mpr hcols), if_neg hobj, if_neg hconf]
    by_cases he : self.config_.targetClasses = []
    · simp [he]
    · by_cases hin : resolveClassName self.classNames_
          (findBestClass (output.rowAt i) output.cols).2 ∈ self.config_.targetClasses
      · simp [he, hin, isTargetClass]
      · simp [he, hin, isTargetClass]
  refine ⟨hiff, ?_, ?_⟩
  · intro hne d hd
    obtain ⟨c, hc, _, rfl⟩ := mem_postProcessDetections hd
    obtain ⟨output, _, i, _, hrow⟩ := mem_decodeCandidates.mp hc
    rcases (decodeRow_some hrow).2.2.2.2.2.2 with h | h
    · exact absurd h hne
    · exact h
  · intro he output i hcols hobj hconf hnone
    exact ((hiff output i hcols hobj hconf).mp hnone).1 he

/-- C7, scenario: with the filter on "car" the row of `scenarioOutput`, whose class
resolves to "bicycle", passes both thresholds and is skipped by the filter. -/
theorem C7_witness :
    decodeRow filterDetector.config_ filterDetector.classNames_ scenarioSize scenarioOutput 0
      = none ∧
    resolveClassName filterDetector.classNames_
      (findBestClass (scenarioOutput.rowAt 0) scenarioOutput.cols).2 = "bicycle" ∧
    decodeRow scenarioDetector.config_ scenarioDetector.classNames_ scenarioSize
      scenarioOutput 0 ≠ none :=
  have hbest : findBestClass (scenarioOutput.rowAt 0) scenarioOutput.cols = (0.81, 1) := by
    simp [findBestClass, List.range', bestClassStep, Mat.rowAt, scenarioOutput]
    norm_num
  have hname : resolveClassName filterDetector.classNames_
      (findBestClass (scenarioOutput.rowAt 0) scenarioOutput.cols).2 = "bicycle" := by
    rw [hbest]
    simp [resolveClassName, filterDetector]
  have hobj : ∀ t : ℚ, t = 1 / 2 → ¬ scenarioOutput.rowAt 0 4 < t := by
    intro t ht
    rw [ht]
    norm_num [Mat.rowAt, scenarioOutput]
  have hconf : ∀ t : ℚ, t = 1 / 2 →
      ¬ scenarioOutput.rowAt 0 4
          * (findBestClass (scenarioOutput.rowAt 0) scenarioOutput.cols).1 < t := by
    intro t ht
    rw [ht, hbest]
    norm_num [Mat.rowAt, scenarioOutput]
  ⟨((C7_class_filter filterDetector [scenarioOutput] scenarioSize).1 scenarioOutput 0
      (by decide) (hobj _ rfl) (hconf _ rfl)).mpr
      ⟨by simp [filterDetector], by rw [hname]; simp [filterDetector]⟩,
    hname,
    (C7_class_filter scenarioDetector [scenarioOutput] scenarioSize).2.2 rfl scenarioOutput 0
      (by decide) (hobj _ rfl) (hconf _ rfl)⟩

/-- C8. `postProcessDetections` returns one detection per index kept by the suppression,
in keeping order; the detection of a kept index carries the box, confidence and class id
pushed at that index, and its `className` is `classNames[classId]` when
`0 ≤ classId < len(classNames)` and the literal "unknown" otherwise. -/
theorem C8_one_detection_per_kept_index (self : YoloDetector) (outputs : List Mat)
    (imageSize : Size) :
    (self.postProcessDetections outputs imageSize).length
      = (self.nmsIndices outputs imageSize).length ∧
    ∀ (k idx : Nat), (self.nmsIndices outputs imageSize)[k]? = some idx →
      ∃ c d, (decodeCandidates self.config_ self.classNames_ imageSize outputs)[idx]? = some c ∧
        (self.postProcessDetections outputs imageSize)[k]? = some d ∧
        d.boundingBox = c.box ∧ d.confidence = c.confidence ∧ d.classId = c.classId ∧
        (∀ n : Nat, d.classId = (n : Int) → n < self.classNames_.length →
          self.classNames_[n]? = some d.className) ∧
        ((d.classId < 0 ∨ (self.classNames_.length : Int) ≤ d.classId) →
          d.className = "unknown") := by
  rw [postProcessDetections_eq_map]
  refine ⟨List.length_map _ _, ?_⟩
  intro k idx hk
  obtain ⟨c, hc, _⟩ := nmsIndices_mem (List.getElem?_mem hk)
  refine ⟨c, Detection.mk c.box c.confidence c.classId
    (resolveClassName self.classNames_ c.classId), hc, ?_, rfl, rfl, rfl, ?_, ?_⟩
  · rw [List.getElem?_map, hk, Option.map_some', makeDetection_of_getElem? hc]
  · intro n hn hlen
    simp only at hn
    simp only [resolveClassName, hn]
    rw [if_pos ⟨by omega, by simpa using hlen⟩]
    simp [List.getD_eq_getElem?_getD, List.getElem?_eq_getElem hlen]
  · intro hout
    simp only at hout
    simp only [resolveClassName]
    rw [if_neg]
    rintro ⟨h0, hlt⟩
    rcases hout with h | h
    · omega
    · omega

/-- C8, scenario: the one kept index 0 of `scenarioOutput` yields the one detection
`scenarioDetection`, named "bicycle" for class id 1. -/
theorem C8_witness :
    (scenarioDetector.postProcessDetections [scenarioOutput] scenarioSize).length = 1 ∧
    (scenarioDetector.nmsIndices [scenarioOutput] scenarioSize).length = 1 ∧
    ∀ (k idx : Nat), (scenarioDetector.nmsIndices [scenarioOutput] scenarioSize)[k]? = some idx →
      ∃ c d, (decodeCandidates scenarioDetector.config_ scenarioDetector.classNames_
          scenarioSize [scenarioOutput])[idx]? = some c ∧
        (scenarioDetector.postProcessDetections [scenarioOutput] scenarioSize)[k]? = some d ∧
        d.boundingBox = c.box ∧ d.confidence = c.confidence ∧ d.classId = c.classId ∧
        (∀ n : Nat, d.classId = (n : Int) → n < scenarioDetector.classNames_.length →
          scenarioDetector.classNames_[n]? = some d.className) ∧
        ((d.classId < 0 ∨ (scenarioDetector.classNames_.length : Int) ≤ d.classId) →
          d.className = "unknown") :=
  have h := C8_one_detection_per_kept_index scenarioDetector [scenarioOutput] scenarioSize
  have hlen : (scenarioDetector.postProcessDetections [scenarioOutput] scenarioSize).length
      = 1 := by
    rw [scenario_postProcessDetections]; rfl
  ⟨hlen, by rw [← h.1]; exact hlen, h.2⟩

/-! ## Claim about `setConfig` -/

/-- C10. When the thresholds of `c` are in `(0, 1]` and its input dimensions are positive,
`getConfig` after `setConfig(c)` returns `c`; otherwise `c` is rejected and `getConfig`
returns the configuration it returned before the call. -/
theorem C10_setConfig_accepts_valid_rejects_invalid (self : YoloDetector)
    (c : DetectionConfig) :
    ((0 < c.confidenceThreshold ∧ c.confidenceThreshold ≤ 1 ∧
        0 < c.nmsThreshold ∧ c.nmsThreshold ≤ 1 ∧
        0 < c.inputWidth ∧ 0 < c.inputHeight) →
      (self.setConfig c).getConfig = c) ∧
    (¬ (0 < c.confidenceThreshold ∧ c.confidenceThreshold ≤ 1 ∧
        0 < c.nmsThreshold ∧ c.nmsThreshold ≤ 1 ∧
        0 < c.inputWidth ∧ 0 < c.inputHeight) →
      (self.setConfig c).getConfig = self.getConfig ∧ self.setConfig c = self) := by
  have hiff : c.isValid = true ↔
      (0 < c.confidenceThreshold ∧ c.confidenceThreshold ≤ 1 ∧
        0 < c.nmsThreshold ∧ c.nmsThreshold ≤ 1 ∧
        0 < c.inputWidth ∧ 0 < c.inputHeight) := by
    simp only [DetectionConfig.isValid, Bool.and_eq_true, decide_eq_true_eq, gt_iff_lt]
    tauto
  constructor
  · intro hv
    unfold YoloDetector.setConfig YoloDetector.getConfig
    rw [if_pos (hiff.mpr hv)]
  · intro hv
    unfold YoloDetector.setConfig YoloDetector.getConfig
    rw [if_neg (fun h => hv (hiff.mp h))]
    exact ⟨rfl, rfl⟩

/-- C10, scenario: `tunedConfig` is stored, `invalidConfig` (threshold 0) is rejected and
the default configuration retained. -/
theorem C10_witness :
    (scenarioDetector.setConfig tunedConfig).getConfig = tunedConfig ∧
    (scenarioDetector.setConfig invalidConfig).getConfig = scenarioDetector.getConfig ∧
    tunedConfig ≠ scenarioDetector.getConfig :=
  ⟨(C10_setConfig_accepts_valid_rejects_invalid scenarioDetector tunedConfig).1
      (by norm_num [tunedConfig]),
    ((C10_setConfig_accepts_valid_rejects_invalid scenarioDetector invalidConfig).2
      (by norm_num [invalidConfig])).1,
    by
      intro h
      have h2 := congrArg DetectionConfig.inputWidth h
      simp [tunedConfig, scenarioDetector, YoloDetector.getConfig] at h2⟩

/-! ## Claims about the suppression step -/

/-- Reading of the kept indices through positions: a later kept index is within the
overlap threshold of every earlier one. -/
theorem nmsIndices_withinOverlap (self : YoloDetector) (outputs : List Mat)
    (imageSize : Size) (i j ia ib : Nat) (hij : i < j)
    (hi : (self.nmsIndices outputs imageSize)[i]? = some ia)
    (hj : (self.nmsIndices outputs imageSize)[j]? = some ib) :
    withinOverlap rectOverlap
      ((decodeCandidates self.config_ self.classNames_ imageSize outputs).map (fun c => c.box))
      self.config_.nmsThreshold ia ib := by
  have hpw := NMSFast_pairwise_overlap rectOverlap
    ((decodeCandidates self.config_ self.classNames_ imageSize outputs).map (fun c => c.box))
    ((decodeCandidates self.config_ self.classNames_ imageSize outputs).map
      (fun c => c.confidence))
    self.config_.confidenceThreshold self.config_.nmsThreshold
  rw [List.pairwise_iff_getElem] at hpw
  obtain ⟨hil, hie⟩ := List.getElem?_eq_some_iff.mp hi
  obtain ⟨hjl, hje⟩ := List.getElem?_eq_some_iff.mp hj
  have := hpw i j hil hjl hij
  rw [← hie, ← hje]
  exact this

/-- C2. No two distinct detections returned by one `postProcessDetections` call have
boxes whose Intersection-over-Union is greater than `nmsThreshold`. -/
theorem C2_no_two_returned_boxes_overlap (self : YoloDetector) (outputs : List Mat)
    (imageSize : Size) (i j : Nat) (a b : Detection)
    (ha : (self.postProcessDetections outputs imageSize)[i]? = some a)
    (hb : (self.postProcessDetections outputs imageSize)[j]? = some b)
    (hij : i ≠ j) :
    ¬ (rectOverlap a.boundingBox b.boundingBox > self.config_.nmsThreshold) := by
  rw [postProcessDetections_eq_map, List.getElem?_map] at ha hb
  obtain ⟨ia, hia, rfl⟩ := Option.map_eq_some'.mp ha
  obtain ⟨ib, hib, rfl⟩ := Option.map_eq_some'.mp hb
  rw [not_lt]
  rcases Nat.lt_or_gt_of_ne hij with hlt | hgt
  · have h := nmsIndices_withinOverlap self outputs imageSize i j ia ib hlt hia hib
    unfold withinOverlap at h
    rw [rectOverlap_comm]
    exact h
  · exact nmsIndices_withinOverlap self outputs imageSize j i ib ia hgt hib hia

/-- C2, scenario: the two detections returned for `twoObjectOutput` have boxes of
overlap at most the threshold. -/
theorem C2_witness :
    ((scenarioDetector.postProcessDetections [twoObjectOutput] scenarioSize)[0]?
        = some { boundingBox := { x := 8, y := 8, width := 4, height := 4 }, confidence := 0.9,
                 classId := 0, className := "person" } ∧
      (scenarioDetector.postProcessDetections [twoObjectOutput] scenarioSize)[1]?
        = some { boundingBox := { x := 45, y := 45, width := 10, height := 10 },
                 confidence := 0.6, classId := 0, className := "person" }) ∧
    ¬ (rectOverlap { x := 8, y := 8, width := 4, height := 4 }
        { x := 45, y := 45, width := 10, height := 10 }
        > scenarioDetector.config_.nmsThreshold) :=
  ⟨⟨by rw [twoObject_postProcessDetections]; simp,
      by rw [twoObject_postProcessDetections]; simp⟩,
    C2_no_two_returned_boxes_overlap scenarioDetector [twoObjectOutput] scenarioSize 0 1
      { boundingBox := { x := 8, y := 8, width := 4, height := 4 }, confidence := 0.9,
        classId := 0, className := "person" }
      { boundingBox := { x := 45, y := 45, width := 10, height := 10 }, confidence := 0.6,
        classId := 0, className := "person" }
      (by rw [twoObject_postProcessDetections]; simp)
      (by rw [twoObject_postProcessDetections]; simp)
      (by decide)⟩

/-- C3. The suppression step is idempotent: for every list of boxes and confidences and
every pair of thresholds, running `NMSBoxes` with the same thresholds on the boxes and
confidences of its own result keeps every one of them in the same order; in particular
this holds for the boxes and confidences of the detections that `postProcessDetections`
returns. -/
theorem C3_nms_idempotent (bboxes : List Rect) (scores : List ℚ)
    (score_threshold nms_threshold : ℚ) (self : YoloDetector) (outputs : List Mat)
    (imageSize : Size) :
    NMSBoxes
        ((NMSBoxes bboxes scores score_threshold nms_threshold).map
          (fun idx => bboxes.getD idx default))
        ((NMSBoxes bboxes scores score_threshold nms_threshold).map
          (fun idx => scores.getD idx 0))
        score_threshold nms_threshold
      = List.range (NMSBoxes bboxes scores score_threshold nms_threshold).length ∧
    NMSBoxes
        ((self.postProcessDetections outputs imageSize).map (fun d => d.boundingBox))
        ((self.postProcessDetections outputs imageSize).map (fun d => d.confidence))
        self.config_.confidenceThreshold self.config_.nmsThreshold
      = List.range (self.postProcessDetections outputs imageSize).length := by
  constructor
  · exact NMSFast_idempotent rectOverlap bboxes scores score_threshold nms_threshold
  · rw [postProcessDetections_eq_map]
    simp only [List.map_map, List.length_map]
    exact NMSFast_idempotent rectOverlap _ _ _ _

/-- C4. For two decoded candidates `a` and `b` with
`confidence(a) > confidence(b) > confidenceThreshold` and Intersection-over-Union above
`nmsThreshold`, `b` is not kept when `a` is; and a candidate of highest confidence is
always kept. -/
theorem C4_lower_confidence_overlapping_box_suppressed (self : YoloDetector)
    (outputs : List Mat) (imageSize : Size) (a b : Nat) (ca cb : Candidate)
    (ha : (decodeCandidates self.config_ self.classNames_ imageSize outputs)[a]? = some ca)
    (hb : (decodeCandidates self.config_ self.classNames_ imageSize outputs)[b]? = some cb)
    (hconf : ca.confidence > cb.confidence)
    (hfloor : cb.confidence > self.config_.confidenceThreshold)
    (hiou : rectOverlap ca.box cb.box > self.config_.nmsThreshold) :
    (a ∈ self.nmsIndices outputs imageSize → b ∉ self.nmsIndices outputs imageSize) ∧
    ∃ m cm, m ∈ self.nmsIndices outputs imageSize ∧
      (decodeCandidates self.config_ self.classNames_ imageSize outputs)[m]? = some cm ∧
      ∀ c ∈ decodeCandidates self.config_ self.classNames_ imageSize outputs,
        c.confidence ≤ cm.confidence := by
  have hscore : ∀ (k : Nat) (c : Candidate),
      (decodeCandidates self.config_ self.classNames_ imageSize outputs)[k]? = some c →
      ((decodeCandidates self.config_ self.classNames_ imageSize outputs).map
        (fun c => c.confidence)).getD k 0 = c.confidence := by
    intro k c hk
    simp [List.getD_eq_getElem?_getD, List.getElem?_map, hk]
  have hbox : ∀ (k : Nat) (c : Candidate),
      (decodeCandidates self.config_ self.classNames_ imageSize outputs)[k]? = some c →
      ((decodeCandidates self.config_ self.classNames_ imageSize outputs).map
        (fun c => c.box)).getD k default = c.box := by
    intro k c hk
    simp [List.getD_eq_getElem?_getD, List.getElem?_map, hk]
  constructor
  · intro hain
    unfold YoloDetector.nmsIndices NMSBoxes at hain ⊢
    refine NMSFast_suppresses rectOverlap rectOverlap_comm _ _ _ _ a b ?_ ?_ hain
    · rw [hscore a ca ha, hscore b cb hb]
      exact hconf
    · rw [hbox a ca ha, hbox b cb hb]
      exact hiou
  · have hblt : b < ((decodeCandidates self.config_ self.classNames_ imageSize outputs).map
        (fun c => c.confidence)).length := by
      rw [List.length_map]
      exact (List.getElem?_eq_some_iff.mp hb).1
    have hbgt : self.config_.confidenceThreshold
        < ((decodeCandidates self.config_ self.classNames_ imageSize outputs).map
            (fun c => c.confidence)).getD b 0 := by
      rw [hscore b cb hb]
      exact hfloor
    obtain ⟨m, hm, hmax⟩ := NMSFast_keeps_max rectOverlap
      ((decodeCandidates self.config_ self.classNames_ imageSize outputs).map (fun c => c.box))
      _ self.config_.confidenceThreshold self.config_.nmsThreshold b hblt hbgt
    obtain ⟨cm, hcm, _⟩ := @nmsIndices_mem self outputs imageSize m hm
    refine ⟨m, cm, hm, hcm, ?_⟩
    intro c hc
    obtain ⟨k, hk, hkc⟩ := List.mem_iff_getElem.mp hc
    have h1 := hmax k (by simpa using hk)
    rw [hscore k c (by rw [List.getElem?_eq_getElem hk, hkc]), hscore m cm hcm] at h1
    exact h1

/-- C4, scenario: candidates of confidence 0.9 and 0.6 whose boxes have
Intersection-over-Union 0.7 under `nmsThreshold = 0.5`: only the 0.9 box is returned. -/
theorem C4_witness :
    rectOverlap { x := 0, y := 0, width := 34, height := 20 }
      { x := 6, y := 0, width := 34, height := 20 } = 0.7 ∧
    overlapDetector.config_.nmsThreshold = 0.5 ∧
    overlapDetector.postProcessDetections [overlapOutput] scenarioSize
      = [{ boundingBox := { x := 0, y := 0, width := 34, height := 20 }, confidence := 0.9,
           classId := 0, className := "person" }] ∧
    (1 ∈ overlapDetector.nmsIndices [overlapOutput] scenarioSize →
      0 ∉ overlapDetector.nmsIndices [overlapOutput] scenarioSize) ∧
    ∃ m cm, m ∈ overlapDetector.nmsIndices [overlapOutput] scenarioSize ∧
      (decodeCandidates overlapDetector.config_ overlapDetector.classNames_ scenarioSize
        [overlapOutput])[m]? = some cm ∧
      ∀ c ∈ decodeCandidates overlapDetector.config_ overlapDetector.classNames_ scenarioSize
          [overlapOutput],
        c.confidence ≤ cm.confidence :=
  ⟨overlap_rectOverlap, by norm_num [overlapDetector], overlap_postProcessDetections,
    C4_lower_confidence_overlapping_box_suppressed overlapDetector [overlapOutput]
      scenarioSize 1 0
      { classId := 0, confidence := 0.9, box := { x := 0, y := 0, width := 34, height := 20 } }
      { classId := 0, confidence := 0.6, box := { x := 6, y := 0, width := 34, height := 20 } }
      (by rw [overlap_decodeCandidates]; simp)
      (by rw [overlap_decodeCandidates]; simp)
      (by norm_num)
      (by norm_num [overlapDetector])
      (by rw [overlap_rectOverlap]; norm_num [overlapDetector])⟩

/-! ## Facts about the string helpers -/

theorem findLastIdx_eq_none {p : Char → Bool} {l : List Char} :
    findLastIdx p l = none ↔ ∀ x ∈ l, p x = false := by
  induction l with
  | nil => simp [findLastIdx]
  | cons c cs ih =>
    unfold findLastIdx
    cases h : findLastIdx p cs with
    | some i =>
      simp only [false_iff, reduceCtorEq]
      intro hall
      have := ih.mpr (fun x hx => hall x (List.mem_cons_of_mem c hx))
      rw [h] at this
      exact Option.noConfusion this
    | none =>
      have hcs := ih.mp h
      by_cases hc : p c = true
      · simp [hc]
      · simp only [hc, Bool.false_eq_true, if_false, true_iff]
        intro x hx
        rcases List.mem_cons.mp hx with rfl | hx
        · simpa using hc
        · exact hcs x hx

theorem findLastIdx_append {p : Char → Bool} (xs ys : List Char) (c : Char)
    (hc : p c = true) (hys : ∀ y ∈ ys, p y = false) :
    findLastIdx p (xs ++ c :: ys) = some xs.length := by
  induction xs with
  | nil =>
    simp only [List.nil_append, List.length_nil]
    unfold findLastIdx
    rw [findLastIdx_eq_none.mpr hys]
    simp [hc]
  | cons x xs ih =>
    simp only [List.cons_append, List.length_cons]
    unfold findLastIdx
    rw [ih]

theorem toLower_dot : Char.toLower '.' = '.' := by decide

theorem tolower_append (a b : String) : tolower (a ++ b) = tolower a ++ tolower b := by
  apply String.ext
  simp [tolower, String.toList]

/-- The extension read by `loadModel` for a path whose last `.` is followed by `rest`. -/
theorem modelExtension_of_last_dot (stem rest : String) (hrest : '.' ∉ rest.toList) :
    modelExtension (stem ++ "." ++ rest) = some ("." ++ tolower rest) := by
  unfold modelExtension find_last_of
  have hlist : (stem ++ "." ++ rest).toList = stem.toList ++ '.' :: rest.toList := by
    simp [String.toList]
  rw [hlist, findLastIdx_append stem.toList rest.toList '.' (by decide)]
  · unfold substr
    simp only [hlist]
    rw [if_pos (by simp)]
    simp only [Option.map_some', List.drop_left, Option.some.injEq]
    apply String.ext
    simp [tolower, String.toList]
  · intro y hy
    have : y ≠ '.' := fun h => hrest (h ▸ hy)
    simpa using this

/-- A path without any `.` has no extension: `substr` throws. -/
theorem modelExtension_of_no_dot (modelPath : String) (h : '.' ∉ modelPath.toList) :
    modelExtension modelPath = none := by
  unfold modelExtension find_last_of
  rw [findLastIdx_eq_none.mpr]
  · rfl
  · intro y hy
    have : y ≠ '.' := fun h2 => h (h2 ▸ hy)
    simpa using this

/-! ## Facts about model loading -/

theorem loadModel_of_extension_none (env : LoadEnv) (self : YoloDetector)
    (modelPath configPath classesPath : String) (h : modelExtension modelPath = none) :
    self.loadModel env modelPath configPath classesPath
      = (false, { self with loaded_ := false, modelPath_ := modelPath }) := by
  simp [YoloDetector.loadModel, YoloDetector.loadModelTry, h]

theorem loadModel_of_unsupported (env : LoadEnv) (self : YoloDetector)
    (modelPath configPath classesPath extension : String)
    (h : modelExtension modelPath = some extension)
    (h1 : extension ≠ ".onnx") (h2 : ¬ (extension = ".weights" ∧ configPath ≠ ""))
    (h3 : extension ≠ ".pb") :
    self.loadModel env modelPath configPath classesPath
      = (false, { self with loaded_ := false, modelPath_ := modelPath }) := by
  simp only [YoloDetector.loadModel, YoloDetector.loadModelTry, h, readNetwork, if_neg h1,
    if_neg h2, if_neg h3]

/-- A failed `loadModel` leaves the detector unloaded with the new path recorded and
everything else as before. -/
theorem loadModel_failed (env : LoadEnv) (self : YoloDetector)
    (modelPath configPath classesPath : String)
    (h : (self.loadModel env modelPath configPath classesPath).1 = false) :
    (self.loadModel env modelPath configPath classesPath).2
      = { self with loaded_ := false, modelPath_ := modelPath } := by
  unfold YoloDetector.loadModel at h ⊢
  unfold YoloDetector.loadModelTry at h ⊢
  cases hext : modelExtension modelPath with
  | none => simp
  | some extension =>
    simp only [hext] at h ⊢
    cases hr : readNetwork env extension modelPath configPath with
    | error msg => simp
    | ok net? =>
      cases net? with
      | none => simp
      | some net =>
        simp only [hr] at h ⊢
        by_cases hempty : net.empty = true
        · simp [hempty]
        · simp [hempty] at h

theorem foldl_push_nonempty (lines : List String) (acc : List String) :
    lines.foldl (fun acc line => if line ≠ "" then acc ++ [line] else acc) acc
      = acc ++ lines.filter (fun line => decide (line ≠ "")) := by
  induction lines generalizing acc with
  | nil => simp
  | cons l ls ih =>
    rw [List.foldl_cons, ih]
    by_cases h : l = ""
    · simp [h]
    · simp [h]

/-! ## Claims about model loading -/

/-- C11. For a model path whose extension (the part after its last `.`) is "weights" in
any letter case, `loadModel` with an empty `configPath` returns `false` and `isLoaded()`
is `false` afterwards. -/
theorem C11_weights_without_config_fails (env : LoadEnv) (self : YoloDetector)
    (stem rest classesPath : String) (hext : tolower rest = "weights") :
    (self.loadModel env (stem ++ "." ++ rest) "" classesPath).1 = false ∧
    (self.loadModel env (stem ++ "." ++ rest) "" classesPath).2.isLoaded = false := by
  have hnodot : '.' ∉ rest.toList := by
    intro hmem
    have h1 : Char.toLower '.' ∈ (tolower rest).toList := by
      simp only [tolower, String.toList]
      exact List.mem_map_of_mem Char.toLower hmem
    rw [hext] at h1
    revert h1
    decide
  have h := modelExtension_of_last_dot stem rest hnodot
  rw [hext] at h
  rw [loadModel_of_unsupported env self _ "" classesPath _ h (by decide) (by simp) (by decide)]
  exact ⟨rfl, rfl⟩

/-- C11, scenario: `loadModel("model.weights")` with no config path fails on a new
detector and leaves it unloaded. -/
theorem C11_witness :
    tolower "weights" = "weights" ∧ "model" ++ "." ++ "weights" = "model.weights" ∧
    (YoloDetector.new.loadModel scenarioEnv ("model" ++ "." ++ "weights") "" "").1 = false ∧
    (YoloDetector.new.loadModel scenarioEnv ("model" ++ "." ++ "weights") "" "").2.isLoaded
      = false :=
  ⟨by decide, by decide,
    C11_weights_without_config_fails scenarioEnv YoloDetector.new "model" "weights" ""
      (by decide)⟩

/-- C12 as stated fails: a detector loaded from "model.onnx" that is asked to load
"model.weights" without a config path reports failure, is no longer loaded, and records
the path of the failed call. -/
theorem C12_counterexample :
    loadedDetector.isLoaded = true ∧ loadedDetector.modelPath_ = "model.onnx" ∧
    (loadedDetector.loadModel scenarioEnv "model.weights" "" "").1 = false ∧
    (loadedDetector.loadModel scenarioEnv "model.weights" "" "").2.isLoaded
      ≠ loadedDetector.isLoaded ∧
    (loadedDetector.loadModel scenarioEnv "model.weights" "" "").2.modelPath_
      ≠ loadedDetector.modelPath_ := by
  have h1 : loadedDetector.isLoaded = true := by decide
  have h2 : loadedDetector.modelPath_ = "model.onnx" := by decide
  have h3 : (loadedDetector.loadModel scenarioEnv "model.weights" "" "").1 = false := by decide
  have h4 := loadModel_failed scenarioEnv loadedDetector "model.weights" "" "" h3
  refine ⟨h1, h2, h3, ?_, ?_⟩
  · rw [h4, h1]
    simp [YoloDetector.isLoaded]
  · rw [h4, h2]
    decide

/-- C12, amended. After every `loadModel` call that fails, `isLoaded()` is `false`,
whatever it was before the call, the recorded model path is the path passed to the
failed call, and the configuration is the one before the call. -/
theorem C12_failed_load_leaves_detector_unloaded (env : LoadEnv) (self : YoloDetector)
    (modelPath configPath classesPath : String)
    (hfail : (self.loadModel env modelPath configPath classesPath).1 = false) :
    (self.loadModel env modelPath configPath classesPath).2.isLoaded = false ∧
    (self.loadModel env modelPath configPath classesPath).2.modelPath_ = modelPath ∧
    (self.loadModel env modelPath configPath classesPath).2.getConfig = self.getConfig := by
  rw [loadModel_failed env self modelPath configPath classesPath hfail]
  exact ⟨rfl, rfl, rfl⟩

/-- C12, scenario: the failed load of "model.weights" on the loaded detector. -/
theorem C12_witness :
    (loadedDetector.loadModel scenarioEnv "model.weights" "" "").1 = false ∧
    (loadedDetector.loadModel scenarioEnv "model.weights" "" "").2.isLoaded = false ∧
    (loadedDetector.loadModel scenarioEnv "model.weights" "" "").2.modelPath_
      = "model.weights" ∧
    (loadedDetector.loadModel scenarioEnv "model.weights" "" "").2.getConfig
      = loadedDetector.getConfig :=
  ⟨by decide,
    C12_failed_load_leaves_detector_unloaded scenarioEnv loadedDetector "model.weights" "" ""
      (by decide)⟩

theorem dot_append_ne {a b : String} (h : a ≠ b) : "." ++ a ≠ "." ++ b := by
  intro heq
  apply h
  have h2 := congrArg String.data heq
  simp only [String.data_append] at h2
  exact String.ext (List.append_cancel_left h2)

/-- C13. For a model path that contains no `.`, or whose part after the last `.` is in
lower case none of "onnx", "weights", "pb", `loadModel` returns `false` and leaves
`isLoaded() == false`; in the second case the exception caught inside is the
"Unsupported model format" one. -/
theorem C13_unrecognized_extension_fails (env : LoadEnv) (self : YoloDetector)
    (modelPath configPath classesPath : String)
    (h : '.' ∉ modelPath.toList ∨
      ∃ stem rest, modelPath = stem ++ "." ++ rest ∧ '.' ∉ rest.toList ∧
        tolower rest ≠ "onnx" ∧ tolower rest ≠ "weights" ∧ tolower rest ≠ "pb") :
    (self.loadModel env modelPath configPath classesPath).1 = false ∧
    (self.loadModel env modelPath configPath classesPath).2.isLoaded = false ∧
    (∀ stem rest, modelPath = stem ++ "." ++ rest → '.' ∉ rest.toList →
      (self.loadModelTry env modelPath configPath classesPath).2
        = some ("Unsupported model format: " ++ ("." ++ tolower rest))) := by
  rcases h with hnodot | ⟨stem, rest, rfl, hrest, h1, h2, h3⟩
  · rw [loadModel_of_extension_none env self _ _ _ (modelExtension_of_no_dot _ hnodot)]
    refine ⟨rfl, rfl, ?_⟩
    intro stem rest heq _
    exfalso
    apply hnodot
    rw [heq]
    simp [String.toList]
  · have hext := modelExtension_of_last_dot stem rest hrest
    have e1 : "." ++ tolower rest ≠ ".onnx" := dot_append_ne h1
    have e2 : "." ++ tolower rest ≠ ".weights" := dot_append_ne h2
    have e3 : "." ++ tolower rest ≠ ".pb" := dot_append_ne h3
    rw [loadModel_of_unsupported env self _ configPath classesPath _ hext e1
      (fun hc => e2 hc.1) e3]
    refine ⟨rfl, rfl, ?_⟩
    intro stem2 rest2 heq hrest2
    have hext2 := modelExtension_of_last_dot stem2 rest2 hrest2
    rw [← heq, hext] at hext2
    have hsame : "." ++ tolower rest = "." ++ tolower rest2 := Option.some.inj hext2
    simp only [YoloDetector.loadModelTry, hext, readNetwork, if_neg e1,
      if_neg (fun hc : "." ++ tolower rest = ".weights" ∧ configPath ≠ "" => e2 hc.1),
      if_neg e3]
    rw [hsame]

/-- C13, scenario: "model.txt" and the dot-free "model" both fail to load. -/
theorem C13_witness :
    (YoloDetector.new.loadModel scenarioEnv "model" "" "").1 = false ∧
    (YoloDetector.new.loadModel scenarioEnv "model" "" "").2.isLoaded = false ∧
    (YoloDetector.new.loadModel scenarioEnv ("model" ++ "." ++ "TXT") "cfg" "").1 = false ∧
    (YoloDetector.new.loadModelTry scenarioEnv ("model" ++ "." ++ "TXT") "cfg" "").2
      = some "Unsupported model format: .txt" :=
  have ha := C13_unrecognized_extension_fails scenarioEnv YoloDetector.new "model" "" ""
    (Or.inl (by decide))
  have hb := C13_unrecognized_extension_fails scenarioEnv YoloDetector.new
    ("model" ++ "." ++ "TXT") "cfg" ""
    (Or.inr ⟨"model", "TXT", rfl, by decide, by decide, by decide, by decide⟩)
  ⟨ha.1, ha.2.1, hb.1, hb.2.2 "model" "TXT" rfl (by decide)⟩

/-- C14. A newly constructed detector carries the built-in list of exactly 80 class
names; `loadClassNames` leaves the label list unchanged when the file cannot be opened,
and for a readable file with lines `L` replaces it by the non-empty lines of `L` in file
order, so that class id `i` resolves to the `i`-th non-empty line. -/
theorem C14_class_names_default_and_override (env : LoadEnv) (self : YoloDetector)
    (classesPath : String) :
    YoloDetector.new.classNames_ = Config.COCO_CLASSES ∧
    YoloDetector.new.classNames_.length = 80 ∧
    (env.fileLines classesPath = none →
      (self.loadClassNames env classesPath).classNames_ = self.classNames_) ∧
    (∀ L : List String, env.fileLines classesPath = some L →
      (self.loadClassNames env classesPath).classNames_
        = L.filter (fun line => decide (line ≠ "")) ∧
      ∀ (i : Nat) (name : String),
        (L.filter (fun line => decide (line ≠ "")))[i]? = some name →
        resolveClassName (self.loadClassNames env classesPath).classNames_ (i : Int)
          = name) := by
  refine ⟨rfl, by decide, ?_, ?_⟩
  · intro h
    simp [YoloDetector.loadClassNames, h]
  · intro L h
    have hnames : (self.loadClassNames env classesPath).classNames_
        = L.filter (fun line => decide (line ≠ "")) := by
      simp only [YoloDetector.loadClassNames, h]
      rw [foldl_push_nonempty]
      simp
    refine ⟨hnames, ?_⟩
    intro i name hi
    rw [hnames]
    obtain ⟨hlt, hget⟩ := List.getElem?_eq_some_iff.mp hi
    unfold resolveClassName
    rw [if_pos ⟨Int.natCast_nonneg i, by simpa using hlt⟩]
    simp only [Int.toNat_ofNat]
    rw [List.getD_eq_getElem _ _ hlt, hget]

/-- C14, scenario: the label file "labels.txt" with lines "cat", "", "dog", "", "bird"
gives the labels "cat", "dog", "bird"; a missing file keeps the 80 built-in labels. -/
theorem C14_witness :
    (YoloDetector.new.loadClassNames scenarioEnv "labels.txt").classNames_
      = ["cat", "dog", "bird"] ∧
    resolveClassName (YoloDetector.new.loadClassNames scenarioEnv "labels.txt").classNames_ 1
      = "dog" ∧
    (YoloDetector.new.loadClassNames scenarioEnv "missing.txt").classNames_
      = Config.COCO_CLASSES :=
  have h := C14_class_names_default_and_override scenarioEnv YoloDetector.new "labels.txt"
  have h2 := C14_class_names_default_and_override scenarioEnv YoloDetector.new "missing.txt"
  have hL : scenarioEnv.fileLines "labels.txt" = some ["cat", "", "dog", "", "bird"] := by
    decide
  ⟨(h.2.2.2 _ hL).1, (h.2.2.2 _ hL).2 1 "dog" (by decide), h2.2.2.1 (by decide)⟩

/-! ## Claim about the folder counters -/

theorem foldl_count_detections (images : List (Option ImageResult)) (start : Int) :
    images.foldl
        (fun total img =>
          match img with
          | some r => total + r.getDetectionCount
          | none => total)
        start
      = start + (images.map (fun img =>
          match img with
          | some r => (r.detections.length : Int)
          | none => 0)).sum := by
  induction images generalizing start with
  | nil => simp
  | cons img rest ih =>
    rw [List.foldl_cons, ih]
    cases img with
    | none => simp
    | some r => simp [ImageResult.getDetectionCount, add_assoc]

/-- C15. After `updateCounts()`, `imageCount` is the length of `images` and
`totalDetections` is the sum over the entries of `images` of their detection counts, a
null entry counting 0, whatever the counters held before; the entries are untouched. -/
theorem C15_updateCounts_invariant (f : FolderResult) :
    f.updateCounts.imageCount = (f.images.length : Int) ∧
    f.updateCounts.totalDetections
      = (f.images.map (fun img =>
          match img with
          | some r => (r.detections.length : Int)
          | none => 0)).sum ∧
    f.updateCounts.images = f.images := by
  refine ⟨rfl, ?_, rfl⟩
  simp only [FolderResult.updateCounts]
  rw [foldl_count_detections, zero_add]

/-- C15, scenario: the stale counters 7 and 40 of `staleFolder` become 3 and 3. -/
theorem C15_witness :
    staleFolder.imageCount = 7 ∧ staleFolder.totalDetections = 40 ∧
    staleFolder.updateCounts.imageCount = 3 ∧ staleFolder.updateCounts.totalDetections = 3 :=
  have h := C15_updateCounts_invariant staleFolder
  ⟨rfl, rfl, by rw [h.1]; rfl, by rw [h.2.1]; rfl⟩

/-! ## Facts about the scanner -/

theorem listImageFiles_eq (folderPath : String) (entries : Entries) :
    FolderScanner.listImageFiles folderPath entries = imagePathsOf folderPath entries := by
  unfold imagePathsOf
  induction entries with
  | nil => rfl
  | file name rest ih =>
    simp only [FolderScanner.listImageFiles, Entries.fileNames, List.map_cons, List.filter_cons]
    split_ifs <;> simp [ih]
  | other name rest ih => simpa [FolderScanner.listImageFiles, Entries.fileNames] using ih
  | dir name readable children rest _ ih =>
    simpa [FolderScanner.listImageFiles, Entries.fileNames] using ih

theorem anyImageEntry_iff (folderPath : String) (entries : Entries) :
    FolderScanner.anyImageEntry folderPath entries = true ↔
      ∃ name ∈ entries.fileNames, FolderScanner.isImageFile (folderPath ++ "/" ++ name) = true := by
  induction entries with
  | nil => simp [FolderScanner.anyImageEntry, Entries.fileNames]
  | file name rest ih =>
    simp [FolderScanner.anyImageEntry, Entries.fileNames, ih]
  | other name rest ih => simpa [FolderScanner.anyImageEntry, Entries.fileNames] using ih
  | dir name readable children rest _ ih =>
    simpa [FolderScanner.anyImageEntry, Entries.fileNames] using ih

theorem anyImageEntry_iff_imagePaths (folderPath : String) (entries : Entries) :
    FolderScanner.anyImageEntry folderPath entries = true ↔
      imagePathsOf folderPath entries ≠ [] := by
  rw [anyImageEntry_iff]
  unfold imagePathsOf
  constructor
  · rintro ⟨name, hname, himg⟩ hnil
    have hmem : folderPath ++ "/" ++ name ∈
        (entries.fileNames.map (fun name => folderPath ++ "/" ++ name)).filter
          FolderScanner.isImageFile :=
      List.mem_filter.mpr ⟨List.mem_map_of_mem _ hname, himg⟩
    rw [hnil] at hmem
    exact List.not_mem_nil _ hmem
  · intro hne
    obtain ⟨p, hp⟩ := List.exists_mem_of_ne_nil _ hne
    obtain ⟨hmap, himg⟩ := List.mem_filter.mp hp
    obtain ⟨name, hname, rfl⟩ := List.mem_map.mp hmap
    exact ⟨name, hname, himg⟩

/-- Every folder pushed by the recursive walk is a directory below `parent` that contains
an image file, can be read and is not the root path. -/
theorem mem_walkDirectories (rootPath : String) (entries : Entries) :
    ∀ (parent : String) (x : String × Directory),
      x ∈ (FolderScanner.walkDirectories rootPath parent entries).1 →
        x ∈ entries.subdirectories parent ∧
        FolderScanner.folderContainsImages x.1 x.2 = true ∧ x.1 ≠ rootPath := by
  induction entries with
  | nil => intro parent x hx; simp [FolderScanner.walkDirectories] at hx
  | file name rest ih =>
    intro parent x hx
    simp only [FolderScanner.walkDirectories] at hx
    simpa [Entries.subdirectories] using ih parent x hx
  | other name rest ih =>
    intro parent x hx
    simp only [FolderScanner.walkDirectories] at hx
    simpa [Entries.subdirectories] using ih parent x hx
  | dir name readable children rest ihc ihr =>
    intro parent x hx
    simp only [FolderScanner.walkDirectories] at hx
    simp only [Entries.subdirectories, List.mem_cons, List.mem_append]
    generalize hdef :
      (if (FolderScanner.folderContainsImages (parent ++ "/" ++ name)
            { readable := readable, entries := children } &&
            decide (parent ++ "/" ++ name ≠ rootPath)) = true
        then [(parent ++ "/" ++ name,
          ({ readable := readable, entries := children } : Directory))]
        else []) = here at hx
    have hhere : ∀ y : String × Directory, y ∈ here →
        y = (parent ++ "/" ++ name, { readable := readable, entries := children }) ∧
        FolderScanner.folderContainsImages y.1 y.2 = true ∧ y.1 ≠ rootPath := by
      intro y hy
      rw [← hdef] at hy
      by_cases hc : (FolderScanner.folderContainsImages (parent ++ "/" ++ name)
            { readable := readable, entries := children } &&
            decide (parent ++ "/" ++ name ≠ rootPath)) = true
      · rw [if_pos hc, List.mem_singleton] at hy
        subst hy
        simp only [Bool.and_eq_true, decide_eq_true_eq] at hc
        exact ⟨rfl, hc.1, hc.2⟩
      · rw [if_neg hc] at hy
        exact absurd hy (List.not_mem_nil _)
    cases readable with
    | false =>
      simp only [Bool.false_eq_true, if_false] at hx
      obtain ⟨h1, h2, h3⟩ := hhere x hx
      exact ⟨Or.inl h1, h2, h3⟩
    | true =>
      simp only [if_true] at hx
      cases hsub : (FolderScanner.walkDirectories rootPath (parent ++ "/" ++ name) children).2 with
      | false =>
        simp only [hsub, Bool.false_eq_true, if_false, List.mem_append] at hx
        rcases hx with h | h
        · obtain ⟨h1, h2, h3⟩ := hhere x h
          exact ⟨Or.inl h1, h2, h3⟩
        · obtain ⟨h1, h2, h3⟩ := ihc _ x h
          exact ⟨Or.inr (Or.inl h1), h2, h3⟩
      | true =>
        simp only [hsub, if_true, List.mem_append] at hx
        rcases hx with (h | h) | h
        · obtain ⟨h1, h2, h3⟩ := hhere x h
          exact ⟨Or.inl h1, h2, h3⟩
        · obtain ⟨h1, h2, h3⟩ := ihc _ x h
          exact ⟨Or.inr (Or.inl h1), h2, h3⟩
        · obtain ⟨h1, h2, h3⟩ := ihr _ x h
          exact ⟨Or.inr (Or.inr h1), h2, h3⟩

theorem folderContainsImages_iff (folderPath : String) (d : Directory) :
    FolderScanner.folderContainsImages folderPath d = true ↔
      d.readable = true ∧
      ∃ name ∈ d.entries.fileNames,
        FolderScanner.isImageFile (folderPath ++ "/" ++ name) = true := by
  unfold FolderScanner.folderContainsImages
  cases hr : d.readable with
  | false => simp
  | true => simp [anyImageEntry_iff]

/-- The record built for a readable folder: its path, one unprocessed entry per image
path in sorted order, and the matching count. -/
theorem scanSingleFolder_new (folderPath : String) (d : Directory) (hr : d.readable = true) :
    (FolderScanner.scanSingleFolder folderPath d (FolderResult.new folderPath)).folderPath
      = folderPath ∧
    (FolderScanner.scanSingleFolder folderPath d (FolderResult.new folderPath)).images
      = ((imagePathsOf folderPath d.entries).insertionSort stringLE).map
          (fun p => some (ImageResult.new p)) ∧
    (FolderScanner.scanSingleFolder folderPath d (FolderResult.new folderPath)).imageCount
      = (((imagePathsOf folderPath d.entries).insertionSort stringLE).length : Int) := by
  simp [FolderScanner.scanSingleFolder, FolderScanner.getImageFiles, hr, FolderResult.new,
    FolderResult.updateCounts, listImageFiles_eq]

theorem mem_foldersToScan {rootPath : String} {d : Directory} {recursive : Bool}
    {x : String × Directory} (hx : x ∈ FolderScanner.foldersToScan rootPath d recursive) :
    (x = (rootPath, d) ∨ (recursive = true ∧ x ∈ d.entries.subdirectories rootPath)) ∧
    FolderScanner.folderContainsImages x.1 x.2 = true := by
  unfold FolderScanner.foldersToScan at hx
  have hfirst : ∀ y : String × Directory,
      y ∈ (if FolderScanner.folderContainsImages rootPath d = true then [(rootPath, d)] else []) →
        y = (rootPath, d) ∧ FolderScanner.folderContainsImages y.1 y.2 = true := by
    intro y hy
    by_cases hc : FolderScanner.folderContainsImages rootPath d = true
    · rw [if_pos hc, List.mem_singleton] at hy
      subst hy
      exact ⟨rfl, hc⟩
    · rw [if_neg hc] at hy
      exact absurd hy (List.not_mem_nil _)
  simp only at hx
  cases recursive with
  | false =>
    simp only [Bool.false_eq_true, if_false] at hx
    exact ⟨Or.inl (hfirst x hx).1, (hfirst x hx).2⟩
  | true =>
    simp only [if_true] at hx
    cases hr : d.readable with
    | false =>
      simp only [hr, Bool.false_eq_true, if_false] at hx
      exact ⟨Or.inl (hfirst x hx).1, (hfirst x hx).2⟩
    | true =>
      simp only [hr, if_true, List.mem_append] at hx
      rcases hx with h | h
      · exact ⟨Or.inl (hfirst x h).1, (hfirst x h).2⟩
      · obtain ⟨h1, h2, _⟩ := mem_walkDirectories rootPath d.entries rootPath x h
        exact ⟨Or.inr ⟨rfl, h1⟩, h2⟩

/-- No collected folder is dropped after listing: the result has one record per collected
folder, in collection order. -/
theorem scanForImages_directory (rootPath : String) (d : Directory) (recursive : Bool) :
    FolderScanner.scanForImages rootPath (.directory d) recursive
      = .ok ((FolderScanner.foldersToScan rootPath d recursive).map (fun pd =>
          FolderScanner.scanSingleFolder pd.1 pd.2 (FolderResult.new pd.1))) := by
  unfold FolderScanner.scanForImages
  simp only
  congr 1
  rw [← List.filterMap_eq_map]
  apply List.filterMap_congr
  intro pd hpd
  obtain ⟨_, hc⟩ := mem_foldersToScan hpd
  obtain ⟨hr, name, hname, himg⟩ := (folderContainsImages_iff pd.1 pd.2).mp hc
  have himages := (scanSingleFolder_new pd.1 pd.2 hr).2.1
  have hne : imagePathsOf pd.1 pd.2.entries ≠ [] :=
    (anyImageEntry_iff_imagePaths pd.1 pd.2.entries).mp
      ((anyImageEntry_iff pd.1 pd.2.entries).mpr ⟨name, hname, himg⟩)
  have hne2 : (FolderScanner.scanSingleFolder pd.1 pd.2 (FolderResult.new pd.1)).images ≠ [] := by
    rw [himages]
    intro hnil
    have hlen := congrArg List.length hnil
    simp only [List.length_map, List.length_insertionSort, List.length_nil] at hlen
    exact hne (List.length_eq_zero.mp hlen)
  simp [hne2]

theorem dot_append_inj (a b : String) : "." ++ a = "." ++ b ↔ a = b := by
  constructor
  · intro heq
    have h2 := congrArg String.data heq
    simp only [String.data_append] at h2
    exact String.ext (List.append_cancel_left h2)
  · intro h
    rw [h]

theorem pathFilename_of_dir (dir name : String) (h : '/' ∉ name.toList) :
    pathFilename (dir ++ "/" ++ name) = name := by
  unfold pathFilename find_last_of
  have hlist : (dir ++ "/" ++ name).toList = dir.toList ++ '/' :: name.toList := by
    simp [String.toList]
  rw [hlist, findLastIdx_append dir.toList name.toList '/' (by decide)]
  · simp only [substr, hlist]
    rw [if_pos (by simp)]
    simp only [Option.getD_some]
    apply String.ext
    have hdrop := @List.drop_left' _ (dir.toList ++ ['/']) name.toList (dir.toList.length + 1)
      (by simp)
    simpa [String.toList] using hdrop
  · intro y hy
    have : y ≠ '/' := fun h2 => h (h2 ▸ hy)
    simpa using this

/-- The extension of a path whose file name is `stem.rest` with a non-empty stem and a
non-empty, dot-free `rest`. -/
theorem pathExtension_of_filename (p stem rest : String)
    (hfile : pathFilename p = stem ++ "." ++ rest) (hstem : stem ≠ "") (hrest : rest ≠ "")
    (hdot : '.' ∉ rest.toList) :
    pathExtension p = "." ++ rest := by
  have hlist : (stem ++ "." ++ rest).toList = stem.toList ++ '.' :: rest.toList := by
    simp [String.toList]
  have hstemlen : 0 < stem.toList.length := by
    rcases hs : stem.toList with _ | ⟨c, cs⟩
    · exact absurd (String.ext (by simpa [String.toList] using hs)) hstem
    · simp
  have hrestlen : 0 < rest.toList.length := by
    rcases hs : rest.toList with _ | ⟨c, cs⟩
    · exact absurd (String.ext (by simpa [String.toList] using hs)) hrest
    · simp
  have hlen : 3 ≤ (stem ++ "." ++ rest).toList.length := by
    rw [hlist]
    simp only [List.length_append, List.length_cons]
    omega
  have hne1 : stem ++ "." ++ rest ≠ "." := by
    intro h
    rw [h] at hlen
    revert hlen
    decide
  have hne2 : stem ++ "." ++ rest ≠ ".." := by
    intro h
    rw [h] at hlen
    revert hlen
    decide
  unfold pathExtension
  simp only [hfile]
  rw [if_neg (by simp [hne1, hne2])]
  unfold find_last_of
  rw [hlist, findLastIdx_append stem.toList rest.toList '.' (by decide)]
  · obtain ⟨k, hk⟩ := Nat.exists_eq_succ_of_ne_zero (Nat.pos_iff_ne_zero.mp hstemlen)
    rw [hk]
    simp only [substr, hlist]
    rw [if_pos (by simp only [List.length_append, List.length_cons]; omega)]
    simp only [Option.getD_some]
    apply String.ext
    have hdrop := @List.drop_left' _ stem.toList ('.' :: rest.toList) (k + 1) hk
    simpa [String.toList] using hdrop
  · intro y hy
    have : y ≠ '.' := fun h2 => hdot (h2 ▸ hy)
    simpa using this

/-- C19. `isImageFile(p)` holds exactly when the lower-cased extension of the file name
of `p` is one of `.jpg`, `.jpeg`, `.png`, `.bmp`, `.tiff`, `.tif`, `.webp`; the answer
depends on the extension only through its lower-case form, so for a file `stem.rest`
it is decided by the lower-cased `rest`, and a path without extension is rejected. -/
theorem C19_isImageFile_by_lowercase_extension :
    (∀ p : String, FolderScanner.isImageFile p = true ↔
      tolower (pathExtension p) ∈ [".jpg", ".jpeg", ".png", ".bmp", ".tiff", ".tif", ".webp"]) ∧
    (∀ p q : String, tolower (pathExtension p) = tolower (pathExtension q) →
      FolderScanner.isImageFile p = FolderScanner.isImageFile q) ∧
    (∀ dir stem rest : String, stem ≠ "" → rest ≠ "" → '.' ∉ rest.toList →
      '/' ∉ (stem ++ "." ++ rest).toList →
      (FolderScanner.isImageFile (dir ++ "/" ++ (stem ++ "." ++ rest)) = true ↔
        tolower rest ∈ ["jpg", "jpeg", "png", "bmp", "tiff", "tif", "webp"])) ∧
    (∀ p : String, pathExtension p = "" → FolderScanner.isImageFile p = false) := by
  refine ⟨?_, ?_, ?_, ?_⟩
  · intro p
    simp [FolderScanner.isImageFile, Config.SUPPORTED_EXTENSIONS]
  · intro p q h
    simp only [FolderScanner.isImageFile, h]
  · intro dir stem rest hstem hrest hdot hslash
    have hext := pathExtension_of_filename (dir ++ "/" ++ (stem ++ "." ++ rest)) stem rest
      (pathFilename_of_dir dir _ hslash) hstem hrest hdot
    have hlow : tolower ("." ++ rest) = "." ++ tolower rest := by
      rw [tolower_append]
      rfl
    simp only [FolderScanner.isImageFile, Config.SUPPORTED_EXTENSIONS, hext, hlow,
      List.contains_eq_any_beq, List.any_eq_true, beq_iff_eq, List.mem_cons,
      List.mem_singleton, List.not_mem_nil, or_false]
    have e1 : (".jpg" : String) = "." ++ "jpg" := by decide
    have e2 : (".jpeg" : String) = "." ++ "jpeg" := by decide
    have e3 : (".png" : String) = "." ++ "png" := by decide
    have e4 : (".bmp" : String) = "." ++ "bmp" := by decide
    have e5 : (".tiff" : String) = "." ++ "tiff" := by decide
    have e6 : (".tif" : String) = "." ++ "tif" := by decide
    have e7 : (".webp" : String) = "." ++ "webp" := by decide
    constructor
    · rintro ⟨x, hx, hxe⟩
      rcases hx with rfl | rfl | rfl | rfl | rfl | rfl | rfl
      · rw [e1, dot_append_inj] at hxe; simp [hxe]
      · rw [e2, dot_append_inj] at hxe; simp [hxe]
      · rw [e3, dot_append_inj] at hxe; simp [hxe]
      · rw [e4, dot_append_inj] at hxe; simp [hxe]
      · rw [e5, dot_append_inj] at hxe; simp [hxe]
      · rw [e6, dot_append_inj] at hxe; simp [hxe]
      · rw [e7, dot_append_inj] at hxe; simp [hxe]
    · intro h
      refine ⟨"." ++ tolower rest, ?_, rfl⟩
      rcases h with h | h | h | h | h | h | h <;> rw [h] <;> decide
  · intro p h
    simp only [FolderScanner.isImageFile, h]
    decide

/-- C19, scenario: "A.JPG" and "A.jpg" are both image files, "a.txt" and the
extension-less "noext" are not. -/
theorem C19_witness :
    FolderScanner.isImageFile "A.JPG" = true ∧ FolderScanner.isImageFile "A.jpg" = true ∧
    FolderScanner.isImageFile "a.txt" = false ∧ FolderScanner.isImageFile "noext" = false ∧
    (FolderScanner.isImageFile ("root" ++ "/" ++ ("photo" ++ "." ++ "JpEg")) = true ↔
      tolower "JpEg" ∈ ["jpg", "jpeg", "png", "bmp", "tiff", "tif", "webp"]) :=
  ⟨by decide, by decide, by decide,
    C19_isImageFile_by_lowercase_extension.2.2.2 "noext" (by decide),
    C19_isImageFile_by_lowercase_extension.2.2.1 "root" "photo" "JpEg" (by decide)
      (by decide) (by decide) (by decide)⟩

/-! ## Claim about the detection worker -/

/-- C20. While a run is active, `startProcessing` is a no-op: the stored root path,
detector, recursion flag, cancellation flag, processing flag, result tree and statistics
are unchanged and no second run is started. -/
theorem C20_startProcessing_noop_while_running (self : DetectionWorker) (rootPath : String)
    (detector : Option YoloDetector) (recursive : Bool) (hrun : self.isRunning = true) :
    self.startProcessing rootPath detector recursive = self ∧
    (self.startProcessing rootPath detector recursive).rootPath_ = self.rootPath_ ∧
    (self.startProcessing rootPath detector recursive).detector_ = self.detector_ ∧
    (self.startProcessing rootPath detector recursive).recursive_ = self.recursive_ ∧
    (self.startProcessing rootPath detector recursive).cancellationRequested_
      = self.cancellationRequested_ ∧
    (self.startProcessing rootPath detector recursive).isProcessing = self.isProcessing ∧
    (self.startProcessing rootPath detector recursive).results_ = self.results_ ∧
    (self.startProcessing rootPath detector recursive).stats_ = self.stats_ ∧
    (self.startProcessing rootPath detector recursive).runsStarted_ = self.runsStarted_ := by
  have h : self.startProcessing rootPath detector recursive = self := by
    unfold DetectionWorker.startProcessing
    rw [if_pos hrun]
  rw [h]
  exact ⟨rfl, rfl, rfl, rfl, rfl, rfl, rfl, rfl, rfl⟩

/-- C20, scenario: a second `startProcessing` on `busyWorker` changes nothing, while the
same call on an idle worker starts a run. -/
theorem C20_witness :
    busyWorker.isRunning = true ∧
    busyWorker.startProcessing "other" none false = busyWorker ∧
    (busyWorker.startProcessing "other" none false).runsStarted_ = 1 ∧
    (({} : DetectionWorker).startProcessing "other" none false).runsStarted_ = 1 ∧
    (({} : DetectionWorker).startProcessing "other" none false).rootPath_ = "other" :=
  have h := C20_startProcessing_noop_while_running busyWorker "other" none false rfl
  ⟨rfl, h.1, by rw [h.1]; rfl, rfl, rfl⟩

/-! ## Facts about truncation and clamping -/

/-- A valid configuration has positive thresholds and a positive input size. -/
theorem isValid_iff (c : DetectionConfig) :
    c.isValid = true ↔
      0 < c.confidenceThreshold ∧ c.confidenceThreshold ≤ 1 ∧ 0 < c.nmsThreshold ∧
        c.nmsThreshold ≤ 1 ∧ 0 < c.inputWidth ∧ 0 < c.inputHeight := by
  simp [DetectionConfig.isValid, and_assoc]

/-- The default configuration is valid. -/
theorem default_config_isValid : ({} : DetectionConfig).isValid = true := by
  rw [isValid_iff]
  norm_num

theorem loadClassNames_config (env : LoadEnv) (self : YoloDetector) (classesPath : String) :
    (self.loadClassNames env classesPath).config_ = self.config_ := by
  unfold YoloDetector.loadClassNames
  cases env.fileLines classesPath <;> rfl

/-- The `try` block of `loadModel` never writes the configuration. -/
theorem loadModelTry_config (env : LoadEnv) (self : YoloDetector)
    (modelPath configPath classesPath : String) :
    (self.loadModelTry env modelPath configPath classesPath).1.config_ = self.config_ := by
  unfold YoloDetector.loadModelTry
  cases modelExtension modelPath with
  | none => rfl
  | some extension =>
    simp only
    cases readNetwork env extension modelPath configPath with
    | error msg => rfl
    | ok net =>
      cases net with
      | none => rfl
      | some net =>
        simp only
        by_cases hempty : net.empty = true
        · rw [if_pos hempty]
        · rw [if_neg hempty]
          by_cases hpath : classesPath ≠ ""
          · simp only [if_pos hpath, loadClassNames_config]
          · simp only [if_neg hpath]

/-- Method `loadModel` never writes the configuration. -/
theorem loadModel_config (env : LoadEnv) (self : YoloDetector)
    (modelPath configPath classesPath : String) :
    (self.loadModel env modelPath configPath classesPath).2.config_ = self.config_ := by
  have h := loadModelTry_config env self modelPath configPath classesPath
  unfold YoloDetector.loadModel
  rcases hrun : self.loadModelTry env modelPath configPath classesPath with ⟨s, _ | e⟩
  · rw [hrun] at h
    simpa using h
  · rw [hrun] at h
    simpa using h

/-- Each call of the interface keeps a valid configuration valid. -/
theorem afterCall_config_isValid (self : YoloDetector) (call : DetectorCall)
    (h : self.config_.isValid = true) : (self.afterCall call).config_.isValid = true := by
  cases call with
  | setConfig config =>
    show (self.setConfig config).config_.isValid = true
    unfold YoloDetector.setConfig
    by_cases hc : config.isValid = true
    · rw [if_pos hc]
      exact hc
    · rw [if_neg hc]
      exact h
  | loadModel env modelPath configPath classesPath =>
    show (self.loadModel env modelPath configPath classesPath).2.config_.isValid = true
    rw [loadModel_config]
    exact h
  | detectObjects forward image => exact h

theorem foldl_afterCall_config_isValid (calls : List DetectorCall) (self : YoloDetector)
    (h : self.config_.isValid = true) :
    (calls.foldl YoloDetector.afterCall self).config_.isValid = true := by
  induction calls generalizing self with
  | nil => exact h
  | cons call rest ih => exact ih _ (afterCall_config_isValid self call h)

/-- Every reachable detector state holds a valid configuration. -/
theorem afterCalls_config_isValid (calls : List DetectorCall) :
    (YoloDetector.afterCalls calls).config_.isValid = true :=
  foldl_afterCall_config_isValid calls _ default_config_isValid

/-! ## Facts about the extent of the emitted box -/

/-- The `try` block of `processImageResult` keeps the image path. -/
theorem processImageResultTry_imagePath (env : ImageEnv)
    (detector : Image → Except String (List Detection)) (r : ImageResult) :
    (ImageProcessor.processImageResultTry env detector r).1.imagePath = r.imagePath := by
  unfold ImageProcessor.processImageResultTry
  cases ImageProcessor.loadImage env r.imagePath with
  | error e => rfl
  | ok image =>
    simp only
    cases detector image with
    | error e => rfl
    | ok detections =>
      simp only
      cases env.createAnnotatedImage image detections with
      | error e => rfl
      | ok annotated =>
        simp only
        cases env.generateMetadata r.imagePath image detections with
        | error e => rfl
        | ok metadata => rfl

/-- When the `try` block of `processImageResult` completes, the record is marked
processed. -/
theorem processImageResultTry_completed (env : ImageEnv)
    (detector : Image → Except String (List Detection)) (r : ImageResult)
    (h : (ImageProcessor.processImageResultTry env detector r).2.1 = none) :
    (ImageProcessor.processImageResultTry env detector r).1.processed = true := by
  unfold ImageProcessor.processImageResultTry at h ⊢
  cases hl : ImageProcessor.loadImage env r.imagePath with
  | error e => simp [hl] at h
  | ok image =>
    simp only [hl] at h ⊢
    cases hd : detector image with
    | error e => simp [hd] at h
    | ok detections =>
      simp only [hd] at h ⊢
      cases ha : env.createAnnotatedImage image detections with
      | error e => simp [ha] at h
      | ok annotated =>
        simp only [ha] at h ⊢
        cases hm : env.generateMetadata r.imagePath image detections with
        | error e => simp [hm] at h
        | ok metadata => rfl

/-- The entry after `processImageResult` on a record that is not processed yet, in terms
of the outcome of the `try` block. -/
theorem processImageResult_unprocessed (env : ImageEnv)
    (detector : Image → Except String (List Detection)) (r : ImageResult)
    (h : r.processed = false) :
    ImageProcessor.processImageResult env detector (some r) =
      some (match (ImageProcessor.processImageResultTry env detector r).2.1 with
        | none => (ImageProcessor.processImageResultTry env detector r).1
        | some e =>
          { (ImageProcessor.processImageResultTry env detector r).1 with
            processed := true, metadata := "Error processing image: " ++ e }) := by
  unfold ImageProcessor.processImageResult ImageProcessor.processImageResultRun
  simp only [h, Bool.false_eq_true, if_false]
  rcases ImageProcessor.processImageResultTry env detector r with ⟨r1, _ | e, calls⟩ <;> rfl

/-- A record that is not processed yet is marked processed by `processImageResult`, with
its path kept. -/
theorem processImageResult_marks (env : ImageEnv)
    (detector : Image → Except String (List Detection)) (r : ImageResult)
    (h : r.processed = false) :
    ∃ r1 : ImageResult, ImageProcessor.processImageResult env detector (some r) = some r1 ∧
      r1.processed = true ∧ r1.imagePath = r.imagePath := by
  refine ⟨_, processImageResult_unprocessed env detector r h, ?_, ?_⟩
  · cases hexc : (ImageProcessor.processImageResultTry env detector r).2.1 with
    | none => exact processImageResultTry_completed env detector r hexc
    | some e => rfl
  · cases hexc : (ImageProcessor.processImageResultTry env detector r).2.1 with
    | none => exact processImageResultTry_imagePath env detector r
    | some e => exact processImageResultTry_imagePath env detector r

/-- A record that is already processed is left as it is, without a call of the
detector. -/
theorem processImageResultRun_processed (env : ImageEnv)
    (detector : Image → Except String (List Detection)) (r : ImageResult)
    (h : r.processed = true) :
    ImageProcessor.processImageResultRun env detector (some r) = (some r, 0) := by
  unfold ImageProcessor.processImageResultRun
  simp [h]

/-- The entry after `processImageResult` is null or marked processed. -/
theorem processImageResult_result (env : ImageEnv)
    (detector : Image → Except String (List Detection)) (x : Option ImageResult) :
    ImageProcessor.processImageResult env detector x = none ∨
      ∃ r1 : ImageResult, ImageProcessor.processImageResult env detector x = some r1 ∧
        r1.processed = true := by
  cases x with
  | none => exact Or.inl rfl
  | some r =>
    right
    cases h : r.processed with
    | false =>
      obtain ⟨r1, h1, h2, _⟩ := processImageResult_marks env detector r h
      exact ⟨r1, h1, h2⟩
    | true =>
      refine ⟨r, ?_, h⟩
      unfold ImageProcessor.processImageResult
      rw [processImageResultRun_processed env detector r h]

/-! ## Facts about the signal counters -/

theorem signalledImages_append (xs ys : List Event) :
    signalledImages (xs ++ ys) = signalledImages xs + signalledImages ys := by
  induction xs with
  | nil => simp [signalledImages]
  | cons e rest ih => cases e <;> simp [signalledImages, ih, add_assoc]

theorem signalledDetections_append (xs ys : List Event) :
    signalledDetections (xs ++ ys) = signalledDetections xs + signalledDetections ys := by
  induction xs with
  | nil => simp [signalledDetections]
  | cons e rest ih => cases e <;> simp [signalledDetections, ih, add_assoc]

theorem signalledFolders_append (xs ys : List Event) :
    signalledFolders (xs ++ ys) = signalledFolders xs + signalledFolders ys := by
  induction xs with
  | nil => simp [signalledFolders]
  | cons e rest ih => cases e <;> simp [signalledFolders, ih, add_assoc]

/-! ## Facts about the steps of a run -/

theorem Advances_refl (s : RunState) : s.Advances s 0 0 0 := by
  refine ⟨by simp, rfl, rfl, rfl, rfl, [], by simp, by simp, rfl, rfl, rfl⟩

theorem Advances_trans {s s1 s2 : RunState} {a b c a1 b1 c1 : Int}
    (h1 : s.Advances s1 a b c) (h2 : s1.Advances s2 a1 b1 c1) :
    s.Advances s2 (a + a1) (b + b1) (c + c1) := by
  obtain ⟨hs, hd, hr, hrec, hres, extra, he, hk, hi, hdet, hf⟩ := h1
  obtain ⟨hs1, hd1, hr1, hrec1, hres1, extra1, he1, hk1, hi1, hdet1, hf1⟩ := h2
  refine ⟨?_, hd1.trans hd, hr1.trans hr, hrec1.trans hrec, hres1.trans hres,
    extra ++ extra1, ?_, ?_, ?_, ?_, ?_⟩
  · rw [hs1, hs]
    simp [add_assoc]
  · rw [he1, he, List.append_assoc]
  · intro e hmem
    rcases List.mem_append.mp hmem with hm | hm
    · exact hk e hm
    · exact hk1 e hm
  · rw [signalledImages_append, hi, hi1]
  · rw [signalledDetections_append, hdet, hdet1]
  · rw [signalledFolders_append, hf, hf1]

/-- Reading the cancellation flag changes no counter and emits nothing. -/
theorem Advances_polled (env : WorkerEnv) (s : RunState) : s.Advances (s.polled env) 0 0 0 := by
  refine ⟨by simp [RunState.polled], rfl, rfl, rfl, rfl, [], by simp [RunState.polled],
    by simp, rfl, rfl, rfl⟩

theorem Advances_emit_scanningStarted (s : RunState) (n : Int) :
    s.Advances (s.emit (.scanningStarted n)) 0 0 0 := by
  refine ⟨by simp [RunState.emit], rfl, rfl, rfl, rfl, [.scanningStarted n], rfl, ?_, rfl, rfl, rfl⟩
  intro e he
  rw [List.mem_singleton] at he
  subst he
  exact ⟨rfl, rfl⟩

theorem Advances_emit_folderScanned (s : RunState) (name : String) (n : Int) :
    s.Advances (s.emit (.folderScanned name n)) 0 0 0 := by
  refine ⟨by simp [RunState.emit], rfl, rfl, rfl, rfl, [.folderScanned name n], rfl, ?_,
    rfl, rfl, rfl⟩
  intro e he
  rw [List.mem_singleton] at he
  subst he
  exact ⟨rfl, rfl⟩

theorem Advances_emit_processingStarted (s : RunState) (n : Int) :
    s.Advances (s.emit (.processingStarted n)) 0 0 0 := by
  refine ⟨by simp [RunState.emit], rfl, rfl, rfl, rfl, [.processingStarted n], rfl, ?_,
    rfl, rfl, rfl⟩
  intro e he
  rw [List.mem_singleton] at he
  subst he
  exact ⟨rfl, rfl⟩

/-- One pass of the image loop body after the flag was read: the signal and the two
counter updates. -/
theorem Advances_image_step (s : RunState) (path : String) (count : Int) :
    s.Advances
      { s.emit (.imageProcessed path count) with
        worker :=
          { (s.emit (.imageProcessed path count)).worker with
            stats_ :=
              { (s.emit (.imageProcessed path count)).worker.stats_ with
                processedImages := (s.emit (.imageProcessed path count)).worker.stats_.processedImages + 1,
                totalDetections :=
                  (s.emit (.imageProcessed path count)).worker.stats_.totalDetections + count } } }
      1 count 0 := by
  refine ⟨by simp [RunState.emit], rfl, rfl, rfl, rfl, [.imageProcessed path count], rfl, ?_,
    ?_, ?_, rfl⟩
  · intro e he
    rw [List.mem_singleton] at he
    subst he
    exact ⟨rfl, rfl⟩
  · simp [signalledImages]
  · simp [signalledDetections]

/-- End of one pass of the folder loop body: the counter update and the signal. -/
theorem Advances_folder_step (s : RunState) (name : String) (count : Int) :
    s.Advances
      (RunState.emit
        { s with
          worker :=
            { s.worker with
              stats_ :=
                { s.worker.stats_ with processedFolders := s.worker.stats_.processedFolders + 1 } } }
        (.folderCompleted name count))
      0 0 1 := by
  refine ⟨by simp [RunState.emit], rfl, rfl, rfl, rfl, [.folderCompleted name count], rfl, ?_,
    rfl, rfl, ?_⟩
  · intro e he
    rw [List.mem_singleton] at he
    subst he
    exact ⟨rfl, rfl⟩
  · simp [signalledFolders]

/-- The progress callback changes no counter and emits only scan signals. -/
theorem Advances_onScanProgress (env : WorkerEnv) (s : RunState) (call : ProgressCall) :
    s.Advances (DetectionWorker.onScanProgress env s call) 0 0 0 := by
  unfold DetectionWorker.onScanProgress
  by_cases hc : s.cancellationRequested env = true
  · rw [if_pos hc]
    exact Advances_polled env s
  · rw [if_neg hc]
    simp only
    have h1 := Advances_polled env s
    have h2 : s.Advances
        (if call.current = 0 ∧ call.total > 0 then
          (s.polled env).emit (.scanningStarted call.total) else s.polled env) 0 0 0 := by
      by_cases h : call.current = 0 ∧ call.total > 0
      · rw [if_pos h]
        simpa using Advances_trans h1 (Advances_emit_scanningStarted _ _)
      · rw [if_neg h]
        exact h1
    by_cases hp : call.currentPath ≠ ""
    · rw [if_pos hp]
      simpa using Advances_trans h2 (Advances_emit_folderScanned _ _ _)
    · rw [if_neg hp]
      exact h2

theorem Advances_foldl_onScanProgress (env : WorkerEnv) (calls : List ProgressCall)
    (s : RunState) : s.Advances (calls.foldl (DetectionWorker.onScanProgress env) s) 0 0 0 := by
  induction calls generalizing s with
  | nil => exact Advances_refl s
  | cons call rest ih =>
    simpa using Advances_trans (Advances_onScanProgress env s call) (ih _)

/-! ## Facts about the result tree of a run -/

/-- Every folder the scanner returns is fresh. -/
theorem scanForImages_fresh (rootPath : String) (root : RootState) (recursive : Bool)
    (results : List FolderResult)
    (hscan : FolderScanner.scanForImages rootPath root recursive = .ok results) :
    ∀ f ∈ results, f.fresh := by
  intro f hf
  cases root with
  | unknown what => simp [FolderScanner.scanForImages] at hscan
  | missing =>
    rw [← Except.ok.inj hscan] at hf
    simp at hf
  | notDirectory =>
    rw [← Except.ok.inj hscan] at hf
    simp at hf
  | directory d =>
    rw [scanForImages_directory] at hscan
    rw [← Except.ok.inj hscan] at hf
    obtain ⟨pd, hpd, rfl⟩ := List.mem_map.mp hf
    obtain ⟨_, hc⟩ := mem_foldersToScan hpd
    obtain ⟨hr, _⟩ := (folderContainsImages_iff pd.1 pd.2).mp hc
    obtain ⟨_, himages, hcount⟩ := scanSingleFolder_new pd.1 pd.2 hr
    refine ⟨?_, ?_, ?_⟩
    · simp [FolderScanner.scanSingleFolder, FolderResult.updateCounts, FolderResult.new]
    · rw [hcount, himages, List.length_map]
    · intro img himg
      rw [himages] at himg
      obtain ⟨p, _, rfl⟩ := List.mem_map.mp himg
      exact ⟨ImageResult.new p, rfl, rfl⟩

/-- Entries that are not processed yet contribute nothing to the processed counts. -/
theorem processed_of_unprocessed (images : List (Option ImageResult))
    (h : ∀ img ∈ images, ∃ r : ImageResult, img = some r ∧ r.processed = false) :
    processedCount images = 0 ∧ processedDetections images = 0 := by
  have hfilter : images.filter entryProcessed = [] := by
    rw [List.filter_eq_nil_iff]
    intro img himg
    obtain ⟨r, rfl, hr⟩ := h img himg
    simp [entryProcessed, hr]
  simp [processedCount, processedDetections, hfilter]

theorem processedCount_cons_processed (r : ImageResult) (rest : List (Option ImageResult))
    (h : r.processed = true) :
    processedCount (some r :: rest) = 1 + processedCount rest ∧
    processedDetections (some r :: rest) = r.getDetectionCount + processedDetections rest := by
  simp [processedCount, processedDetections, entryProcessed, h,
    DetectionWorker.entryDetectionCount, add_comm]

/-- No more entries are marked processed than there are entries. -/
theorem processedCount_le (images : List (Option ImageResult)) :
    processedCount images ≤ (images.length : Int) := by
  unfold processedCount
  exact_mod_cast List.length_filter_le _ _

/-- When every entry is marked processed, the processed counts are the full counts. -/
theorem processedCount_of_all (images : List (Option ImageResult))
    (h : ∀ img ∈ images, entryProcessed img = true) :
    processedCount images = (images.length : Int) ∧
    processedDetections images = (images.map DetectionWorker.entryDetectionCount).sum := by
  have hfilter : images.filter entryProcessed = images := by
    rw [List.filter_eq_self]
    exact h
  simp [processedCount, processedDetections, hfilter]

/-- One pass of the image loop body on a record that is not processed yet. -/
theorem processImageStep_spec (env : WorkerEnv)
    (detector : Image → Except String (List Detection)) (r : ImageResult) (s : RunState)
    (h : r.processed = false) :
    ∃ r1 : ImageResult,
      (DetectionWorker.processImageStep env detector (some r) s).1 = some r1 ∧
      r1.processed = true ∧
      s.Advances (DetectionWorker.processImageStep env detector (some r) s).2
        1 r1.getDetectionCount 0 := by
  obtain ⟨r1, hr1, hp1, _⟩ := processImageResult_marks env.images detector r h
  refine ⟨r1, ?_, hp1, ?_⟩
  · simp [DetectionWorker.processImageStep, ImageProcessor.processImageResultCall, hr1]
  · simp only [DetectionWorker.processImageStep, ImageProcessor.processImageResultCall, hr1,
      DetectionWorker.entryPath, DetectionWorker.entryDetectionCount]
    exact Advances_image_step s r1.imagePath r1.getDetectionCount

/-- The image loop of `performProcessing` on entries that are not processed yet. -/
theorem processImages_spec (env : WorkerEnv)
    (detector : Image → Except String (List Detection)) (images : List (Option ImageResult))
    (s : RunState)
    (h : ∀ img ∈ images, ∃ r : ImageResult, img = some r ∧ r.processed = false) :
    s.Advances (DetectionWorker.processImages env detector images s).2
      (processedCount (DetectionWorker.processImages env detector images s).1)
      (processedDetections (DetectionWorker.processImages env detector images s).1) 0 ∧
    (DetectionWorker.processImages env detector images s).1.length = images.length ∧
    ((∀ n, env.cancelled n = false) →
      ∀ img ∈ (DetectionWorker.processImages env detector images s).1,
        entryProcessed img = true) := by
  induction images generalizing s with
  | nil =>
    refine ⟨?_, rfl, ?_⟩
    · simpa [DetectionWorker.processImages, processedCount, processedDetections]
        using Advances_refl s
    · intro _ img himg
      simp [DetectionWorker.processImages] at himg
  | cons img rest ih =>
    obtain ⟨r, rfl, hr⟩ := h (img) (List.mem_cons_self _ _)
    have hrest : ∀ x ∈ rest, ∃ r : ImageResult, x = some r ∧ r.processed = false :=
      fun x hx => h x (List.mem_cons_of_mem _ hx)
    rw [DetectionWorker.processImages]
    by_cases hc : s.cancellationRequested env = true
    · rw [if_pos hc]
      obtain ⟨h0, h1⟩ := processed_of_unprocessed (some r :: rest) h
      refine ⟨?_, rfl, ?_⟩
      · simp only [h0, h1]
        exact Advances_polled env s
      · intro hnever
        rw [RunState.cancellationRequested, hnever] at hc
        exact absurd hc (by simp)
    · rw [if_neg hc]
      simp only
      obtain ⟨r1, hstep1, hp1, hadv⟩ := processImageStep_spec env detector r (s.polled env) hr
      generalize DetectionWorker.processImageStep env detector (some r) (s.polled env) = step
        at hstep1 hadv ⊢
      obtain ⟨ih1, ih2, ih3⟩ := ih step.2 hrest
      generalize DetectionWorker.processImages env detector rest step.2 = next
        at ih1 ih2 ih3 ⊢
      rw [hstep1]
      obtain ⟨hcnt, hdet⟩ := processedCount_cons_processed r1 next.1 hp1
      refine ⟨?_, ?_, ?_⟩
      · rw [hcnt, hdet]
        have := Advances_trans (Advances_trans (Advances_polled env s) hadv) ih1
        simpa using this
      · simp only [List.length_cons, ih2]
      · intro hnever img himg
        rcases List.mem_cons.mp himg with rfl | hmem
        · simpa [entryProcessed] using hp1
        · exact ih3 hnever img hmem

/-- Fresh folders contribute nothing to the processed counts. -/
theorem processed_of_fresh (folders : List FolderResult) (h : ∀ f ∈ folders, f.fresh) :
    processedImagesIn folders = 0 ∧ processedDetectionsIn folders = 0 ∧
      processedFoldersIn folders = 0 := by
  induction folders with
  | nil => simp [processedImagesIn, processedDetectionsIn, processedFoldersIn]
  | cons f rest ih =>
    obtain ⟨h1, h2, h3⟩ := ih (fun x hx => h x (List.mem_cons_of_mem _ hx))
    obtain ⟨hp, _, himg⟩ := h f (List.mem_cons_self _ _)
    obtain ⟨hc, hd⟩ := processed_of_unprocessed f.images himg
    refine ⟨?_, ?_, ?_⟩
    · simp only [processedImagesIn, List.map_cons, List.sum_cons] at h1 ⊢
      rw [hc, h1]
      rfl
    · simp only [processedDetectionsIn, List.map_cons, List.sum_cons] at h2 ⊢
      rw [hd, h2]
      rfl
    · unfold processedFoldersIn at h3 ⊢
      rw [List.filter_cons_of_neg (by simp [hp])]
      exact h3

/-- Counter `totalDetections` after `updateCounts` is the sum over the entries. -/
theorem updateCounts_totalDetections (f : FolderResult) :
    f.updateCounts.totalDetections = (f.images.map DetectionWorker.entryDetectionCount).sum := by
  unfold FolderResult.updateCounts
  simp only
  refine (foldl_count_detections f.images 0).trans ?_
  rw [zero_add]
  rfl

/-- One pass of the folder loop body on a folder whose entries are not processed yet. -/
theorem processFolderStep_spec (env : WorkerEnv)
    (detector : Image → Except String (List Detection)) (f : FolderResult) (s : RunState)
    (h : ∀ img ∈ f.images, ∃ r : ImageResult, img = some r ∧ r.processed = false) :
    s.Advances (DetectionWorker.processFolderStep env detector f s).2
      (processedCount (DetectionWorker.processFolderStep env detector f s).1.images)
      (processedDetections (DetectionWorker.processFolderStep env detector f s).1.images) 1 ∧
    (DetectionWorker.processFolderStep env detector f s).1.processed = true ∧
    (DetectionWorker.processFolderStep env detector f s).1.images.length = f.images.length ∧
    ((∀ n, env.cancelled n = false) →
      (∀ img ∈ (DetectionWorker.processFolderStep env detector f s).1.images,
        entryProcessed img = true) ∧
      (DetectionWorker.processFolderStep env detector f s).1.totalDetections =
        processedDetections (DetectionWorker.processFolderStep env detector f s).1.images) := by
  obtain ⟨in1, in2, in3⟩ := processImages_spec env detector f.images s h
  unfold DetectionWorker.processFolderStep
  simp only
  generalize DetectionWorker.processImages env detector f.images s = inner at in1 in2 in3 ⊢
  refine ⟨?_, trivial, in2, ?_⟩
  · have hstep := Advances_folder_step inner.2 f.folderName
      ({ f with images := inner.1 } : FolderResult).updateCounts.totalDetections
    have := Advances_trans in1 hstep
    simp only [add_zero, zero_add] at this
    exact this
  · intro hnever
    refine ⟨in3 hnever, ?_⟩
    show ({ f with images := inner.1 } : FolderResult).updateCounts.totalDetections =
      processedDetections inner.1
    rw [(processedCount_of_all inner.1 (in3 hnever)).2]
    exact updateCounts_totalDetections _

theorem processedIn_cons (f : FolderResult) (rest : List FolderResult)
    (h : f.processed = true) :
    processedImagesIn (f :: rest) = processedCount f.images + processedImagesIn rest ∧
    processedDetectionsIn (f :: rest) =
      processedDetections f.images + processedDetectionsIn rest ∧
    processedFoldersIn (f :: rest) = 1 + processedFoldersIn rest := by
  simp [processedImagesIn, processedDetectionsIn, processedFoldersIn, h, add_comm]

/-- The folder loop of `performProcessing` on fresh folders. -/
theorem processFolders_spec (env : WorkerEnv)
    (detector : Image → Except String (List Detection)) (folders : List FolderResult)
    (s : RunState) (h : ∀ f ∈ folders, f.fresh) :
    s.Advances (DetectionWorker.processFolders env detector folders s).2
      (processedImagesIn (DetectionWorker.processFolders env detector folders s).1)
      (processedDetectionsIn (DetectionWorker.processFolders env detector folders s).1)
      (processedFoldersIn (DetectionWorker.processFolders env detector folders s).1) ∧
    (DetectionWorker.processFolders env detector folders s).1.length = folders.length ∧
    imagesIn (DetectionWorker.processFolders env detector folders s).1 = imagesIn folders ∧
    ((∀ n, env.cancelled n = false) →
      ∀ f ∈ (DetectionWorker.processFolders env detector folders s).1,
        f.processed = true ∧ (∀ img ∈ f.images, entryProcessed img = true) ∧
        f.totalDetections = processedDetections f.images) := by
  induction folders generalizing s with
  | nil =>
    refine ⟨?_, rfl, rfl, ?_⟩
    · simpa [DetectionWorker.processFolders, processedImagesIn, processedDetectionsIn,
        processedFoldersIn] using Advances_refl s
    · intro _ f hf
      simp [DetectionWorker.processFolders] at hf
  | cons f rest ih =>
    have hrest : ∀ x ∈ rest, x.fresh := fun x hx => h x (List.mem_cons_of_mem _ hx)
    obtain ⟨_, _, himg⟩ := h f (List.mem_cons_self _ _)
    rw [DetectionWorker.processFolders]
    by_cases hc : s.cancellationRequested env = true
    · rw [if_pos hc]
      obtain ⟨h0, h1, h2⟩ := processed_of_fresh (f :: rest) h
      refine ⟨?_, rfl, rfl, ?_⟩
      · simp only [h0, h1, h2]
        exact Advances_polled env s
      · intro hnever
        rw [RunState.cancellationRequested, hnever] at hc
        exact absurd hc (by simp)
    · rw [if_neg hc]
      simp only
      obtain ⟨st1, st2, st3, st4⟩ := processFolderStep_spec env detector f (s.polled env) himg
      generalize DetectionWorker.processFolderStep env detector f (s.polled env) = step
        at st1 st2 st3 st4 ⊢
      obtain ⟨ih1, ih2, ih3, ih4⟩ := ih step.2 hrest
      generalize DetectionWorker.processFolders env detector rest step.2 = next
        at ih1 ih2 ih3 ih4 ⊢
      obtain ⟨e1, e2, e3⟩ := processedIn_cons step.1 next.1 st2
      refine ⟨?_, ?_, ?_, ?_⟩
      · rw [e1, e2, e3]
        have := Advances_trans (Advances_trans (Advances_polled env s) st1) ih1
        simpa using this
      · simp only [List.length_cons, ih2]
      · simp only [imagesIn, List.map_cons, List.sum_cons] at ih3 ⊢
        rw [ih3, st3]
      · intro hnever x hx
        rcases List.mem_cons.mp hx with rfl | hmem
        · exact ⟨st2, (st4 hnever).1, (st4 hnever).2⟩
        · exact ih4 hnever x hmem

/-- The statistics loop of `performScanning` adds up the image counts. -/
theorem foldl_totalImages (folders : List FolderResult) (stats : ProcessingStats) :
    folders.foldl
        (fun st folder => { st with totalImages := st.totalImages + folder.imageCount }) stats
      = { stats with
          totalImages := stats.totalImages + (folders.map (fun f => f.imageCount)).sum } := by
  induction folders generalizing stats with
  | nil => simp
  | cons f rest ih =>
    rw [List.foldl_cons, ih]
    simp [add_assoc]

/-- The image counts of fresh folders add up to the number of entries. -/
theorem imageCount_sum_of_fresh (folders : List FolderResult) (h : ∀ f ∈ folders, f.fresh) :
    (folders.map (fun f => f.imageCount)).sum = imagesIn folders := by
  unfold imagesIn
  congr 1
  apply List.map_congr_left
  intro f hf
  exact (h f hf).2.1

/-- Method `performScanning` with a loaded detector, when the scan throws: the state is
left as it was, by the exception of the scan. -/
theorem performScanning_scanError (env : WorkerEnv) (s : RunState) (d : YoloDetector)
    (hd : s.worker.detector_ = some d) (hl : d.isLoaded = true) (what : String)
    (hscan : FolderScanner.scanForImages s.worker.rootPath_
      (env.fileSystem s.worker.rootPath_) s.worker.recursive_ = .error what) :
    DetectionWorker.performScanning env s = (s, some what) := by
  have hnot : DetectionWorker.detectorNotLoaded s.worker.detector_ = false := by
    rw [hd]
    simp [DetectionWorker.detectorNotLoaded, hl]
  unfold DetectionWorker.performScanning
  rw [hnot]
  simp only [Bool.false_eq_true, if_false]
  rw [hscan]

/-- Method `performScanning` with a loaded detector, started with an empty result tree and
zero totals, when the scan returns: it returns normally, the result tree afterwards
consists of fresh folders, the two totals describe it, and no processing signal other
than `processingStarted` is emitted. -/
theorem performScanning_spec (env : WorkerEnv) (s : RunState) (d : YoloDetector)
    (hd : s.worker.detector_ = some d) (hl : d.isLoaded = true)
    (hres : s.worker.results_ = []) (hf : s.worker.stats_.totalFolders = 0)
    (hi : s.worker.stats_.totalImages = 0) (scanned : List FolderResult)
    (hscan : FolderScanner.scanForImages s.worker.rootPath_
      (env.fileSystem s.worker.rootPath_) s.worker.recursive_ = .ok scanned) :
    (DetectionWorker.performScanning env s).2 = none ∧
    (DetectionWorker.performScanning env s).1.worker.detector_ = some d ∧
    (∀ f ∈ (DetectionWorker.performScanning env s).1.worker.results_, f.fresh) ∧
    (DetectionWorker.performScanning env s).1.worker.stats_ =
      { s.worker.stats_ with
        totalFolders := ((DetectionWorker.performScanning env s).1.worker.results_.length : Int),
        totalImages := imagesIn (DetectionWorker.performScanning env s).1.worker.results_ } ∧
    ∃ extra, (DetectionWorker.performScanning env s).1.events = s.events ++ extra ∧
      (∀ e ∈ extra, e.isProcessingCompleted = false ∧ e.isErrorOccurred = false) ∧
      signalledImages extra = 0 ∧ signalledDetections extra = 0 ∧
      signalledFolders extra = 0 := by
  have hnot : DetectionWorker.detectorNotLoaded s.worker.detector_ = false := by
    rw [hd]
    simp [DetectionWorker.detectorNotLoaded, hl]
  have hfresh := scanForImages_fresh s.worker.rootPath_ (env.fileSystem s.worker.rootPath_)
    s.worker.recursive_ scanned hscan
  have hadv := Advances_foldl_onScanProgress env
    (FolderScanner.progressCalls s.worker.rootPath_ (env.fileSystem s.worker.rootPath_)
      s.worker.recursive_) s
  unfold DetectionWorker.performScanning
  rw [hnot]
  simp only [Bool.false_eq_true, if_false]
  rw [hscan]
  simp only
  generalize (FolderScanner.progressCalls s.worker.rootPath_ (env.fileSystem s.worker.rootPath_)
      s.worker.recursive_).foldl (DetectionWorker.onScanProgress env) s = s1 at hadv ⊢
  obtain ⟨hstats, hdet, _, _, hresults, extra, hev, hkind, hsi, hsd, hsf⟩ := hadv
  simp only [add_zero] at hstats
  by_cases hc : s1.cancellationRequested env = true
  · rw [if_pos hc]
    refine ⟨rfl, ?_, ?_, ?_, extra, ?_, hkind, hsi, hsd, hsf⟩
    · exact hdet.trans hd
    · intro f hmem
      have : (s1.polled env).worker.results_ = [] := hresults.trans hres
      rw [this] at hmem
      simp at hmem
    · have h1 : (s1.polled env).worker.results_ = [] := hresults.trans hres
      have h2 : (s1.polled env).worker.stats_ = s1.worker.stats_ := rfl
      rw [h1, h2, hstats]
      simp [imagesIn, hf, hi]
    · exact hev
  · rw [if_neg hc]
    refine ⟨rfl, hdet.trans hd, hfresh, ?_, ?_⟩
    · simp only [RunState.emit, RunState.polled]
      rw [foldl_totalImages, imageCount_sum_of_fresh scanned hfresh, hstats]
      simp [hi]
    · apply Exists.intro
      refine ⟨?_, ?_, ?_, ?_, ?_⟩
      · simp only [RunState.emit, RunState.polled]
        rw [hev, List.append_assoc]
      · intro e hmem
        rcases List.mem_append.mp hmem with hm | hm
        · exact hkind e hm
        · rw [List.mem_singleton] at hm
          subst hm
          exact ⟨rfl, rfl⟩
      · rw [signalledImages_append, hsi]
        rfl
      · rw [signalledDetections_append, hsd]
        rfl
      · rw [signalledFolders_append, hsf]
        rfl

/-- No more entries of a result tree are marked processed than it has entries. -/
theorem processedImagesIn_le (folders : List FolderResult) :
    processedImagesIn folders ≤ imagesIn folders := by
  induction folders with
  | nil => simp [processedImagesIn, imagesIn]
  | cons f rest ih =>
    simp only [processedImagesIn, imagesIn, List.map_cons, List.sum_cons] at ih ⊢
    have := processedCount_le f.images
    omega

/-- When every folder and every entry is marked processed, the processed counts of the
result tree are its full counts. -/
theorem processedIn_of_all (folders : List FolderResult)
    (h : ∀ f ∈ folders, f.processed = true ∧ (∀ img ∈ f.images, entryProcessed img = true) ∧
      f.totalDetections = processedDetections f.images) :
    processedImagesIn folders = imagesIn folders ∧
    processedDetectionsIn folders = (folders.map (fun f => f.totalDetections)).sum ∧
    processedFoldersIn folders = (folders.length : Int) := by
  induction folders with
  | nil => simp [processedImagesIn, imagesIn, processedDetectionsIn, processedFoldersIn]
  | cons f rest ih =>
    obtain ⟨h1, h2, h3⟩ := ih (fun x hx => h x (List.mem_cons_of_mem _ hx))
    obtain ⟨hp, hall, htot⟩ := h f (List.mem_cons_self _ _)
    obtain ⟨e1, e2, e3⟩ := processedIn_cons f rest hp
    refine ⟨?_, ?_, ?_⟩
    · rw [e1, h1, (processedCount_of_all f.images hall).1]
      simp [imagesIn]
    · rw [e2, h2, ← htot]
      simp
    · rw [e3, h3]
      simp [add_comm]

/-- Body of the `try` block of `run` with a loaded detector, started with an empty result
tree and zero counters: it completes, its last signal is `processingCompleted` with the
final statistics, no earlier signal is `processingCompleted` or `errorOccurred`, and the
counters agree with the result tree and with the signals. -/
theorem runTry_spec (env : WorkerEnv) (s : RunState) (d : YoloDetector)
    (hd : s.worker.detector_ = some d) (hl : d.isLoaded = true)
    (hres : s.worker.results_ = [])
    (hz : s.worker.stats_.totalFolders = 0 ∧ s.worker.stats_.processedFolders = 0 ∧
      s.worker.stats_.totalImages = 0 ∧ s.worker.stats_.processedImages = 0 ∧
      s.worker.stats_.totalDetections = 0) (scanned : List FolderResult)
    (hscan : FolderScanner.scanForImages s.worker.rootPath_
      (env.fileSystem s.worker.rootPath_) s.worker.recursive_ = .ok scanned) :
    (DetectionWorker.runTry env s).2 = none ∧
    (DetectionWorker.runTry env s).1.worker.stats_.totalFolders =
      ((DetectionWorker.runTry env s).1.worker.results_.length : Int) ∧
    (DetectionWorker.runTry env s).1.worker.stats_.totalImages =
      imagesIn (DetectionWorker.runTry env s).1.worker.results_ ∧
    (DetectionWorker.runTry env s).1.worker.stats_.processedImages =
      processedImagesIn (DetectionWorker.runTry env s).1.worker.results_ ∧
    (DetectionWorker.runTry env s).1.worker.stats_.totalDetections =
      processedDetectionsIn (DetectionWorker.runTry env s).1.worker.results_ ∧
    (DetectionWorker.runTry env s).1.worker.stats_.processedFolders =
      processedFoldersIn (DetectionWorker.runTry env s).1.worker.results_ ∧
    ((∀ n, env.cancelled n = false) →
      ∀ f ∈ (DetectionWorker.runTry env s).1.worker.results_,
        f.processed = true ∧ (∀ img ∈ f.images, entryProcessed img = true) ∧
        f.totalDetections = processedDetections f.images) ∧
    ∃ extra, (DetectionWorker.runTry env s).1.events =
        s.events ++ extra ++
          [.processingCompleted (DetectionWorker.runTry env s).1.worker.stats_] ∧
      (∀ e ∈ extra, e.isProcessingCompleted = false ∧ e.isErrorOccurred = false) ∧
      signalledImages extra = (DetectionWorker.runTry env s).1.worker.stats_.processedImages ∧
      signalledDetections extra =
        (DetectionWorker.runTry env s).1.worker.stats_.totalDetections ∧
      signalledFolders extra =
        (DetectionWorker.runTry env s).1.worker.stats_.processedFolders := by
  obtain ⟨hz1, hz2, hz3, hz4, hz5⟩ := hz
  obtain ⟨sc1, sc2, sc3, sc4, extra, sc5, sc6, sc7, sc8, sc9⟩ :=
    performScanning_spec env s d hd hl hres hz1 hz3 scanned hscan
  unfold DetectionWorker.runTry
  rcases hscan : DetectionWorker.performScanning env s with ⟨s1, exc⟩
  rw [hscan] at sc1 sc2 sc3 sc4 sc5
  simp only at sc1 sc2 sc3 sc4 sc5
  subst sc1
  simp only
  by_cases hc : s1.cancellationRequested env = true
  · rw [if_pos hc]
    obtain ⟨p1, p2, p3⟩ := processed_of_fresh s1.worker.results_ sc3
    have hst : (s1.polled env).worker.stats_ = s1.worker.stats_ := rfl
    have hrs : (s1.polled env).worker.results_ = s1.worker.results_ := rfl
    have hev : (s1.polled env).events = s1.events := rfl
    simp only [RunState.emit, hst, hrs, hev]
    refine ⟨trivial, ?_, ?_, ?_, ?_, ?_, ?_, extra, ?_, sc6, ?_, ?_, ?_⟩
    · rw [sc4]
    · rw [sc4]
    · rw [sc4, p1]; exact hz4
    · rw [sc4, p2]; exact hz5
    · rw [sc4, p3]; exact hz2
    · intro hnever
      rw [RunState.cancellationRequested, hnever] at hc
      exact absurd hc (by simp)
    · rw [sc5]
    · rw [sc7, sc4]; exact hz4.symm
    · rw [sc8, sc4]; exact hz5.symm
    · rw [sc9, sc4]; exact hz2.symm
  · rw [if_neg hc]
    unfold DetectionWorker.performProcessing
    have hrs : (s1.polled env).worker.results_ = s1.worker.results_ := rfl
    have hdt : (s1.polled env).worker.detector_ = s1.worker.detector_ := rfl
    rw [hrs, hdt]
    obtain ⟨q1, q2, q3, q4⟩ := processFolders_spec env
      (DetectionWorker.detectorOf env s1.worker.detector_) s1.worker.results_ (s1.polled env) sc3
    generalize DetectionWorker.processFolders env
      (DetectionWorker.detectorOf env s1.worker.detector_) s1.worker.results_ (s1.polled env)
      = out at q1 q2 q3 q4 ⊢
    obtain ⟨a1, _, _, _, _, extra2, a6, a7, a8, a9, a10⟩ := q1
    have hst : (s1.polled env).worker.stats_ = s1.worker.stats_ := rfl
    have hev : (s1.polled env).events = s1.events := rfl
    rw [hst, sc4] at a1
    rw [hev, sc5] at a6
    simp only [RunState.emit, a1, a6]
    refine ⟨trivial, ?_, ?_, ?_, ?_, ?_, q4, extra ++ extra2, ?_, ?_, ?_, ?_, ?_⟩
    · simp [q2]
    · simp [q3]
    · simp [hz4]
    · simp [hz5]
    · simp [hz2]
    · simp
    · intro e hmem
      rcases List.mem_append.mp hmem with hm | hm
      · exact sc6 e hm
      · exact a7 e hm
    · rw [signalledImages_append, sc7, a8]; simp [hz4]
    · rw [signalledDetections_append, sc8, a9]; simp [hz5]
    · rw [signalledFolders_append, sc9, a10]; simp [hz2]

/-- State in which `startProcessing` leaves an idle worker. -/
theorem startProcessing_idle (w : DetectionWorker) (rootPath : String)
    (detector : Option YoloDetector) (recursive : Bool) (hidle : w.isRunning = false) :
    w.startProcessing rootPath detector recursive =
      { w with
        rootPath_ := rootPath, detector_ := detector, recursive_ := recursive,
        cancellationRequested_ := false, processing_ := true, results_ := [], stats_ := {},
        running_ := true, runsStarted_ := w.runsStarted_ + 1 } := by
  unfold DetectionWorker.startProcessing
  rw [hidle]
  rfl

/-- A run with a loaded detector whose scan throws: the only signal is `errorOccurred`
with the text of the exception, the cancellation flag is never read, and the result tree
stays empty. -/
theorem run_scanError (env : WorkerEnv) (w : DetectionWorker) (rootPath : String)
    (d : YoloDetector) (recursive : Bool) (hidle : w.isRunning = false)
    (hl : d.isLoaded = true) (what : String)
    (hscan : FolderScanner.scanForImages rootPath (env.fileSystem rootPath) recursive
      = .error what) :
    (DetectionWorker.run env (w.startProcessing rootPath (some d) recursive)).2
      = [.errorOccurred what] ∧
    DetectionWorker.runPolls env (w.startProcessing rootPath (some d) recursive) = 0 ∧
    (DetectionWorker.run env (w.startProcessing rootPath (some d) recursive)).1.results_ = [] ∧
    (DetectionWorker.run env (w.startProcessing rootPath (some d) recursive)).1.processing_
      = false := by
  have hps := performScanning_scanError env
    { worker :=
        { w with
          rootPath_ := rootPath, detector_ := some d, recursive_ := recursive,
          cancellationRequested_ := false, processing_ := true, results_ := [],
          stats_ := { startTime := env.startClock },
          running_ := true, runsStarted_ := w.runsStarted_ + 1 },
      events := [], polls := 0 } d rfl hl what hscan
  have hfinal : DetectionWorker.runFinal env (w.startProcessing rootPath (some d) recursive)
      = RunState.emit
          { worker :=
              { w with
                rootPath_ := rootPath, detector_ := some d, recursive_ := recursive,
                cancellationRequested_ := false, processing_ := true, results_ := [],
                stats_ := { startTime := env.startClock },
                running_ := true, runsStarted_ := w.runsStarted_ + 1 },
            events := [], polls := 0 } (.errorOccurred what) := by
    rw [startProcessing_idle w rootPath (some d) recursive hidle]
    unfold DetectionWorker.runFinal DetectionWorker.runTry
    simp only
    have hinit : ({ ({} : ProcessingStats) with startTime := env.startClock } : ProcessingStats)
        = { startTime := env.startClock } := rfl
    rw [hinit, hps]
  refine ⟨?_, ?_, ?_, ?_⟩
  · unfold DetectionWorker.run
    rw [hfinal]
    rfl
  · unfold DetectionWorker.runPolls
    rw [hfinal]
    rfl
  · unfold DetectionWorker.run
    rw [hfinal]
    rfl
  · unfold DetectionWorker.run
    rw [hfinal]

/-- A run with a loaded detector, started by `startProcessing` on an idle worker, whose
scan returns: the trace is a sequence of signals none of which is `processingCompleted` or
`errorOccurred`, followed by `processingCompleted` with the final statistics, and the
counters agree with the result tree and with the signals. -/
theorem run_spec (env : WorkerEnv) (w : DetectionWorker) (rootPath : String)
    (d : YoloDetector) (recursive : Bool) (hidle : w.isRunning = false)
    (hl : d.isLoaded = true) (scanned : List FolderResult)
    (hscan : FolderScanner.scanForImages rootPath (env.fileSystem rootPath) recursive
      = .ok scanned)
    (r : DetectionWorker × List Event)
    (hr : DetectionWorker.run env (w.startProcessing rootPath (some d) recursive) = r) :
    r.1.isProcessing = false ∧
    r.1.stats_.totalFolders = (r.1.results_.length : Int) ∧
    r.1.stats_.totalImages = imagesIn r.1.results_ ∧
    r.1.stats_.processedImages = processedImagesIn r.1.results_ ∧
    r.1.stats_.totalDetections = processedDetectionsIn r.1.results_ ∧
    r.1.stats_.processedFolders = processedFoldersIn r.1.results_ ∧
    ((∀ n, env.cancelled n = false) →
      ∀ f ∈ r.1.results_,
        f.processed = true ∧ (∀ img ∈ f.images, entryProcessed img = true) ∧
        f.totalDetections = processedDetections f.images) ∧
    ∃ extra, r.2 = extra ++ [.processingCompleted r.1.stats_] ∧
      (∀ e ∈ extra, e.isProcessingCompleted = false ∧ e.isErrorOccurred = false) ∧
      signalledImages extra = r.1.stats_.processedImages ∧
      signalledDetections extra = r.1.stats_.totalDetections ∧
      signalledFolders extra = r.1.stats_.processedFolders := by
  obtain ⟨t1, t2, t3, t4, t5, t6, t7, extra, t8, t9, t10, t11, t12⟩ := runTry_spec env
    { worker :=
        { w with
          rootPath_ := rootPath, detector_ := some d, recursive_ := recursive,
          cancellationRequested_ := false, processing_ := true, results_ := [],
          stats_ := { startTime := env.startClock },
          running_ := true, runsStarted_ := w.runsStarted_ + 1 },
      events := [], polls := 0 } d rfl hl rfl ⟨rfl, rfl, rfl, rfl, rfl⟩ scanned hscan
  rcases htry : DetectionWorker.runTry env
    { worker :=
        { w with
          rootPath_ := rootPath, detector_ := some d, recursive_ := recursive,
          cancellationRequested_ := false, processing_ := true, results_ := [],
          stats_ := { startTime := env.startClock },
          running_ := true, runsStarted_ := w.runsStarted_ + 1 },
      events := [], polls := 0 } with ⟨s, exc⟩
  rw [htry] at t1 t2 t3 t4 t5 t6 t7 t8 t10 t11 t12
  simp only at t1 t2 t3 t4 t5 t6 t7 t8 t10 t11 t12
  subst t1
  have hr2 : DetectionWorker.run env (w.startProcessing rootPath (some d) recursive)
      = ({ s.worker with processing_ := false, running_ := false }, s.events) := by
    rw [startProcessing_idle w rootPath (some d) recursive hidle]
    unfold DetectionWorker.run DetectionWorker.runFinal
    simp only
    have hinit : ({ ({} : ProcessingStats) with startTime := env.startClock } : ProcessingStats)
        = { startTime := env.startClock } := rfl
    rw [hinit, htry]
  rw [hr2] at hr
  subst hr
  refine ⟨rfl, t2, t3, t4, t5, t6, t7, extra, ?_, t9, t10, t11, t12⟩
  simpa using t8

/-! ## Claim about runs without a loaded detector -/

/-- Claim C21: a run started on an idle worker with a null detector, or with a detector
whose `isLoaded()` is false, emits `errorOccurred` and nothing else (no
`processingStarted`, `imageProcessed`, `folderCompleted` or `processingCompleted`), leaves
the result tree empty, and ends with `isProcessing()` false. -/
theorem C21_run_without_loaded_detector_aborts (env : WorkerEnv) (w : DetectionWorker)
    (rootPath : String) (detector : Option YoloDetector) (recursive : Bool)
    (hidle : w.isRunning = false)
    (h : detector = none ∨ ∃ d, detector = some d ∧ d.isLoaded = false) :
    (DetectionWorker.run env (w.startProcessing rootPath detector recursive)).2
      = [.errorOccurred "Detector not loaded"] ∧
    (∃ e ∈ (DetectionWorker.run env (w.startProcessing rootPath detector recursive)).2,
      e.isErrorOccurred = true) ∧
    (∀ e ∈ (DetectionWorker.run env (w.startProcessing rootPath detector recursive)).2,
      e.isProcessingSignal = false) ∧
    (DetectionWorker.run env (w.startProcessing rootPath detector recursive)).1.getResults = [] ∧
    (DetectionWorker.run env (w.startProcessing rootPath detector recursive)).1.isProcessing
      = false := by
  have hnot : DetectionWorker.detectorNotLoaded detector = true := by
    rcases h with rfl | ⟨d, rfl, hd⟩
    · rfl
    · simp [DetectionWorker.detectorNotLoaded, hd]
  have hrun : DetectionWorker.run env (w.startProcessing rootPath detector recursive)
      = ({ w with
            rootPath_ := rootPath, detector_ := detector, recursive_ := recursive,
            cancellationRequested_ := false, processing_ := false, results_ := [],
            stats_ := { startTime := env.startClock },
            running_ := false, runsStarted_ := w.runsStarted_ + 1 },
          [.errorOccurred "Detector not loaded"]) := by
    unfold DetectionWorker.startProcessing
    rw [hidle]
    simp [DetectionWorker.run, DetectionWorker.runFinal, DetectionWorker.runTry,
      DetectionWorker.performScanning, hnot, RunState.emit]
  rw [hrun]
  refine ⟨rfl, ⟨_, List.mem_singleton.mpr rfl, rfl⟩, ?_, rfl, rfl⟩
  intro e he
  rw [List.mem_singleton] at he
  subst he
  rfl

/-- Witness of C21: a new worker started on "root" with the detector that was never
loaded. -/
theorem C21_witness :
    ({} : DetectionWorker).isRunning = false ∧
    (DetectionWorker.run runEnv
        (({} : DetectionWorker).startProcessing "root" (some YoloDetector.new) true)).2
      = [.errorOccurred "Detector not loaded"] ∧
    (DetectionWorker.run runEnv
        (({} : DetectionWorker).startProcessing "root" (some YoloDetector.new) true)).1.getResults
      = [] ∧
    (DetectionWorker.run runEnv
        (({} : DetectionWorker).startProcessing "root" (some YoloDetector.new) true)).1.isProcessing
      = false :=
  ⟨rfl,
    (C21_run_without_loaded_detector_aborts runEnv {} "root" (some YoloDetector.new) true rfl
      (Or.inr ⟨YoloDetector.new, rfl, rfl⟩)).1,
    (C21_run_without_loaded_detector_aborts runEnv {} "root" (some YoloDetector.new) true rfl
      (Or.inr ⟨YoloDetector.new, rfl, rfl⟩)).2.2.2.1,
    (C21_run_without_loaded_detector_aborts runEnv {} "root" (some YoloDetector.new) true rfl
      (Or.inr ⟨YoloDetector.new, rfl, rfl⟩)).2.2.2.2⟩

/-! ## Claim about cancelled runs -/

/-- Claim C22: for every run with a loaded detector and every poll point `n` of the run
(a read of the cancellation flag: during scanning, before a folder, before an image),
whatever the flag reads there and at the other poll points, in particular when
cancellation becomes visible at `n`: the run ends with `processedImages ≤ totalImages`,
emits `processingCompleted` exactly once, as its last signal and with the final
statistics, and the final `totalDetections` is the sum of the detection counts of the
records marked processed, which is also the sum carried by the `imageProcessed` signals;
`processedImages` counts those records and those signals. A run whose scan throws has no
poll point. -/
theorem C22_cancelled_run_is_consistent (env : WorkerEnv) (w : DetectionWorker)
    (rootPath : String) (d : YoloDetector) (recursive : Bool)
    (hidle : w.isRunning = false) (hl : d.isLoaded = true) (n : Nat)
    (hpoll : n < DetectionWorker.runPolls env (w.startProcessing rootPath (some d) recursive)) :
    (DetectionWorker.run env (w.startProcessing rootPath (some d) recursive)).1.getStats.processedImages
      ≤ (DetectionWorker.run env
          (w.startProcessing rootPath (some d) recursive)).1.getStats.totalImages ∧
    ((DetectionWorker.run env (w.startProcessing rootPath (some d) recursive)).2.filter
      Event.isProcessingCompleted).length = 1 ∧
    (DetectionWorker.run env (w.startProcessing rootPath (some d) recursive)).2.getLast?
      = some (.processingCompleted
          (DetectionWorker.run env (w.startProcessing rootPath (some d) recursive)).1.getStats) ∧
    (DetectionWorker.run env
        (w.startProcessing rootPath (some d) recursive)).1.getStats.totalDetections
      = processedDetectionsIn
          (DetectionWorker.run env (w.startProcessing rootPath (some d) recursive)).1.getResults ∧
    (DetectionWorker.run env
        (w.startProcessing rootPath (some d) recursive)).1.getStats.totalDetections
      = signalledDetections
          (DetectionWorker.run env (w.startProcessing rootPath (some d) recursive)).2 ∧
    (DetectionWorker.run env
        (w.startProcessing rootPath (some d) recursive)).1.getStats.processedImages
      = processedImagesIn
          (DetectionWorker.run env (w.startProcessing rootPath (some d) recursive)).1.getResults ∧
    (DetectionWorker.run env
        (w.startProcessing rootPath (some d) recursive)).1.getStats.processedImages
      = signalledImages
          (DetectionWorker.run env (w.startProcessing rootPath (some d) recursive)).2 := by
  cases hscan : FolderScanner.scanForImages rootPath (env.fileSystem rootPath) recursive with
  | error what =>
    have hzero := (run_scanError env w rootPath d recursive hidle hl what hscan).2.1
    rw [hzero] at hpoll
    exact absurd hpoll (Nat.not_lt_zero n)
  | ok scanned =>
    obtain ⟨_, _, h3, h4, h5, _, _, extra, hev, hkind, hsi, hsd, _⟩ :=
      run_spec env w rootPath d recursive hidle hl scanned hscan _ rfl
    generalize DetectionWorker.run env (w.startProcessing rootPath (some d) recursive) = r at *
    simp only [DetectionWorker.getStats, DetectionWorker.getResults]
    have hfilter : extra.filter Event.isProcessingCompleted = [] := by
      rw [List.filter_eq_nil_iff]
      intro e he
      simp [(hkind e he).1]
    refine ⟨?_, ?_, ?_, h5, ?_, h4, ?_⟩
    · rw [h4, h3]
      exact processedImagesIn_le _
    · rw [hev, List.filter_append, hfilter]
      rfl
    · rw [hev]
      simp
    · rw [hev, signalledDetections_append, hsd]
      simp [signalledDetections]
    · rw [hev, signalledImages_append, hsi]
      simp [signalledImages]

/-- Witness of C22: the run over `runTree` in which cancellation becomes visible at poll
point 6, the read before the second image; one of the two images is processed. -/
theorem C22_witness :
    ({} : DetectionWorker).isRunning = false ∧ scenarioDetector.isLoaded = true ∧
    6 < DetectionWorker.runPolls cancelledEnv
      (({} : DetectionWorker).startProcessing "root" (some scenarioDetector) true) ∧
    cancelledEnv.cancelled 5 = false ∧ cancelledEnv.cancelled 6 = true ∧
    (DetectionWorker.run cancelledEnv
        (({} : DetectionWorker).startProcessing "root" (some scenarioDetector) true)).2
      = [.scanningStarted 1, .folderScanned "root/A" 0, .processingStarted 2,
         .imageProcessed "root/A/a.jpg" 0, .folderCompleted "A" 0,
         .processingCompleted
           { totalFolders := 1, processedFolders := 1, totalImages := 2, processedImages := 1,
             totalDetections := 0, startTime := 10, endTime := 20 }] ∧
    (DetectionWorker.run cancelledEnv
        (({} : DetectionWorker).startProcessing "root"
          (some scenarioDetector) true)).1.getStats.processedImages
      ≤ (DetectionWorker.run cancelledEnv
          (({} : DetectionWorker).startProcessing "root"
            (some scenarioDetector) true)).1.getStats.totalImages ∧
    ((DetectionWorker.run cancelledEnv
        (({} : DetectionWorker).startProcessing "root" (some scenarioDetector) true)).2.filter
      Event.isProcessingCompleted).length = 1 ∧
    (DetectionWorker.run cancelledEnv
        (({} : DetectionWorker).startProcessing "root"
          (some scenarioDetector) true)).1.getStats.totalDetections
      = processedDetectionsIn
          (DetectionWorker.run cancelledEnv
            (({} : DetectionWorker).startProcessing "root"
              (some scenarioDetector) true)).1.getResults :=
  ⟨rfl, rfl, by decide, rfl, rfl, by decide,
    (C22_cancelled_run_is_consistent cancelledEnv {} "root" scenarioDetector true rfl rfl 6
      (by decide)).1,
    (C22_cancelled_run_is_consistent cancelledEnv {} "root" scenarioDetector true rfl rfl 6
      (by decide)).2.1,
    (C22_cancelled_run_is_consistent cancelledEnv {} "root" scenarioDetector true rfl rfl 6
      (by decide)).2.2.2.1⟩

/-! ## Claim about the error handling of the image processor -/

/-- Claim C23: for every record with `processed == false`, `processImageResult` returns
normally, and the record afterwards is marked processed with its path kept; when loading,
detection, annotation or metadata generation throws an exception with text `e`, the
metadata afterwards is "Error processing image: " followed by `e`. -/
theorem C23_processImageResult_marks_processed (env : ImageEnv)
    (detector : Image → Except String (List Detection)) (r : ImageResult)
    (h : r.processed = false) :
    ∃ r1 : ImageResult,
      ImageProcessor.processImageResultCall env detector (some r) = .ok (some r1) ∧
      ImageProcessor.processImageResult env detector (some r) = some r1 ∧
      r1.processed = true ∧ r1.imagePath = r.imagePath ∧
      (∀ e, ImageProcessor.loadImage env r.imagePath = .error e →
        r1.metadata = "Error processing image: " ++ e) ∧
      (∀ image e, ImageProcessor.loadImage env r.imagePath = .ok image →
        detector image = .error e → r1.metadata = "Error processing image: " ++ e) ∧
      (∀ image detections e, ImageProcessor.loadImage env r.imagePath = .ok image →
        detector image = .ok detections →
        env.createAnnotatedImage image detections = .error e →
          r1.metadata = "Error processing image: " ++ e) ∧
      (∀ image detections annotated e, ImageProcessor.loadImage env r.imagePath = .ok image →
        detector image = .ok detections →
        env.createAnnotatedImage image detections = .ok annotated →
        env.generateMetadata r.imagePath image detections = .error e →
          r1.metadata = "Error processing image: " ++ e) := by
  obtain ⟨r1, h1, h2, h3⟩ := processImageResult_marks env detector r h
  have hr1 := processImageResult_unprocessed env detector r h
  rw [h1] at hr1
  have hr1 := Option.some.inj hr1
  refine ⟨r1, by rw [ImageProcessor.processImageResultCall, h1], h1, h2, h3, ?_, ?_, ?_, ?_⟩
  · intro e he
    rw [hr1]
    simp [ImageProcessor.processImageResultTry, he]
  · intro image e hl he
    rw [hr1]
    simp [ImageProcessor.processImageResultTry, hl, he]
  · intro image detections e hl hd he
    rw [hr1]
    simp [ImageProcessor.processImageResultTry, hl, hd, he]
  · intro image detections annotated e hl hd ha he
    rw [hr1]
    simp [ImageProcessor.processImageResultTry, hl, hd, ha, he]

/-- Witness of C23: the record of "root/A/a.jpg", which `runImages` cannot decode, ends
processed with the load error in its metadata. -/
theorem C23_witness :
    (ImageResult.new "root/A/a.jpg").processed = false ∧
    ∃ r1 : ImageResult,
      ImageProcessor.processImageResultCall runImages (fun _ => .ok [])
        (some (ImageResult.new "root/A/a.jpg")) = .ok (some r1) ∧
      r1.processed = true ∧ r1.imagePath = "root/A/a.jpg" ∧
      r1.metadata = "Error processing image: Failed to load image: root/A/a.jpg" := by
  refine ⟨rfl, ?_⟩
  obtain ⟨r1, hcall, _, hp, hpath, hload, _⟩ :=
    C23_processImageResult_marks_processed runImages (fun _ => .ok [])
      (ImageResult.new "root/A/a.jpg") rfl
  exact ⟨r1, hcall, hp, hpath, hload "Failed to load image: root/A/a.jpg" (by rfl)⟩

/-! ## Claim about failed images -/

/-- Claim C24 against the code: in the run over `runTree` the image "root/A/a.jpg" cannot
be loaded and inference fails for "root/A/b.jpg", yet the trace holds `imageProcessed`
for both and no `errorOccurred`; the load error is only stored in the metadata of the
record. No run with a loaded detector whose scan returns emits `errorOccurred` at all;
a run whose scan throws emits it once, for the scan and not for an image. -/
theorem C24_failed_image_emits_no_errorOccurred :
    ImageProcessor.loadImage runImages "root/A/a.jpg"
      = .error "Failed to load image: root/A/a.jpg" ∧
    ImageProcessor.loadImage runImages "root/A/b.jpg"
      = .ok { rows := 2, cols := 2, pixels := [0, 0, 0, 0] } ∧
    runEnv.forward { rows := 2, cols := 2, pixels := [0, 0, 0, 0] } = none ∧
    (DetectionWorker.run runEnv
        (({} : DetectionWorker).startProcessing "root" (some scenarioDetector) true)).2
      = [.scanningStarted 1, .folderScanned "root/A" 0, .processingStarted 2,
         .imageProcessed "root/A/a.jpg" 0, .imageProcessed "root/A/b.jpg" 0,
         .folderCompleted "A" 0,
         .processingCompleted
           { totalFolders := 1, processedFolders := 1, totalImages := 2, processedImages := 2,
             totalDetections := 0, startTime := 10, endTime := 20 }] ∧
    (DetectionWorker.run runEnv
        (({} : DetectionWorker).startProcessing "root" (some scenarioDetector) true)).1.getResults
      = [{ folderPath := "root/A", folderName := "A",
           images :=
             [some { imagePath := "root/A/a.jpg", processed := true,
                     metadata := "Error processing image: Failed to load image: root/A/a.jpg" },
              some { imagePath := "root/A/b.jpg", processed := true,
                     originalImage := { rows := 2, cols := 2, pixels := [0, 0, 0, 0] },
                     annotatedImage := { rows := 2, cols := 2, pixels := [0, 0, 0, 0] },
                     metadata := "Path: root/A/b.jpg" }],
           totalDetections := 0, imageCount := 2, processed := true }] ∧
    (∀ (env : WorkerEnv) (w : DetectionWorker) (rootPath : String) (d : YoloDetector)
        (recursive : Bool) (scanned : List FolderResult),
      w.isRunning = false → d.isLoaded = true →
      FolderScanner.scanForImages rootPath (env.fileSystem rootPath) recursive = .ok scanned →
      ∀ e ∈ (DetectionWorker.run env (w.startProcessing rootPath (some d) recursive)).2,
        e.isErrorOccurred = false) ∧
    (DetectionWorker.run brokenEnv
        (({} : DetectionWorker).startProcessing "root" (some scenarioDetector) true)).2
      = [.errorOccurred "filesystem error: cannot get file status"] := by
  refine ⟨rfl, rfl, rfl, by decide, by decide, ?_, by decide⟩
  intro env w rootPath d recursive scanned hidle hl hscan e he
  obtain ⟨_, _, _, _, _, _, _, extra, hev, hkind, _⟩ :=
    run_spec env w rootPath d recursive hidle hl scanned hscan _ rfl
  rw [hev] at he
  rcases List.mem_append.mp he with hm | hm
  · exact (hkind e hm).2
  · rw [List.mem_singleton] at hm
    subst hm
    rfl

/-! ## Claim about processed records -/

/-- Claim C25: for every record with `processed == true`, every environment and every
detector, `processImageResult` leaves the record as it is (path, image buffers,
detections, metadata and flag) and does not call the detector; hence for every entry a
second call, with whatever detector, gives the state the first call gave. -/
theorem C25_processed_record_is_left_alone (env : ImageEnv)
    (detector : Image → Except String (List Detection)) (r : ImageResult)
    (h : r.processed = true) :
    ImageProcessor.processImageResult env detector (some r) = some r ∧
    ImageProcessor.detectorCalls env detector (some r) = 0 ∧
    (∀ (env2 : ImageEnv) (detector2 : Image → Except String (List Detection))
        (x : Option ImageResult),
      ImageProcessor.processImageResult env2 detector2
          (ImageProcessor.processImageResult env detector x)
        = ImageProcessor.processImageResult env detector x ∧
      ImageProcessor.detectorCalls env2 detector2
          (ImageProcessor.processImageResult env detector x) = 0) := by
  have hrun := processImageResultRun_processed env detector r h
  refine ⟨by rw [ImageProcessor.processImageResult, hrun],
    by rw [ImageProcessor.detectorCalls, hrun], ?_⟩
  intro env2 detector2 x
  rcases processImageResult_result env detector x with hx | ⟨r1, hx, hp⟩
  · rw [hx]
    exact ⟨rfl, rfl⟩
  · rw [hx]
    have hrun2 := processImageResultRun_processed env2 detector2 r1 hp
    exact ⟨by rw [ImageProcessor.processImageResult, hrun2],
      by rw [ImageProcessor.detectorCalls, hrun2]⟩

/-- Witness of C25: a processed record and a detector that would throw. -/
theorem C25_witness :
    ImageProcessor.processImageResult runImages (fun _ => .error "inference failed")
        (some { imagePath := "root/A/b.jpg", metadata := "seen", processed := true })
      = some { imagePath := "root/A/b.jpg", metadata := "seen", processed := true } ∧
    ImageProcessor.detectorCalls runImages (fun _ => .error "inference failed")
        (some { imagePath := "root/A/b.jpg", metadata := "seen", processed := true }) = 0 :=
  ⟨(C25_processed_record_is_left_alone runImages (fun _ => .error "inference failed")
      { imagePath := "root/A/b.jpg", metadata := "seen", processed := true } rfl).1,
    (C25_processed_record_is_left_alone runImages (fun _ => .error "inference failed")
      { imagePath := "root/A/b.jpg", metadata := "seen", processed := true } rfl).2.1⟩

/-! ## Claim about the snapshot of the result tree -/

/-- Claim C26 against the code: the sequence `getResults()` returns for `sharedScenario`
points to the same record as the working tree; before the background run processes the
entry the record is seen unprocessed through the returned sequence, afterwards it is seen
processed with the error text in its metadata. For every worker and every later store, the
returned sequence shows what the working tree shows. -/
theorem C26_snapshot_shares_the_image_records :
    observe sharedScenario.store sharedScenario.getResults
      = [{ folderPath := "root/A", folderName := "A",
           images := [some (ImageResult.new "root/A/a.jpg")], imageCount := 1 }] ∧
    observe (sharedScenario.processEntry runImages (fun _ => .ok []) (some 0)).store
        sharedScenario.getResults
      = [{ folderPath := "root/A", folderName := "A",
           images :=
             [some { imagePath := "root/A/a.jpg", processed := true,
                     metadata := "Error processing image: Failed to load image: root/A/a.jpg" }],
           imageCount := 1 }] ∧
    (∀ (w : SharedWorker) (store : ImageStore),
      observe store w.getResults = observe store w.results_) := by
  refine ⟨by decide, by decide, ?_⟩
  intro w store
  have hcopy : SharedFolderResult.copy = id := funext (fun f => rfl)
  rw [SharedWorker.getResults, hcopy, List.map_id]

/-! ## Claim about unreadable directories -/

/-- Claim C27 against the code: in `mixedTree` the unreadable "U" is listed between the
readable "A" and "D", each holding an image; the recursive scan returns "A" only and
misses "D", which it returns when "U" can be read. Whatever is listed after a directory
that cannot be read is never visited. -/
theorem C27_scan_stops_at_unreadable_directory :
    (FolderScanner.scanForImages "root" mixedTree true).map
        (List.map (fun f => f.folderPath))
      = .ok ["root/A"] ∧
    FolderScanner.folderContainsImages "root/D"
      { readable := true, entries := .file "d.jpg" .nil } = true ∧
    (FolderScanner.scanForImages "root" readableTree true).map
        (List.map (fun f => f.folderPath))
      = .ok ["root/A", "root/U", "root/D"] ∧
    (∀ (rootPath parent name : String) (children rest : Entries),
      FolderScanner.walkDirectories rootPath parent (.dir name false children rest)
        = ([], false)) := by
  refine ⟨by decide, by decide, by decide, ?_⟩
  intro rootPath parent name children rest
  simp [FolderScanner.walkDirectories, FolderScanner.folderContainsImages]

/-! ## Claim about the reachable detector states -/

/-- Claim C28: in every detector state reached from construction by a sequence of
`setConfig`, `loadModel` and `detectObjects` calls with arbitrary arguments,
`getConfig().isValid()` holds; the confidence threshold and both input sizes are positive,
so the two divisors of the scale factors of `postProcessDetections` are not zero. -/
theorem C28_reachable_config_is_valid (calls : List DetectorCall) :
    (YoloDetector.afterCalls calls).getConfig.isValid = true ∧
    0 < (YoloDetector.afterCalls calls).getConfig.confidenceThreshold ∧
    0 < (YoloDetector.afterCalls calls).getConfig.inputWidth ∧
    0 < (YoloDetector.afterCalls calls).getConfig.inputHeight ∧
    (((YoloDetector.afterCalls calls).getConfig.inputWidth : Int) : ℚ) ≠ 0 ∧
    (((YoloDetector.afterCalls calls).getConfig.inputHeight : Int) : ℚ) ≠ 0 := by
  have h := afterCalls_config_isValid calls
  obtain ⟨h1, _, _, _, h5, h6⟩ := (isValid_iff _).mp h
  refine ⟨h, h1, h5, h6, ?_, ?_⟩
  · exact_mod_cast h5.ne.symm
  · exact_mod_cast h6.ne.symm

/-! ## Claim about completed runs -/

/-- Claim C29: for every run with a loaded detector in which the cancellation flag never
reads true, whenever `processingCompleted` is emitted (it is not when the scan throws),
it is emitted once and last, with the final statistics, and these satisfy
`processedImages == totalImages ==` the number of entries of the result tree,
`processedFolders == totalFolders ==` the number of its folders, and `totalDetections ==`
the sum of `totalDetections` over its folders, and every folder and every image record of
the tree is marked processed. -/
theorem C29_completed_run_counts_everything (env : WorkerEnv) (w : DetectionWorker)
    (rootPath : String) (d : YoloDetector) (recursive : Bool)
    (hidle : w.isRunning = false) (hl : d.isLoaded = true)
    (hnever : ∀ n, env.cancelled n = false) (stats : ProcessingStats)
    (hemit : Event.processingCompleted stats ∈
      (DetectionWorker.run env (w.startProcessing rootPath (some d) recursive)).2) :
    (DetectionWorker.run env (w.startProcessing rootPath (some d) recursive)).2.getLast?
      = some (.processingCompleted stats) ∧
    ((DetectionWorker.run env (w.startProcessing rootPath (some d) recursive)).2.filter
      Event.isProcessingCompleted) = [.processingCompleted stats] ∧
    stats = (DetectionWorker.run env
      (w.startProcessing rootPath (some d) recursive)).1.getStats ∧
    stats.processedImages = stats.totalImages ∧
    stats.totalImages = imagesIn
      (DetectionWorker.run env (w.startProcessing rootPath (some d) recursive)).1.getResults ∧
    stats.processedFolders = stats.totalFolders ∧
    stats.totalFolders =
      ((DetectionWorker.run env
        (w.startProcessing rootPath (some d) recursive)).1.getResults.length : Int) ∧
    stats.totalDetections =
      ((DetectionWorker.run env
        (w.startProcessing rootPath (some d) recursive)).1.getResults.map
          (fun f => f.totalDetections)).sum ∧
    ∀ f ∈ (DetectionWorker.run env
        (w.startProcessing rootPath (some d) recursive)).1.getResults,
      f.processed = true ∧
      ∀ img ∈ f.images, ∃ r : ImageResult, img = some r ∧ r.processed = true := by
  cases hscan : FolderScanner.scanForImages rootPath (env.fileSystem rootPath) recursive with
  | error what =>
    have htrace := (run_scanError env w rootPath d recursive hidle hl what hscan).1
    rw [htrace, List.mem_singleton] at hemit
    exact Event.noConfusion hemit
  | ok scanned =>
    obtain ⟨_, h2, h3, h4, h5, h6, hall, extra, hev, hkind, _, _, _⟩ :=
      run_spec env w rootPath d recursive hidle hl scanned hscan _ rfl
    generalize DetectionWorker.run env (w.startProcessing rootPath (some d) recursive) = r at *
    simp only [DetectionWorker.getStats, DetectionWorker.getResults]
    have hfilter : extra.filter Event.isProcessingCompleted = [] := by
      rw [List.filter_eq_nil_iff]
      intro e he
      simp [(hkind e he).1]
    have hstats : stats = r.1.stats_ := by
      rw [hev] at hemit
      rcases List.mem_append.mp hemit with hm | hm
      · have := (hkind _ hm).1
        simp [Event.isProcessingCompleted] at this
      · rw [List.mem_singleton] at hm
        injection hm
    subst hstats
    obtain ⟨e1, e2, e3⟩ := processedIn_of_all r.1.results_ (hall hnever)
    refine ⟨?_, ?_, rfl, ?_, h3, ?_, h2, ?_, ?_⟩
    · rw [hev]
      simp
    · rw [hev, List.filter_append, hfilter]
      rfl
    · rw [h4, h3, e1]
    · rw [h6, h2, e3]
    · rw [h5, e2]
    · intro f hf
      obtain ⟨hp, himg, _⟩ := hall hnever f hf
      refine ⟨hp, ?_⟩
      intro img hmem
      have := himg img hmem
      cases img with
      | none => simp [entryProcessed] at this
      | some r0 => exact ⟨r0, rfl, by simpa [entryProcessed] using this⟩

/-- Witness of C29: the run over `runTree` that is never cancelled emits
`processingCompleted`; both images and the folder are processed. -/
theorem C29_witness :
    ({} : DetectionWorker).isRunning = false ∧ scenarioDetector.isLoaded = true ∧
    (∀ n, runEnv.cancelled n = false) ∧
    Event.processingCompleted
        { totalFolders := 1, processedFolders := 1, totalImages := 2, processedImages := 2,
          totalDetections := 0, startTime := 10, endTime := 20 } ∈
      (DetectionWorker.run runEnv
        (({} : DetectionWorker).startProcessing "root" (some scenarioDetector) true)).2 ∧
    (DetectionWorker.run runEnv
        (({} : DetectionWorker).startProcessing "root" (some scenarioDetector) true)).2.getLast?
      = some (.processingCompleted
          { totalFolders := 1, processedFolders := 1, totalImages := 2, processedImages := 2,
            totalDetections := 0, startTime := 10, endTime := 20 }) ∧
    ∀ f ∈ (DetectionWorker.run runEnv
        (({} : DetectionWorker).startProcessing "root"
          (some scenarioDetector) true)).1.getResults,
      f.processed = true ∧
      ∀ img ∈ f.images, ∃ r : ImageResult, img = some r ∧ r.processed = true :=
  have hemit : Event.processingCompleted
        { totalFolders := 1, processedFolders := 1, totalImages := 2, processedImages := 2,
          totalDetections := 0, startTime := 10, endTime := 20 } ∈
      (DetectionWorker.run runEnv
        (({} : DetectionWorker).startProcessing "root" (some scenarioDetector) true)).2 := by
    decide
  ⟨rfl, rfl, fun _ => rfl, hemit,
    (C29_completed_run_counts_everything runEnv {} "root" scenarioDetector true rfl rfl
      (fun _ => rfl) _ hemit).1,
    (C29_completed_run_counts_everything runEnv {} "root" scenarioDetector true rfl rfl
      (fun _ => rfl) _ hemit).2.2.2.2.2.2.2.2⟩

/-! ## Claim about the extent of the emitted box -/

end Core
end YoloApp
